import Mathlib

/-!
Narrow casting system: schedule store, resolver and schedule manager.

A shallow embedding of the server side of the narrow casting system:

* `backend/database/DatabaseManager.js`: the tables `content`, `schedule`,
  `zones`, `logs` and the queries over them;
* `backend/services/ScheduleManager.js`: validation and creation of schedule
  entries, the overlap query, the one-minute cache in front of the resolver
  and the `scheduleUpdate` emission;
* `backend/server.js`: the socket handlers, the schedule routes and the upload
  route;
* `client/js/connection.js`, `client/js/display.js`, `client/js/app.js`: the
  display session, its reconnection, and the playback state of the display;
* `admin/js/websocket.js`: the reconnection of the admin session.

Tables are lists of rows in insertion order.  Timestamps are stored as TEXT and
compared by SQLite with the BINARY collation, which on UTF-8 text is the
lexicographic order of code points; `textLt` is that order.  On two texts of
the form `toISOString` writes it is the order of their instants
(`textLe_iff_isoDate`); a text of another form that `new Date` reads, such as
one with a UTC offset, is compared as text all the same.  The readings of
the host clock and the host `Date` constructor are inputs of the operations.
A display session is a state together with the list of what it has done to the
outside (socket events sent, requests fetched, timers set); what reaches it
from the outside (socket events, timer callbacks, answers) is an event.
-/

namespace NarrowCasting

/-! ## Text order used by SQLite on TEXT columns -/

/-- Lexicographic comparison of two texts by code point (BINARY collation). -/
def textLtChars : List Char → List Char → Bool
  | [], [] => false
  | [], _ :: _ => true
  | _ :: _, [] => false
  | a :: as, b :: bs =>
    if a.toNat < b.toNat then true
    else if b.toNat < a.toNat then false
    else textLtChars as bs

/-- SQL `a < b` on two TEXT values. -/
def textLt (a b : String) : Bool := textLtChars a.toList b.toList

/-- SQL `a <= b` on two TEXT values. -/
def textLe (a b : String) : Bool := !textLt b a

/-! ## Rows of the four tables (`DatabaseManager.createTables`) -/

/-- A row of table `content`. -/
structure ContentRow where
  id : String
  type : String
  title : String
  filename : String
  originalName : String
  mimeType : String
  size : Int
  path : String
  url : String
  zone : String
  duration : Int
  isActive : Int
  createdAt : String
  updatedAt : Option String
deriving DecidableEq, Repr

/-- A row of table `schedule`. -/
structure ScheduleRow where
  id : String
  contentId : String
  zone : String
  startTime : String
  endTime : String
  priority : Int
  isActive : Int
  createdAt : String
deriving DecidableEq, Repr

/-- A row of table `zones`. -/
structure ZoneRow where
  id : String
  name : String
  description : String
  displayOrder : Int
  isActive : Int
deriving DecidableEq, Repr

/-- A value of the object that `addLog` serialises into column `data`. -/
inductive LogValue where
  | str (s : String)
  | num (n : Int)
deriving DecidableEq, Repr

/-- A row of table `logs` (the random `id` column is left out). -/
structure LogRow where
  type : String
  message : String
  data : List (String × LogValue)
  timestamp : String
deriving DecidableEq, Repr

/-- The database: the four tables, each in insertion order. -/
structure Store where
  content : List ContentRow
  schedule : List ScheduleRow
  zones : List ZoneRow
  logs : List LogRow
deriving DecidableEq, Repr

/-- The rows inserted by `createTables` into `zones`. -/
def defaultZones : List ZoneRow :=
  [ ⟨"reception", "Receptie", "Hoofdingang en receptie", 1, 1⟩,
    ⟨"restaurant", "Restaurant", "Eetgelegenheid", 2, 1⟩,
    ⟨"skislope", "Skibaan", "Hoofdskibaan", 3, 1⟩,
    ⟨"lockers", "Kluisjes", "Kleedkamers en kluisjes", 4, 1⟩,
    ⟨"shop", "Winkel", "Ski-uitrusting winkel", 5, 1⟩,
    ⟨"all", "Alle zones", "Toon op alle schermen", 0, 1⟩ ]

/-! ## Queries of `DatabaseManager` -/

/-- The row set of `schedule s JOIN content c ON s.contentId = c.id`, in the
order of the schedule table. -/
def joinScheduleContent (st : Store) : List (ScheduleRow × ContentRow) :=
  st.schedule.flatMap fun s =>
    (st.content.filter fun c => decide (s.contentId = c.id)).map fun c => (s, c)

/-- The key of `ORDER BY s.priority DESC, s.createdAt ASC`: `a` may stand
before `b`. -/
def scheduleOrder (a b : ScheduleRow × ContentRow) : Prop :=
  b.1.priority < a.1.priority ∨
    (a.1.priority = b.1.priority ∧ textLe a.1.createdAt b.1.createdAt = true)

instance : DecidableRel scheduleOrder := fun a b => by
  unfold scheduleOrder; exact inferInstance

/-- The WHERE clause of `getActiveSchedule` on a joined row. -/
def activeAt (zone now : String) (r : ScheduleRow × ContentRow) : Bool :=
  decide (r.1.zone = zone) && textLe r.1.startTime now && textLe now r.1.endTime
    && decide (r.1.isActive = 1) && decide (r.2.isActive = 1)

/-- The query of `DatabaseManager.getActiveSchedule(zone)`, where `now` is the
value of `new Date().toISOString()` at the call.  A result row is kept as the
pair of the schedule row and the content row it was joined from. -/
def DatabaseManager.getActiveSchedule (st : Store) (now zone : String) :
    List (ScheduleRow × ContentRow) :=
  List.insertionSort scheduleOrder ((joinScheduleContent st).filter (activeAt zone now))

/-- The query of `DatabaseManager.getContentById(id)`: the row, or nothing. -/
def DatabaseManager.getContentById (st : Store) (id : String) : Option ContentRow :=
  st.content.find? fun c => decide (c.id = id)

/-- The object `scheduleData` handed to `addSchedule`: the columns the INSERT
binds.  Column `isActive` is not bound and takes its default. -/
structure ScheduleData where
  id : String
  contentId : String
  zone : String
  startTime : String
  endTime : String
  priority : Int
  createdAt : String
deriving DecidableEq, Repr

/-- The row that the INSERT of `DatabaseManager.addSchedule` stores:
`isActive` takes the column default 1. -/
def ScheduleData.toRow (sd : ScheduleData) : ScheduleRow :=
  { id := sd.id, contentId := sd.contentId, zone := sd.zone, startTime := sd.startTime,
    endTime := sd.endTime, priority := sd.priority, isActive := 1, createdAt := sd.createdAt }

/-- The statement of `DatabaseManager.addSchedule(scheduleData)`: the INSERT is
refused when the primary key `id` is already present, otherwise the row is
appended. -/
def DatabaseManager.addSchedule (st : Store) (sd : ScheduleData) : Except String Store :=
  if st.schedule.any (fun s => decide (s.id = sd.id)) then
    .error "SQLITE_CONSTRAINT: UNIQUE constraint failed: schedule.id"
  else
    .ok { st with schedule := st.schedule ++ [sd.toRow] }

/-- The statement of `DatabaseManager.addLog(type, message, data)`, where
`now` is the value of `new Date().toISOString()` at the call. -/
def DatabaseManager.addLog (st : Store) (now type message : String)
    (data : List (String × LogValue)) : Store :=
  { st with logs := st.logs ++ [{ type := type, message := message, data := data, timestamp := now }] }

/-! ## `ScheduleManager` -/

/-- A value of the map `activeSchedules`: the cached list and the instant
until which it is served. -/
structure CacheEntry where
  schedule : List (ScheduleRow × ContentRow)
  timestamp : String
deriving DecidableEq, Repr

/-- One call `this.io.to(room).emit(event, payload)` with the payload
`zone`, `schedule`, `timestamp`. -/
structure Emission where
  room : String
  event : String
  zone : String
  schedule : List (ScheduleRow × ContentRow)
  timestamp : String
deriving DecidableEq, Repr

/-- The state a `ScheduleManager` works on: the database behind `this.db`, the
map `this.activeSchedules`, and the messages sent through `this.io` so far. -/
structure ManagerState where
  db : Store
  activeSchedules : List (String × CacheEntry)
  emitted : List Emission
deriving DecidableEq, Repr

/-- The readings of the host clock during one operation: `ms` is
`new Date()` as milliseconds, `now` is `new Date().toISOString()` and
`nowPlusMinute` is `new Date(Date.now() + 60000).toISOString()`. -/
structure Clock where
  ms : Int
  now : String
  nowPlusMinute : String
deriving DecidableEq, Repr

/-- The call `activeSchedules.get(zone)`. -/
def cacheGet (cache : List (String × CacheEntry)) (zone : String) : Option CacheEntry :=
  (cache.find? fun p => decide (p.1 = zone)).map Prod.snd

/-- The call `activeSchedules.set(zone, entry)`. -/
def cacheSet (cache : List (String × CacheEntry)) (zone : String) (entry : CacheEntry) :
    List (String × CacheEntry) :=
  (zone, entry) :: cache.filter fun p => !decide (p.1 = zone)

/-- A row of the result of `checkOverlappingSchedules`:
`SELECT s.*, c.title, c.type`. -/
structure OverlapRow where
  s : ScheduleRow
  title : String
  type : String
deriving DecidableEq, Repr

/-- The WHERE clause of `checkOverlappingSchedules` on a joined row, with the
parameters bound in the order `[zone, endTime, startTime, priority]`. -/
def overlapsHigher (zone startTime endTime : String) (priority : Int)
    (r : ScheduleRow × ContentRow) : Bool :=
  decide (r.1.zone = zone) && textLt r.1.startTime endTime && textLt startTime r.1.endTime
    && decide (priority < r.1.priority) && decide (r.1.isActive = 1)

/-- The query of `ScheduleManager.checkOverlappingSchedules`. -/
def ScheduleManager.checkOverlappingSchedules (db : Store) (zone startTime endTime : String)
    (priority : Int) : List OverlapRow :=
  ((joinScheduleContent db).filter (overlapsHigher zone startTime endTime priority)).map
    fun r => { s := r.1, title := r.2.title, type := r.2.type }

/-- The method `ScheduleManager.getActiveSchedule(zone)`: a cached list is
served while its `timestamp` is later than now; otherwise the resolver is
queried and its result cached for one minute. -/
def ScheduleManager.getActiveSchedule (st : ManagerState) (clk : Clock) (zone : String) :
    List (ScheduleRow × ContentRow) × ManagerState :=
  let fresh : Option CacheEntry :=
    match cacheGet st.activeSchedules zone with
    | some cached => if textLt clk.now cached.timestamp then some cached else none
    | none => none
  match fresh with
  | some cached => (cached.schedule, st)
  | none =>
    let schedule := DatabaseManager.getActiveSchedule st.db clk.now zone
    let entry : CacheEntry := { schedule := schedule, timestamp := clk.nowPlusMinute }
    (schedule, { st with activeSchedules := cacheSet st.activeSchedules zone entry })

/-- The method `ScheduleManager.updateActiveSchedules(zone)`: the list of
`getActiveSchedule(zone)` is emitted to room `zone` and to room `admin`, and a
log row is written. -/
def ScheduleManager.updateActiveSchedules (st : ManagerState) (clk : Clock) (zone : String) :
    ManagerState :=
  let (schedule, st1) := ScheduleManager.getActiveSchedule st clk zone
  let msg (room : String) : Emission :=
    { room := room, event := "scheduleUpdate", zone := zone, schedule := schedule,
      timestamp := clk.now }
  { st1 with
    emitted := st1.emitted ++ [msg zone, msg "admin"],
    db := DatabaseManager.addLog st1.db clk.now "schedule" "Active schedule updated"
      [("zone", .str zone), ("count", .num schedule.length)] }

/-- The comparison `a >= b` of two `Date` objects; `none` is an Invalid Date,
whose time value is NaN, and every comparison with NaN is false. -/
def dateGe (a b : Option Int) : Bool :=
  match a, b with
  | some x, some y => decide (y ≤ x)
  | _, _ => false

/-- The comparison `a < b` of two `Date` objects (false on an Invalid Date). -/
def dateLt (a b : Option Int) : Bool :=
  match a, b with
  | some x, some y => decide (x < y)
  | _, _ => false

/-- The method `ScheduleManager.addSchedule(scheduleData)`.  `parseDate` is the
host constructor `new Date(text)` (`none` for an Invalid Date).  The result is
the returned schedule or the message of the thrown error, with the state after
the call; the call of `updateActiveSchedules` that the method starts is run to
its end.  The list `overlapping` only decides whether `console.warn` is called
(`_warned`). -/
def ScheduleManager.addSchedule (parseDate : String → Option Int) (st : ManagerState)
    (clk : Clock) (sd : ScheduleData) : Except String ScheduleData × ManagerState :=
  match DatabaseManager.getContentById st.db sd.contentId with
  | none => (.error "Content not found", st)
  | some _ =>
    let startTime := parseDate sd.startTime
    let endTime := parseDate sd.endTime
    if dateGe startTime endTime then
      (.error "End time must be after start time", st)
    else if dateLt startTime (some clk.ms) then
      (.error "Start time cannot be in the past", st)
    else
      let overlapping := ScheduleManager.checkOverlappingSchedules st.db sd.zone sd.startTime
        sd.endTime sd.priority
      let _warned : Bool := decide (0 < overlapping.length)
      match DatabaseManager.addSchedule st.db sd with
      | .error e => (.error e, st)
      | .ok db1 =>
        let db2 := DatabaseManager.addLog db1 clk.now "schedule" "Schedule created"
          [("scheduleId", .str sd.id), ("zone", .str sd.zone), ("contentId", .str sd.contentId)]
        (.ok sd, ScheduleManager.updateActiveSchedules { st with db := db2 } clk sd.zone)

/-- The query of `ScheduleManager.getScheduleById(scheduleId)`. -/
def ScheduleManager.getScheduleById (db : Store) (scheduleId : String) : Option ScheduleRow :=
  db.schedule.find? fun s => decide (s.id = scheduleId)

/-- The method `ScheduleManager.deleteSchedule(scheduleId)`: the row is
deleted; when it existed, a log row is written and `updateActiveSchedules` runs
for its zone.  The method returns `true`. -/
def ScheduleManager.deleteSchedule (st : ManagerState) (clk : Clock) (scheduleId : String) :
    Bool × ManagerState :=
  let schedule := ScheduleManager.getScheduleById st.db scheduleId
  let db1 : Store :=
    { st.db with schedule := st.db.schedule.filter fun s => !decide (s.id = scheduleId) }
  match schedule with
  | none => (true, { st with db := db1 })
  | some s =>
    let db2 := DatabaseManager.addLog db1 clk.now "schedule" "Schedule deleted"
      [("scheduleId", .str scheduleId), ("zone", .str s.zone), ("contentId", .str s.contentId)]
    (true, ScheduleManager.updateActiveSchedules { st with db := db2 } clk s.zone)

/-! ## A sample of the host `Date` constructor -/

/-- The decimal value of a run of ASCII digits, or nothing when a character
is not a digit. -/
def digitsValue (cs : List Char) : Option Nat :=
  cs.foldl (fun acc c =>
    match acc with
    | some n => if c.isDigit then some (10 * n + (c.toNat - 48)) else none
    | none => none) (some 0)

/-- Days from 1970-01-01 to the civil date `y-m-d` (proleptic Gregorian). -/
def daysFromCivil (y m d : Nat) : Int :=
  let y1 : Int := if m ≤ 2 then (y : Int) - 1 else y
  let era : Int := y1 / 400
  let yoe : Int := y1 - era * 400
  let mp : Int := if m ≤ 2 then (m : Int) + 9 else (m : Int) - 3
  let doy : Int := (153 * mp + 2) / 5 + (d : Int) - 1
  let doe : Int := yoe * 365 + yoe / 4 - yoe / 100 + doy
  era * 146097 + doe - 719468

/-- Number of days of month `m` in year `y`. -/
def daysInMonth (y m : Nat) : Nat :=
  if m = 2 then (if y % 4 = 0 ∧ (y % 100 ≠ 0 ∨ y % 400 = 0) then 29 else 28)
  else if m = 4 ∨ m = 6 ∨ m = 9 ∨ m = 11 then 30 else 31

/-- A sample of the host constructor `new Date(text)`: the time value in
milliseconds of a text of the form `YYYY-MM-DDTHH:mm:ss.sssZ` (the form
`toISOString` writes) naming a valid date and time, and an Invalid Date
(`none`) on the other texts it is used on here. -/
def isoDate (text : String) : Option Int :=
  match text.toList with
  | [y1, y2, y3, y4, '-', m1, m2, '-', d1, d2, 'T', h1, h2, ':', n1, n2, ':', s1, s2, '.',
      f1, f2, f3, 'Z'] =>
    match digitsValue [y1, y2, y3, y4], digitsValue [m1, m2], digitsValue [d1, d2],
        digitsValue [h1, h2], digitsValue [n1, n2], digitsValue [s1, s2],
        digitsValue [f1, f2, f3] with
    | some y, some m, some d, some h, some n, some s, some f =>
      if 1 ≤ m ∧ m ≤ 12 ∧ 1 ≤ d ∧ d ≤ daysInMonth y m ∧ h ≤ 23 ∧ n ≤ 59 ∧ s ≤ 59 then
        some ((((daysFromCivil y m d * 24 + h) * 60 + n) * 60 + s) * 1000 + f)
      else none
    | _, _, _, _, _, _, _ => none
  | _ => none

/-! ## Sample data -/

/-- An image content record with the given id and active flag. -/
def sampleContent (id : String) (isActive : Int) : ContentRow :=
  { id := id, type := "image", title := id, filename := "f.png", originalName := "f.png",
    mimeType := "image/png", size := 1024, path := "/uploads/images/f.png",
    url := "/uploads/images/f.png", zone := "all", duration := 10, isActive := isActive,
    createdAt := "2029-12-01T00:00:00.000Z", updatedAt := none }

/-- Entry A of the reception scenario: priority 1, window the whole of
2030-01-01. -/
def entryA : ScheduleRow :=
  { id := "entryA", contentId := "contentA", zone := "reception",
    startTime := "2030-01-01T00:00:00.000Z", endTime := "2030-01-02T00:00:00.000Z",
    priority := 1, isActive := 1, createdAt := "2029-12-30T00:00:00.000Z" }

/-- Entry B of the reception scenario: priority 5, same window, created
after A. -/
def entryB : ScheduleRow :=
  { id := "entryB", contentId := "contentB", zone := "reception",
    startTime := "2030-01-01T00:00:00.000Z", endTime := "2030-01-02T00:00:00.000Z",
    priority := 5, isActive := 1, createdAt := "2029-12-31T00:00:00.000Z" }

/-- The store of the reception scenario. -/
def receptionStore : Store :=
  { content := [sampleContent "contentA" 1, sampleContent "contentB" 1],
    schedule := [entryA, entryB], zones := defaultZones, logs := [] }

/-- The clock at 2030-01-01 12:00:00 UTC. -/
def noon : Clock :=
  { ms := 1893499200000, now := "2030-01-01T12:00:00.000Z",
    nowPlusMinute := "2030-01-01T12:01:00.000Z" }

/-- The clock thirty seconds after `noon`. -/
def halfPastNoon : Clock :=
  { ms := 1893499230000, now := "2030-01-01T12:00:30.000Z",
    nowPlusMinute := "2030-01-01T12:01:30.000Z" }

/-- A manager with the given database, an empty cache and nothing emitted. -/
def freshManager (db : Store) : ManagerState :=
  { db := db, activeSchedules := [], emitted := [] }

/-- An active entry of zone `all` whose window is the whole of 2030-01-01. -/
def entryAll : ScheduleRow :=
  { id := "entryAll", contentId := "contentA", zone := "all",
    startTime := "2030-01-01T00:00:00.000Z", endTime := "2030-01-02T00:00:00.000Z",
    priority := 3, isActive := 1, createdAt := "2029-12-30T00:00:00.000Z" }

/-- A store whose only schedule entry is `entryAll`. -/
def allZoneStore : Store :=
  { content := [sampleContent "contentA" 1], schedule := [entryAll], zones := defaultZones,
    logs := [] }

/-- An entry of zone reception whose window ends at 12:00:10. -/
def entryShort : ScheduleRow :=
  { id := "entryShort", contentId := "contentA", zone := "reception",
    startTime := "2030-01-01T00:00:00.000Z", endTime := "2030-01-01T12:00:10.000Z",
    priority := 1, isActive := 1, createdAt := "2029-12-30T00:00:00.000Z" }

/-- A store whose only schedule entry is `entryShort`. -/
def shortStore : Store :=
  { content := [sampleContent "contentA" 1], schedule := [entryShort], zones := defaultZones,
    logs := [] }

/-- A request for content A in the given zone and window, priority 1. -/
def sampleRequest (id contentId zone startTime endTime : String) : ScheduleData :=
  { id := id, contentId := contentId, zone := zone, startTime := startTime, endTime := endTime,
    priority := 1, createdAt := "2030-01-01T12:00:00.000Z" }

/-! ## Values exchanged with a display -/

/-- An element of the array a display receives as its content: the fields
of a served row that the display reads. -/
structure DisplayItem where
  id : String
  type : String
  title : String
  url : String
  mimeType : String
  zone : String
  priority : Int
  duration : Int
  createdAt : String
deriving DecidableEq, Repr

/-- The object the database driver builds for a row of `SELECT s.*, c.*`:
columns are set by name in select order, so `id`, `zone` and `createdAt`
carry the values of the content row. -/
def rowObject (r : ScheduleRow × ContentRow) : DisplayItem :=
  { id := r.2.id, type := r.2.type, title := r.2.title, url := r.2.url,
    mimeType := r.2.mimeType, zone := r.2.zone, priority := r.1.priority,
    duration := r.2.duration, createdAt := r.2.createdAt }

/-- A value carried by a socket event or a JSON body. -/
inductive JsVal where
  | undefined
  | str (s : String)
  | num (n : Int)
  | items (l : List DisplayItem)
  | obj (fields : List (String × JsVal))

/-- Property access `v.key` (`undefined` when the property is missing). -/
def JsVal.get (v : JsVal) (key : String) : JsVal :=
  match v with
  | .obj fields =>
    match fields.find? fun p => decide (p.1 = key) with
    | some p => p.2
    | none => .undefined
  | _ => .undefined

/-- The test `v === s` against a string `s`. -/
def JsVal.isStr (v : JsVal) (s : String) : Bool :=
  match v with
  | .str t => decide (t = s)
  | _ => false

/-- The object `schedule` as JSON: the `scheduleData` that `addSchedule`
returns. -/
def ScheduleData.toJs (sd : ScheduleData) : JsVal :=
  .obj [("id", .str sd.id), ("contentId", .str sd.contentId), ("zone", .str sd.zone),
    ("startTime", .str sd.startTime), ("endTime", .str sd.endTime),
    ("priority", .num sd.priority), ("createdAt", .str sd.createdAt)]

/-! ## The server: socket handlers and the schedule routes (`server.js`) -/

/-- Room membership of the socket server: the pairs (socket id, room). -/
structure Hub where
  rooms : List (String × String)
deriving DecidableEq, Repr

/-- The call `socket.join(zone)`. -/
def Hub.join (h : Hub) (socketId zone : String) : Hub :=
  if (socketId, zone) ∈ h.rooms then h else { rooms := h.rooms ++ [(socketId, zone)] }

/-- The call `socket.leave(zone)`. -/
def Hub.leave (h : Hub) (socketId zone : String) : Hub :=
  { rooms := h.rooms.filter fun p => !decide (p = (socketId, zone)) }

/-- The handlers registered in `io.on('connection', ...)`, for an event
received from socket `socketId`: the membership after the event and the
messages sent in answer.  Only `joinZone`, `leaveZone` and `disconnect` have a
handler; on `disconnect` the socket server has dropped the socket from its
rooms. -/
def Server.onSocketEvent (h : Hub) (socketId event : String) (payload : JsVal) :
    Hub × List (String × JsVal) :=
  if event = "joinZone" then
    match payload with
    | .str zone => (h.join socketId zone, [])
    | _ => (h, [])
  else if event = "leaveZone" then
    match payload with
    | .str zone => (h.leave socketId zone, [])
    | _ => (h, [])
  else if event = "disconnect" then
    ({ rooms := h.rooms.filter fun p => !decide (p.1 = socketId) }, [])
  else (h, [])

/-- The body of a request to `POST /api/schedule`; a missing or zero
`priority` becomes 1. -/
structure ScheduleBody where
  contentId : String
  zone : String
  startTime : String
  endTime : String
  priority : Int
deriving DecidableEq, Repr

/-- The handler of `POST /api/schedule`, with `uuid` the fresh `uuidv4()`:
the HTTP status, the state after the call and what `io.emit` broadcasts to
every socket. -/
def Server.postSchedule (parseDate : String → Option Int) (st : ManagerState) (clk : Clock)
    (uuid : String) (body : ScheduleBody) : Nat × ManagerState × List (String × JsVal) :=
  let scheduleData : ScheduleData :=
    { id := uuid, contentId := body.contentId, zone := body.zone, startTime := body.startTime,
      endTime := body.endTime, priority := if body.priority = 0 then 1 else body.priority,
      createdAt := clk.now }
  match ScheduleManager.addSchedule parseDate st clk scheduleData with
  | (.ok schedule, st1) =>
    (200, st1, [("scheduleUpdated",
      .obj [("type", .str "schedule_added"), ("schedule", schedule.toJs)])])
  | (.error _, st1) => (500, st1, [])

/-- The handler of `GET /api/schedule/:zone`: the JSON array of the rows of
`scheduleManager.getActiveSchedule(zone)`. -/
def Server.getSchedule (st : ManagerState) (clk : Clock) (zone : String) :
    JsVal × ManagerState :=
  let (schedule, st1) := ScheduleManager.getActiveSchedule st clk zone
  (.items (schedule.map rowObject), st1)

/-! ## The display: `DisplayManager` (`client/js/display.js`) -/

/-- A pending dwell timer: the handle `setTimeout` returned and its delay in
milliseconds. -/
structure Timer where
  id : Nat
  delay : Int
deriving DecidableEq, Repr

/-- What element `contentDisplay` has last been asked to show. -/
inductive Shown where
  | nothing
  | item (i : DisplayItem)
  | placeholder
  | error
deriving DecidableEq, Repr

/-- The fields of a `DisplayManager`, with the dwell timers of the host that
are set and have neither fired nor been cleared (`pending`), the handle the
next `setTimeout` returns (`nextTimerId`, positive) and the element shown. -/
structure DisplayManager where
  currentContent : List DisplayItem
  currentIndex : Nat
  contentTimer : Option Nat
  isPlaying : Bool
  zone : String
  pending : List Timer
  nextTimerId : Nat
  shown : Shown
deriving DecidableEq, Repr

/-- The state the constructor leaves for the zone of the URL. -/
def DisplayManager.new (zone : String) : DisplayManager :=
  { currentContent := [], currentIndex := 0, contentTimer := none, isPlaying := false,
    zone := zone, pending := [], nextTimerId := 1, shown := .nothing }

/-- The statement `if (this.contentTimer) clearTimeout(this.contentTimer)`. -/
def DisplayManager.clearTimer (d : DisplayManager) : DisplayManager :=
  match d.contentTimer with
  | some id => { d with pending := d.pending.filter fun t => !decide (t.id = id) }
  | none => d

/-- The method `showPlaceholder()`. -/
def DisplayManager.showPlaceholder (d : DisplayManager) : DisplayManager :=
  { d with shown := .placeholder }

/-- The method `showError()`. -/
def DisplayManager.showError (d : DisplayManager) : DisplayManager :=
  { d with shown := .error }

/-- The method `showContentItem(contentItem)`; on `undefined` the method
throws (`.error` holds the state at the throw). -/
def DisplayManager.showContentItem (d : DisplayManager) (contentItem : Option DisplayItem) :
    Except DisplayManager DisplayManager :=
  match contentItem with
  | some i => .ok { d with shown := .item i }
  | none => .error d

/-- The method `scheduleNextContent()`: while playing, the timer in
`contentTimer` is cleared and a timer of `(duration || 10) * 1000` ms is set
for the current item; the method throws when there is no current item. -/
def DisplayManager.scheduleNextContent (d : DisplayManager) :
    Except DisplayManager DisplayManager :=
  if !d.isPlaying then .ok d
  else
    let d1 := d.clearTimer
    match d1.currentContent[d1.currentIndex]? with
    | none => .error d1
    | some currentItem =>
      let duration := (if currentItem.duration = 0 then 10 else currentItem.duration) * 1000
      .ok { d1 with
        contentTimer := some d1.nextTimerId,
        pending := d1.pending ++ [{ id := d1.nextTimerId, delay := duration }],
        nextTimerId := d1.nextTimerId + 1 }

/-- The method `startPlayback()`. -/
def DisplayManager.startPlayback (d : DisplayManager) : Except DisplayManager DisplayManager :=
  if d.currentContent.length = 0 then .ok d.showPlaceholder
  else
    let d1 := { d with isPlaying := true, currentIndex := 0 }
    match d1.showContentItem d1.currentContent[0]? with
    | .ok d2 => d2.scheduleNextContent
    | .error d2 => .error d2

/-- The value of the comparator that `loadContent` passes to `sort`
(`none` is NaN). -/
def compareItems (parseDate : String → Option Int) (a b : DisplayItem) : Option Int :=
  let priorityA := if a.priority = 0 then 0 else a.priority
  let priorityB := if b.priority = 0 then 0 else b.priority
  if priorityA ≠ priorityB then some (priorityB - priorityA)
  else
    match parseDate b.createdAt, parseDate a.createdAt with
    | some y, some x => some (y - x)
    | _, _ => none

/-- In the sorted array `a` may stand before `b`: the comparator is not
positive (NaN counts as zero). -/
def sortsBefore (parseDate : String → Option Int) (a b : DisplayItem) : Prop :=
  match compareItems parseDate a b with
  | some v => v ≤ 0
  | none => True

instance (parseDate : String → Option Int) : DecidableRel (sortsBefore parseDate) :=
  fun a b => by
    unfold sortsBefore
    cases compareItems parseDate a b <;> exact inferInstance

/-- The method `loadContent(contentList)`: the list is filtered to the
display zone and `all`, an empty result shows the placeholder, otherwise the
list is sorted (a stable sort) and playback starts; an exception shows the
error display. -/
def DisplayManager.loadContent (parseDate : String → Option Int) (d : DisplayManager)
    (contentList : List DisplayItem) : DisplayManager :=
  let d1 := { d with currentContent :=
    contentList.filter fun item => decide (item.zone = d.zone) || decide (item.zone = "all") }
  if d1.currentContent.length = 0 then d1.showPlaceholder
  else
    let d2 := { d1 with
      currentContent := List.insertionSort (sortsBefore parseDate) d1.currentContent }
    match d2.startPlayback with
    | .ok d3 => d3
    | .error d3 => d3.showError

/-- The method `nextContent()`. -/
def DisplayManager.nextContent (d : DisplayManager) : Except DisplayManager DisplayManager :=
  if !d.isPlaying || d.currentContent.length = 0 then .ok d
  else
    let d1 := { d with currentIndex := (d.currentIndex + 1) % d.currentContent.length }
    match d1.showContentItem d1.currentContent[d1.currentIndex]? with
    | .ok d2 => d2.scheduleNextContent
    | .error d2 => .error d2

/-- The method `previousContent()`. -/
def DisplayManager.previousContent (d : DisplayManager) : Except DisplayManager DisplayManager :=
  if !d.isPlaying || d.currentContent.length = 0 then .ok d
  else
    let d1 := { d with currentIndex :=
      (d.currentIndex + d.currentContent.length - 1) % d.currentContent.length }
    match d1.showContentItem d1.currentContent[d1.currentIndex]? with
    | .ok d2 => d2.scheduleNextContent
    | .error d2 => .error d2

/-- The method `pause()`. -/
def DisplayManager.pause (d : DisplayManager) : DisplayManager :=
  { d with isPlaying := false }.clearTimer

/-- The method `resume()`. -/
def DisplayManager.resume (d : DisplayManager) : Except DisplayManager DisplayManager :=
  if !d.isPlaying && decide (0 < d.currentContent.length) then
    { d with isPlaying := true }.scheduleNextContent
  else .ok d

/-- The method `stop()`. -/
def DisplayManager.stop (d : DisplayManager) : DisplayManager :=
  { { d with isPlaying := false }.clearTimer with shown := .nothing }

/-- The method `updateContent(newContent)`. -/
def DisplayManager.updateContent (parseDate : String → Option Int) (d : DisplayManager)
    (newContent : List DisplayItem) : DisplayManager :=
  DisplayManager.loadContent parseDate d.stop newContent

/-- The host runs the callback of dwell timer `id`: a pending timer is
taken off the queue and `nextContent()` is called. -/
def DisplayManager.timerFires (d : DisplayManager) (id : Nat) :
    Except DisplayManager DisplayManager :=
  if d.pending.any (fun t => decide (t.id = id)) then
    { d with pending := d.pending.filter fun t => !decide (t.id = id) }.nextContent
  else .ok d

/-! ## The display session: `ConnectionManager` (`client/js/connection.js`) -/

/-- The fields of a `ConnectionManager`.  Field `socket` is set by the
`connect()` of the constructor and never cleared, so the tests `&& this.socket`
hold and are left out. -/
structure ConnectionManager where
  isConnected : Bool
  reconnectAttempts : Nat
  maxReconnectAttempts : Nat
  reconnectDelay : Nat
  zone : String
  lastContentUpdate : Option String
deriving DecidableEq, Repr

/-- What a display session does to the outside, in the order it does it. -/
inductive ClientEffect where
  | emit (event : String) (payload : JsVal)
  | fetch (url : String)
  | openSocket
  | closeSocket
  | reconnectTimer (delay : Nat)
  | status (s : String)
  | showErrorOverlay (message : String)
  | hideErrorOverlay
  | clearHeartbeat

/-- The page of a display: the zone of the application object
(`SnowWorldClientApp.zone`), `window.connectionManager`,
`window.displayManager` and everything done to the outside so far. -/
structure Client where
  appZone : String
  conn : ConnectionManager
  display : DisplayManager
  effects : List ClientEffect

/-- The client with one more effect. -/
def Client.push (c : Client) (e : ClientEffect) : Client :=
  { c with effects := c.effects ++ [e] }

/-- The method `connect()`: the status shows `connecting` and a socket is
opened; its listeners are the handlers below. -/
def ConnectionManager.connect (c : Client) : Client :=
  (c.push (.status "connecting")).push .openSocket

/-- The page after the three scripts have run for the zone of the URL:
the managers as constructed, the first `connect()` under way. -/
def Client.start (zone : String) : Client :=
  ConnectionManager.connect
    { appZone := zone,
      conn := { isConnected := false, reconnectAttempts := 0, maxReconnectAttempts := 10,
                reconnectDelay := 1000, zone := zone, lastContentUpdate := none },
      display := DisplayManager.new zone,
      effects := [] }

/-- The method `joinZone(zone)`. -/
def ConnectionManager.joinZone (c : Client) (zone : String) : Client :=
  if c.conn.isConnected then c.push (.emit "joinZone" (.str zone)) else c

/-- The method `leaveZone(zone)`. -/
def ConnectionManager.leaveZone (c : Client) (zone : String) : Client :=
  if c.conn.isConnected then c.push (.emit "leaveZone" (.str zone)) else c

/-- The method `fetchContentViaHTTP(zone)` up to its first `await`: the
request is sent. -/
def ConnectionManager.fetchContentViaHTTP (c : Client) (zone : String) : Client :=
  c.push (.fetch ("http://localhost:3000/api/schedule/" ++ zone))

/-- The method `requestContentForZone(zone)`. -/
def ConnectionManager.requestContentForZone (c : Client) (zone : String) : Client :=
  if c.conn.isConnected then c.push (.emit "requestContent" (.obj [("zone", .str zone)]))
  else ConnectionManager.fetchContentViaHTTP c zone

/-- The method `showErrorOverlay(title, message)` of the connection manager
(the title is not displayed). -/
def ConnectionManager.showErrorOverlay (c : Client) (_title message : String) : Client :=
  c.push (.showErrorOverlay message)

/-- The method `attemptReconnect()`. -/
def ConnectionManager.attemptReconnect (c : Client) : Client :=
  if c.conn.reconnectAttempts ≥ c.conn.maxReconnectAttempts then
    ConnectionManager.showErrorOverlay c "Verbinding verbroken"
      "Kan geen verbinding maken. Controleer de server en netwerk."
  else
    let c1 := { c with conn := { c.conn with reconnectAttempts := c.conn.reconnectAttempts + 1 } }
    let delay := c1.conn.reconnectDelay * 2 ^ (c1.conn.reconnectAttempts - 1)
    c1.push (.reconnectTimer delay)

/-- The callback of the timer set by `attemptReconnect()`. -/
def ConnectionManager.reconnectTimerFires (c : Client) : Client :=
  if !c.conn.isConnected then ConnectionManager.connect c else c

/-- The method `handleConnectionError(error)`. -/
def ConnectionManager.handleConnectionError (c : Client) : Client :=
  let c1 := { c with conn := { c.conn with isConnected := false } }
  let c2 := c1.push (.status "error")
  let c3 := ConnectionManager.showErrorOverlay c2 "Verbindingsfout"
    "Kan geen verbinding maken met de server"
  ConnectionManager.attemptReconnect c3

/-- The method `handleError(error)` of the display manager. -/
def DisplayManager.handleError (c : Client) : Client :=
  { c with display := c.display.showError }.push
    (.showErrorOverlay "Kan geen content laden. Controleer de verbinding.")

/-- The method `handleContentError(error)`. -/
def ConnectionManager.handleContentError (c : Client) : Client :=
  DisplayManager.handleError c

/-- The method `handleContentUpdate(data)`, with `now` the value of
`new Date().toISOString()`.  A `content` that is not an array makes
`loadContent` throw inside its own `try`, which shows the error display. -/
def ConnectionManager.handleContentUpdate (parseDate : String → Option Int) (c : Client)
    (now : String) (data : JsVal) : Client :=
  if (data.get "type").isStr "zone_content" && (data.get "zone").isStr c.conn.zone then
    let display :=
      match data.get "content" with
      | .items l => DisplayManager.updateContent parseDate c.display l
      | _ => c.display.stop.showError
    { c with display := display, conn := { c.conn with lastContentUpdate := some now } }
  else if (data.get "type").isStr "content_added" || (data.get "type").isStr "content_deleted" then
    ConnectionManager.requestContentForZone c c.conn.zone
  else c

/-- The method `handleScheduleUpdate(data)`. -/
def ConnectionManager.handleScheduleUpdate (c : Client) (data : JsVal) : Client :=
  if (data.get "zone").isStr c.conn.zone then
    ConnectionManager.requestContentForZone c c.conn.zone
  else c

/-- The method `handleZoneUpdate(data)`. -/
def ConnectionManager.handleZoneUpdate (c : Client) (data : JsVal) : Client :=
  if (data.get "zone").isStr c.conn.zone then
    ConnectionManager.requestContentForZone c c.conn.zone
  else c

/-- The outcome of the `fetch` of `fetchContentViaHTTP`: a response with its
`ok` flag and its body as JSON (`none` when the body is not JSON), or a
rejected fetch. -/
inductive FetchResult where
  | response (ok : Bool) (json : Option JsVal)
  | failed

/-- The method `fetchContentViaHTTP(zone)` from its first `await` on. -/
def ConnectionManager.fetchContentResponse (parseDate : String → Option Int) (c : Client)
    (now zone : String) (r : FetchResult) : Client :=
  match r with
  | .response true (some content) =>
    ConnectionManager.handleContentUpdate parseDate c now
      (.obj [("type", .str "zone_content"), ("zone", .str zone), ("content", content)])
  | _ => ConnectionManager.handleContentError c

/-- The listener of socket event `connect`. -/
def ConnectionManager.onConnect (c : Client) : Client :=
  let c1 := { c with conn := { c.conn with isConnected := true, reconnectAttempts := 0 } }
  let c2 := c1.push (.status "connected")
  let c3 := ConnectionManager.joinZone c2 c2.conn.zone
  let c4 := ConnectionManager.requestContentForZone c3 c3.conn.zone
  c4.push .hideErrorOverlay

/-- The listener of socket event `disconnect`. -/
def ConnectionManager.onDisconnect (c : Client) : Client :=
  let c1 := { c with conn := { c.conn with isConnected := false } }
  ConnectionManager.attemptReconnect (c1.push (.status "disconnected"))

/-- The method `sendPing()`. -/
def ConnectionManager.sendPing (c : Client) : Client :=
  if c.conn.isConnected then c.push (.emit "ping" .undefined) else c

/-- The method `setZone(zone)` of the display manager. -/
def DisplayManager.setZone (c : Client) (zone : String) : Client :=
  if c.display.zone ≠ zone then
    ConnectionManager.requestContentForZone { c with display := { c.display with zone := zone } }
      zone
  else c

/-- The method `setZone(zone)` of the connection manager. -/
def ConnectionManager.setZone (c : Client) (zone : String) : Client :=
  if c.conn.zone ≠ zone then
    let c1 := ConnectionManager.leaveZone c c.conn.zone
    let c2 := { c1 with conn := { c1.conn with zone := zone } }
    let c3 := ConnectionManager.joinZone c2 zone
    let c4 := ConnectionManager.requestContentForZone c3 zone
    DisplayManager.setZone c4 zone
  else c

/-- The method `disconnect()`. -/
def ConnectionManager.disconnect (c : Client) : Client :=
  let c1 := (c.push .clearHeartbeat).push .closeSocket
  { c1 with conn := { c1.conn with isConnected := false } }.push (.status "disconnected")

/-- The method `reconnect()`. -/
def ConnectionManager.reconnect (c : Client) : Client :=
  let c1 := ConnectionManager.disconnect c
  ConnectionManager.connect { c1 with conn := { c1.conn with reconnectAttempts := 0 } }

/-- The click handler of the retry button that `showErrorOverlay` installs. -/
def ConnectionManager.retryClicked (c : Client) : Client :=
  ConnectionManager.reconnect (c.push .hideErrorOverlay)

/-- The method `changeZone(newZone)` of the application. -/
def SnowWorldClientApp.changeZone (c : Client) (newZone : String) : Client :=
  if c.appZone ≠ newZone then
    let c1 := { c with appZone := newZone }
    let c2 := ConnectionManager.setZone c1 newZone
    DisplayManager.setZone c2 newZone
  else c

/-- The method `refreshContent()` of the application. -/
def SnowWorldClientApp.refreshContent (c : Client) : Client :=
  ConnectionManager.requestContentForZone c c.appZone

/-- What can happen to a display session: the socket events it listens to,
its timers, the answer to a fetch and the actions of the operator. -/
inductive ClientEvent where
  | connect
  | disconnect
  | connectError
  | reconnectFailed
  | contentUpdated (data : JsVal)
  | scheduleUpdated (data : JsVal)
  | zoneUpdate (data : JsVal)
  | systemNotification (data : JsVal)
  | reconnectTimer
  | heartbeat
  | fetched (zone : String) (r : FetchResult)
  | retryClicked
  | changeZone (zone : String)
  | refresh

/-- The session after one event, `now` being the clock at the event. -/
def Client.step (parseDate : String → Option Int) (now : String) (c : Client) :
    ClientEvent → Client
  | .connect => ConnectionManager.onConnect c
  | .disconnect => ConnectionManager.onDisconnect c
  | .connectError => ConnectionManager.handleConnectionError c
  | .reconnectFailed => ConnectionManager.handleConnectionError c
  | .contentUpdated data => ConnectionManager.handleContentUpdate parseDate c now data
  | .scheduleUpdated data => ConnectionManager.handleScheduleUpdate c data
  | .zoneUpdate data => ConnectionManager.handleZoneUpdate c data
  | .systemNotification _ => c
  | .reconnectTimer => ConnectionManager.reconnectTimerFires c
  | .heartbeat => ConnectionManager.sendPing c
  | .fetched zone r => ConnectionManager.fetchContentResponse parseDate c now zone r
  | .retryClicked => ConnectionManager.retryClicked c
  | .changeZone zone => SnowWorldClientApp.changeZone c zone
  | .refresh => SnowWorldClientApp.refreshContent c

/-- The session after a sequence of events. -/
def Client.run (parseDate : String → Option Int) (now : String) (c : Client) :
    List ClientEvent → Client
  | [] => c
  | e :: es => Client.run parseDate now (Client.step parseDate now c e) es

/-- The delays of the reconnect timers among a list of effects, oldest
first. -/
def reconnectDelays : List ClientEffect → List Nat
  | [] => []
  | .reconnectTimer delay :: es => delay :: reconnectDelays es
  | _ :: es => reconnectDelays es

/-- The events sent over the socket among a list of effects, oldest first. -/
def sentEvents : List ClientEffect → List (String × JsVal)
  | [] => []
  | .emit event payload :: es => (event, payload) :: sentEvents es
  | _ :: es => sentEvents es

/-- The URLs fetched among a list of effects, oldest first. -/
def fetchedUrls : List ClientEffect → List String
  | [] => []
  | .fetch url :: es => url :: fetchedUrls es
  | _ :: es => fetchedUrls es

/-- The error messages shown among a list of effects, oldest first. -/
def overlayMessages : List ClientEffect → List String
  | [] => []
  | .showErrorOverlay message :: es => message :: overlayMessages es
  | _ :: es => overlayMessages es

/-! ## The admin session: `WebSocketManager` (`admin/js/websocket.js`) -/

/-- The fields of a `WebSocketManager`, with the delays of the reconnect
timers it has set and the toasts it has shown. -/
structure WebSocketManager where
  isConnected : Bool
  reconnectAttempts : Nat
  maxReconnectAttempts : Nat
  reconnectDelay : Nat
  timers : List Nat
  toasts : List String
deriving DecidableEq, Repr

/-- The state the constructor leaves. -/
def WebSocketManager.new : WebSocketManager :=
  { isConnected := false, reconnectAttempts := 0, maxReconnectAttempts := 5,
    reconnectDelay := 1000, timers := [], toasts := [] }

/-- The method `attemptReconnect()` of the admin session. -/
def WebSocketManager.attemptReconnect (w : WebSocketManager) : WebSocketManager :=
  if w.reconnectAttempts ≥ w.maxReconnectAttempts then
    { w with toasts := w.toasts ++ ["Kan geen verbinding maken met de server"] }
  else
    let w1 := { w with reconnectAttempts := w.reconnectAttempts + 1 }
    let delay := w1.reconnectDelay * 2 ^ (w1.reconnectAttempts - 1)
    { w1 with timers := w1.timers ++ [delay] }

/-! ## Sample sessions -/

/-- A display item of the given content id, zone, priority and duration. -/
def sampleItem (id zone : String) (priority duration : Int) : DisplayItem :=
  { id := id, type := "image", title := id, url := "/uploads/images/f.png",
    mimeType := "image/png", zone := zone, priority := priority, duration := duration,
    createdAt := "2029-12-01T00:00:00.000Z" }

/-- A session of zone reception whose socket has connected. -/
def connectedClient : Client :=
  ConnectionManager.onConnect (Client.start "reception")

/-- A session of zone reception whose socket has not connected. -/
def offlineClient : Client :=
  Client.start "reception"

/-- The connected session of zone reception, playing two items of that
zone. -/
def playingClient : Client :=
  { connectedClient with display := (DisplayManager.loadContent isoDate connectedClient.display
      [sampleItem "contentB" "reception" 5 10, sampleItem "contentA" "reception" 1 30]) }

/-- An active entry of zone reception, priority 5, whose content record no
longer exists. -/
def entryOrphan : ScheduleRow :=
  { id := "entryOrphan", contentId := "contentGone", zone := "reception",
    startTime := "2030-01-01T00:00:00.000Z", endTime := "2030-01-03T00:00:00.000Z",
    priority := 5, isActive := 1, createdAt := "2029-12-30T00:00:00.000Z" }

/-- A store whose only schedule entry is `entryOrphan`. -/
def orphanStore : Store :=
  { content := [sampleContent "contentA" 1], schedule := [entryOrphan], zones := defaultZones,
    logs := [] }

/-- The reconnect counter of a session is within its cap. -/
def withinCap (c : Client) : Prop :=
  c.conn.reconnectAttempts ≤ c.conn.maxReconnectAttempts

/-! ## Sequences of operations on a display -/

/-- The display after a call, whether the call returned or threw. -/
def outcome (r : Except DisplayManager DisplayManager) : DisplayManager :=
  match r with
  | .ok d => d
  | .error d => d

/-- A call on a display manager, or a dwell timer of the host firing. -/
inductive DisplayOp where
  | loadContent (contentList : List DisplayItem)
  | updateContent (newContent : List DisplayItem)
  | startPlayback
  | nextContent
  | previousContent
  | pause
  | resume
  | stop
  | timerFires (id : Nat)
  | setZone (zone : String)
  | showPlaceholder
  | showError
deriving DecidableEq, Repr

/-- The result of one operation on a display (`setZone` is the part of the
method that touches the display: its zone label). -/
def DisplayManager.apply (parseDate : String → Option Int) (d : DisplayManager) :
    DisplayOp → Except DisplayManager DisplayManager
  | .loadContent contentList => .ok (DisplayManager.loadContent parseDate d contentList)
  | .updateContent newContent => .ok (DisplayManager.updateContent parseDate d newContent)
  | .startPlayback => d.startPlayback
  | .nextContent => d.nextContent
  | .previousContent => d.previousContent
  | .pause => .ok d.pause
  | .resume => d.resume
  | .stop => .ok d.stop
  | .timerFires id => d.timerFires id
  | .setZone zone => .ok { d with zone := zone }
  | .showPlaceholder => .ok d.showPlaceholder
  | .showError => .ok d.showError

/-- The display after a sequence of operations. -/
def DisplayManager.run (parseDate : String → Option Int) (d : DisplayManager) :
    List DisplayOp → DisplayManager
  | [] => d
  | op :: ops => DisplayManager.run parseDate (outcome (DisplayManager.apply parseDate d op)) ops

/-- The current index points into the current set unless the set is empty,
and the only dwell timer that can be pending is the one held in
`contentTimer`, which was handed out before `nextTimerId`. -/
def DisplayManager.WellFormed (d : DisplayManager) : Prop :=
  (d.currentContent = [] ∨ d.currentIndex < d.currentContent.length) ∧
    (∀ t ∈ d.pending, d.contentTimer = some t.id) ∧
    d.pending.length ≤ 1 ∧
    (∀ id, d.contentTimer = some id → id < d.nextTimerId)

/-- The operation is a direct call of `loadContent`. -/
def DisplayOp.isDirectLoad : DisplayOp → Bool
  | .loadContent _ => true
  | _ => false

/-- A sequence of operations without a direct call of `loadContent`: the set
is only replaced through `updateContent`. -/
def viaUpdateContent (ops : List DisplayOp) : Prop :=
  ∀ op ∈ ops, op.isDirectLoad = false

/-- A dwell timer is pending only over a non-empty current set. -/
def DisplayManager.timerHasContent (d : DisplayManager) : Prop :=
  d.pending ≠ [] → d.currentContent ≠ []

/-! ## The upload route (`POST /api/content/upload`) -/

/-- The statement of `DatabaseManager.addContent(contentData)`: the INSERT is
refused when the primary key `id` is already present; `isActive` and
`updatedAt` take their defaults. -/
def DatabaseManager.addContent (st : Store) (contentData : ContentRow) : Except String Store :=
  if st.content.any (fun c => decide (c.id = contentData.id)) then
    .error "SQLITE_CONSTRAINT: UNIQUE constraint failed: content.id"
  else
    .ok { st with content := st.content ++ [{ contentData with isActive := 1, updatedAt := none }] }

/-- The method `ContentManager.addContent(contentData)`, with `now` the value
of `new Date().toISOString()` for the log row. -/
def ContentManager.addContent (st : Store) (now : String) (contentData : ContentRow) :
    Except String Store :=
  match DatabaseManager.addContent st contentData with
  | .error e => .error e
  | .ok st1 =>
    .ok (DatabaseManager.addLog st1 now "content" "Content added"
      [("contentId", .str contentData.id), ("type", .str contentData.type)])

/-- The file of an upload request as the upload middleware hands it on. -/
structure UploadFile where
  filename : String
  originalname : String
  mimetype : String
  path : String
  size : Int
deriving DecidableEq, Repr

/-- The form fields of an upload request (`none` for a missing field). -/
structure UploadBody where
  type : Option String
  title : Option String
  zone : Option String
  duration : Option String
deriving DecidableEq, Repr

/-- The expression `value || fallback` on an optional text. -/
def orText (value : Option String) (fallback : String) : String :=
  match value with
  | some s => if s = "" then fallback else s
  | none => fallback

/-- The expression `parseInt(req.body.duration) || 10`, with `parseInt` the
host function (`none` for NaN). -/
def uploadDuration (parseInt : Option String → Option Int) (duration : Option String) : Int :=
  match parseInt duration with
  | some n => if n = 0 then 10 else n
  | none => 10

/-- The handler of `POST /api/content/upload`, with `uuid` the fresh
`uuidv4()`: the HTTP status, the database after the call and what `io.emit`
broadcasts (the `contentUpdated` message, its content reduced to id, zone and
duration).  A file that is neither an image nor a video is refused by the
upload middleware, and a missing `type` violates NOT NULL; both end in status
500. -/
def Server.uploadContent (parseInt : Option String → Option Int) (st : Store)
    (now uuid : String) (file : Option UploadFile) (body : UploadBody) :
    Nat × Store × List (String × JsVal) :=
  match file with
  | none => (400, st, [])
  | some f =>
    let isImage := "image/".toList.isPrefixOf f.mimetype.toList
    let isVideo := "video/".toList.isPrefixOf f.mimetype.toList
    if !(isImage || isVideo) then (500, st, [])
    else
      match body.type with
      | none => (500, st, [])
      | some type =>
        let contentData : ContentRow :=
          { id := uuid, type := type, title := orText body.title f.originalname,
            filename := f.filename, originalName := f.originalname, mimeType := f.mimetype,
            size := f.size, path := f.path,
            url := "/uploads/" ++ (if isImage then "images" else "videos") ++ "/" ++ f.filename,
            zone := orText body.zone "all",
            duration := uploadDuration parseInt body.duration,
            isActive := 1, createdAt := now, updatedAt := none }
        match ContentManager.addContent st now contentData with
        | .ok st1 =>
          (200, st1, [("contentUpdated",
            .obj [("type", .str "content_added"),
              ("content", .obj [("id", .str contentData.id), ("zone", .str contentData.zone),
                ("duration", .num contentData.duration)])])])
        | .error _ => (500, st, [])

/-- A sample of the host function `parseInt` on an optional text: leading
blanks are skipped, a sign is read, and the longest run of decimal digits that
follows is the value; NaN (`none`) when there is no digit or no text. -/
def decimalInt (text : Option String) : Option Int :=
  match text with
  | none => none
  | some s =>
    let cs := s.toList.dropWhile fun c => c = ' '
    let signed : Bool × List Char :=
      match cs with
      | '-' :: rest => (true, rest)
      | '+' :: rest => (false, rest)
      | _ => (false, cs)
    let digits := signed.2.takeWhile Char.isDigit
    match digitsValue digits, digits with
    | _, [] => none
    | some n, _ => some (if signed.1 then -(n : Int) else (n : Int))
    | none, _ => none

/-- A content record like `sampleContent` with the given zone and creation
time. -/
def contentAt (id zone createdAt : String) : ContentRow :=
  { sampleContent id 1 with zone := zone, createdAt := createdAt }

/-- An active entry of zone reception over the whole of 2030-01-01. -/
def entryFor (id contentId createdAt : String) (priority : Int) : ScheduleRow :=
  { id := id, contentId := contentId, zone := "reception",
    startTime := "2030-01-01T00:00:00.000Z", endTime := "2030-01-02T00:00:00.000Z",
    priority := priority, isActive := 1, createdAt := createdAt }

/-- A store with three entries of zone reception: one of priority 9 whose
content record carries zone shop, and two of priority 1 whose contents carry
zone reception, the older content scheduled first. -/
def fifoStore : Store :=
  { content := [contentAt "contentOld" "reception" "2029-12-01T00:00:00.000Z",
                contentAt "contentNew" "reception" "2029-12-02T00:00:00.000Z",
                contentAt "contentShop" "shop" "2029-12-03T00:00:00.000Z"],
    schedule := [entryFor "entryOld" "contentOld" "2029-12-30T00:00:00.000Z" 1,
                 entryFor "entryNew" "contentNew" "2029-12-31T00:00:00.000Z" 1,
                 entryFor "entryShop" "contentShop" "2029-12-29T00:00:00.000Z" 9],
    zones := defaultZones, logs := [] }

/-- An upload of a PNG image. -/
def sampleUpload : UploadFile :=
  { filename := "u1-f.png", originalname := "f.png", mimetype := "image/png",
    path := "public/uploads/images/u1-f.png", size := 1024 }

/-! ## Time texts with a UTC offset -/

/-- A sample of the host constructor `new Date(text)` that also reads a text
ending in a UTC offset, `YYYY-MM-DDTHH:mm:ss.sss+HH:mm` or with `-HH:mm`: the
time value of the date and time fields read as UTC, less the offset after `+`
and plus the offset after `-`.  On every other text it is `isoDate`. -/
def offsetDate (text : String) : Option Int :=
  match text.toList with
  | [y1, y2, y3, y4, '-', m1, m2, '-', d1, d2, 'T', h1, h2, ':', n1, n2, ':', s1, s2, '.',
      f1, f2, f3, sign, o1, o2, ':', p1, p2] =>
    match isoDate (String.mk [y1, y2, y3, y4, '-', m1, m2, '-', d1, d2, 'T', h1, h2, ':', n1, n2,
        ':', s1, s2, '.', f1, f2, f3, 'Z']), digitsValue [o1, o2], digitsValue [p1, p2] with
    | some t, some oh, some om =>
      if oh ≤ 23 ∧ om ≤ 59 then
        if sign = '+' then some (t - ((oh * 60 + om) * 60000 : Nat))
        else if sign = '-' then some (t + ((oh * 60 + om) * 60000 : Nat))
        else none
      else none
    | _, _, _ => none
  | _ => isoDate text

/-- A store that holds content A and no schedule entry. -/
def contentStore : Store :=
  { content := [sampleContent "contentA" 1], schedule := [], zones := defaultZones, logs := [] }

/-- A request body for content A in zone reception whose window is written
with the offset `+02:00`: 12:30 to 13:30 at that offset on 2030-01-02, which
is 10:30 to 11:30 UTC. -/
def offsetBody : ScheduleBody :=
  { contentId := "contentA", zone := "reception", startTime := "2030-01-02T12:30:00.000+02:00",
    endTime := "2030-01-02T13:30:00.000+02:00", priority := 1 }

/-- The schedule row that the request `offsetBody` stores when it is handled
at `noon` with the fresh id `entryOffset`. -/
def entryOffset : ScheduleRow :=
  { id := "entryOffset", contentId := "contentA", zone := "reception",
    startTime := "2030-01-02T12:30:00.000+02:00", endTime := "2030-01-02T13:30:00.000+02:00",
    priority := 1, isActive := 1, createdAt := "2030-01-01T12:00:00.000Z" }

/-- The database after `POST /api/schedule` with `offsetBody` on
`contentStore` at `noon`. -/
def offsetStore : Store :=
  (Server.postSchedule offsetDate (freshManager contentStore) noon "entryOffset" offsetBody).2.1.db

/-- An entry of zone reception, priority 5, from 10:30 to 10:45 UTC on
2030-01-02. -/
def entryMorning : ScheduleRow :=
  { id := "entryMorning", contentId := "contentA", zone := "reception",
    startTime := "2030-01-02T10:30:00.000Z", endTime := "2030-01-02T10:45:00.000Z",
    priority := 5, isActive := 1, createdAt := "2029-12-30T00:00:00.000Z" }

/-- An entry of zone reception, priority 5, from 15:15 to 15:45 UTC on
2030-01-02. -/
def entryAfternoon : ScheduleRow :=
  { id := "entryAfternoon", contentId := "contentA", zone := "reception",
    startTime := "2030-01-02T15:15:00.000Z", endTime := "2030-01-02T15:45:00.000Z",
    priority := 5, isActive := 1, createdAt := "2029-12-30T00:00:00.000Z" }

/-- A store with the entries `entryMorning` and `entryAfternoon`. -/
def overlapStore : Store :=
  { content := [sampleContent "contentA" 1], schedule := [entryMorning, entryAfternoon],
    zones := defaultZones, logs := [] }

/-- A request body for content A in zone reception, priority 1, whose window
is written with the offset `-05:00`: 10:00 to 11:00 at that offset on
2030-01-02, which is 15:00 to 16:00 UTC. -/
def westBody : ScheduleBody :=
  { contentId := "contentA", zone := "reception", startTime := "2030-01-02T10:00:00.000-05:00",
    endTime := "2030-01-02T11:00:00.000-05:00", priority := 1 }

/-! ## The text order is a total preorder -/

theorem textLtChars_asymm : ∀ (a b : List Char), textLtChars a b = true → textLtChars b a = false
  | [], [] => by simp [textLtChars]
  | [], _ :: _ => by simp [textLtChars]
  | _ :: _, [] => by simp [textLtChars]
  | x :: xs, y :: ys => by
    intro h
    simp only [textLtChars] at h ⊢
    split_ifs at h ⊢ with h1 h2 h3 <;> first
      | omega
      | rfl
      | exact textLtChars_asymm xs ys h

theorem textLtChars_cotrans : ∀ (a b c : List Char), textLtChars a c = true →
    textLtChars a b = true ∨ textLtChars b c = true
  | [], [], [] => by simp [textLtChars]
  | [], [], _ :: _ => by simp [textLtChars]
  | [], _ :: _, _ => by simp [textLtChars]
  | _ :: _, _, [] => by simp [textLtChars]
  | _ :: _, [], _ :: _ => by simp [textLtChars]
  | x :: xs, y :: ys, z :: zs => by
    intro h
    simp only [textLtChars] at h ⊢
    split_ifs at h ⊢ with h1 h2 h3 h4 h5 h6 <;> first
      | omega
      | simp
      | exact textLtChars_cotrans xs ys zs h

theorem textLe_total (a b : String) : textLe a b = true ∨ textLe b a = true := by
  unfold textLe textLt
  cases h : textLtChars b.toList a.toList
  · left; rfl
  · right; rw [textLtChars_asymm _ _ h]; rfl

theorem textLe_trans (a b c : String) (hab : textLe a b = true) (hbc : textLe b c = true) :
    textLe a c = true := by
  unfold textLe textLt at *
  cases h : textLtChars c.toList a.toList
  · rfl
  · rcases textLtChars_cotrans _ b.toList _ h with h1 | h1 <;> simp_all

theorem textLe_refl (a : String) : textLe a a = true := by
  rcases textLe_total a a with h | h <;> exact h

theorem scheduleOrder_total (a b : ScheduleRow × ContentRow) :
    scheduleOrder a b ∨ scheduleOrder b a := by
    unfold scheduleOrder
    rcases lt_trichotomy a.1.priority b.1.priority with h | h | h
    · right; left; exact h
    · rcases textLe_total a.1.createdAt b.1.createdAt with h1 | h1
      · left; right; exact ⟨h, h1⟩
      · right; right; exact ⟨h.symm, h1⟩
    · left; left; exact h

theorem scheduleOrder_trans (a b c : ScheduleRow × ContentRow) :
    scheduleOrder a b → scheduleOrder b c → scheduleOrder a c := by
    unfold scheduleOrder
    rintro (h1 | ⟨h1, t1⟩) (h2 | ⟨h2, t2⟩)
    · left; omega
    · left; omega
    · left; omega
    · right; exact ⟨by omega, textLe_trans _ _ _ t1 t2⟩


/-! ## Text order and time values on texts of the form `toISOString` writes -/

theorem daysFromCivil_day (y m d : Nat) :
    daysFromCivil y m d = daysFromCivil y m 1 + ((d : Int) - 1) := by
  unfold daysFromCivil
  simp only [Nat.cast_one]
  omega

theorem daysFromCivil_month_succ (y m : Nat) (hm1 : 1 ≤ m) (hm2 : m ≤ 11) :
    daysFromCivil y (m + 1) 1 = daysFromCivil y m 1 + daysInMonth y m := by
  unfold daysInMonth daysFromCivil
  interval_cases m <;> simp <;> (try split_ifs) <;> omega

theorem daysFromCivil_year_succ (y : Nat) :
    daysFromCivil (y + 1) 1 1 = daysFromCivil y 12 1 + daysInMonth y 12 := by
  unfold daysInMonth daysFromCivil
  simp
  omega

theorem daysInMonth_pos (y m : Nat) : 1 ≤ daysInMonth y m := by
  unfold daysInMonth
  split_ifs <;> omega

theorem daysFromCivil_month_mono (y m m' : Nat) (hm1 : 1 ≤ m) (h : m ≤ m') (hm2 : m' ≤ 12) :
    daysFromCivil y m 1 + ((m' : Int) - m) ≤ daysFromCivil y m' 1 := by
  induction m', h using Nat.le_induction with
  | base => simp
  | succ n hn ih =>
    have h1 := daysFromCivil_month_succ y n (by omega) (by omega)
    have h2 := daysInMonth_pos y n
    have := ih (by omega)
    push_cast
    omega

theorem daysFromCivil_year_mono (y y' : Nat) (h : y ≤ y') :
    daysFromCivil y 1 1 ≤ daysFromCivil y' 1 1 := by
  induction y', h using Nat.le_induction with
  | base => exact le_refl _
  | succ n _ ih =>
    have h1 := daysFromCivil_year_succ n
    have h2 := daysFromCivil_month_mono n 1 12 (by omega) (by omega) (by omega)
    have h3 := daysInMonth_pos n 12
    omega

/-- Valid civil dates in lexicographic order have day numbers in the same order. -/
theorem daysFromCivil_lt (y m d y' m' d' : Nat) (hm1 : 1 ≤ m) (hm2 : m ≤ 12)
    (hd2 : d ≤ daysInMonth y m) (hm1' : 1 ≤ m') (hm2' : m' ≤ 12) (hd1' : 1 ≤ d')
    (hlex : y < y' ∨ (y = y' ∧ (m < m' ∨ (m = m' ∧ d < d')))) :
    daysFromCivil y m d < daysFromCivil y' m' d' := by
  have e1 := daysFromCivil_day y m d
  have e2 := daysFromCivil_day y' m' d'
  rcases hlex with h | ⟨rfl, h | ⟨rfl, h⟩⟩
  · have a1 := daysFromCivil_year_mono (y + 1) y' h
    have a2 := daysFromCivil_year_succ y
    have a3 := daysFromCivil_month_mono y' 1 m' (by omega) hm1' hm2'
    have a4 : daysFromCivil y m 1 + daysInMonth y m ≤ daysFromCivil y 12 1 + daysInMonth y 12 := by
      rcases Nat.lt_or_ge m 12 with hlt | hge
      · have b1 := daysFromCivil_month_succ y m hm1 (by omega)
        have b2 := daysFromCivil_month_mono y (m + 1) 12 (by omega) (by omega) (by omega)
        have b3 := daysInMonth_pos y 12
        omega
      · have : m = 12 := by omega
        subst this
        exact le_refl _
    omega
  · have b1 := daysFromCivil_month_succ y m hm1 (by omega)
    have b2 := daysFromCivil_month_mono y (m + 1) m' (by omega) (by omega) hm2'
    omega
  · omega

theorem isDigit_toNat (c : Char) (h : c.isDigit = true) : 48 ≤ c.toNat ∧ c.toNat ≤ 57 := by
  unfold Char.isDigit at h
  simp only [Bool.and_eq_true, decide_eq_true_eq, ge_iff_le, UInt32.le_def] at h
  exact h

theorem digitsValue_two (c1 c2 : Char) (v : Nat) (h : digitsValue [c1, c2] = some v) :
    48 ≤ c1.toNat ∧ c1.toNat ≤ 57 ∧ 48 ≤ c2.toNat ∧ c2.toNat ≤ 57 ∧
      v + 528 = 10 * c1.toNat + c2.toNat := by
  unfold digitsValue at h
  simp only [List.foldl] at h
  split_ifs at h with h1 h2
  have b1 := isDigit_toNat c1 h1
  have b2 := isDigit_toNat c2 h2
  injection h with h
  omega

theorem digitsValue_three (c1 c2 c3 : Char) (v : Nat) (h : digitsValue [c1, c2, c3] = some v) :
    48 ≤ c1.toNat ∧ c1.toNat ≤ 57 ∧ 48 ≤ c2.toNat ∧ c2.toNat ≤ 57 ∧ 48 ≤ c3.toNat ∧
      c3.toNat ≤ 57 ∧ v + 5328 = 100 * c1.toNat + 10 * c2.toNat + c3.toNat := by
  unfold digitsValue at h
  simp only [List.foldl] at h
  split_ifs at h with h1 h2 h3
  have b1 := isDigit_toNat c1 h1
  have b2 := isDigit_toNat c2 h2
  have b3 := isDigit_toNat c3 h3
  injection h with h
  omega

theorem digitsValue_four (c1 c2 c3 c4 : Char) (v : Nat)
    (h : digitsValue [c1, c2, c3, c4] = some v) :
    48 ≤ c1.toNat ∧ c1.toNat ≤ 57 ∧ 48 ≤ c2.toNat ∧ c2.toNat ≤ 57 ∧ 48 ≤ c3.toNat ∧
      c3.toNat ≤ 57 ∧ 48 ≤ c4.toNat ∧ c4.toNat ≤ 57 ∧
      v + 53328 = 1000 * c1.toNat + 100 * c2.toNat + 10 * c3.toNat + c4.toNat := by
  unfold digitsValue at h
  simp only [List.foldl] at h
  split_ifs at h with h1 h2 h3 h4
  have b1 := isDigit_toNat c1 h1
  have b2 := isDigit_toNat c2 h2
  have b3 := isDigit_toNat c3 h3
  have b4 := isDigit_toNat c4 h4
  injection h with h
  omega

theorem textLtChars_cons (a b : Char) (as bs : List Char) :
    textLtChars (a :: as) (b :: bs) = true ↔
      a.toNat < b.toNat ∨ (a.toNat = b.toNat ∧ textLtChars as bs = true) := by
  simp only [textLtChars]
  split_ifs with h1 h2
  · simp [h1]
  · simp; omega
  · have : a.toNat = b.toNat := by omega
    simp [this]

theorem timeValue_lt (D D' : Int) (h n s f h' n' s' f' : Nat) (hh : h ≤ 23) (hn : n ≤ 59)
    (hs : s ≤ 59) (hf : f ≤ 999) (hh' : h' ≤ 23) (hn' : n' ≤ 59) (hs' : s' ≤ 59) (hf' : f' ≤ 999)
    (hlex : D < D' ∨ (D = D' ∧ (h < h' ∨ (h = h' ∧ (n < n' ∨ (n = n' ∧ (s < s' ∨
      (s = s' ∧ f < f')))))))) :
    (((D * 24 + h) * 60 + n) * 60 + s) * 1000 + f <
      (((D' * 24 + h') * 60 + n') * 60 + s') * 1000 + f' := by
  omega

/-- On texts of the form `toISOString` writes (with a four-digit year), the
text order is the order of the time values. -/
theorem isoDate_lt (a b : String) (x y : Int) (ha : isoDate a = some x) (hb : isoDate b = some y)
    (hlt : textLt a b = true) : x < y := by
  unfold isoDate at ha hb
  split at ha
  · rename_i ea
    split at ha
    · rename_i ya ma da ha' na sa fa eya ema eda eha ena esa efa
      split at ha
      · rename_i va
        injection ha with ha
        split at hb
        · rename_i eb
          split at hb
          · rename_i yb mb db hb' nb sb fb eyb emb edb ehb enb esb efb
            split at hb
            · rename_i vb
              injection hb with hb
              unfold textLt at hlt
              rw [ea, eb] at hlt
              simp only [textLtChars_cons] at hlt
              have q1 := digitsValue_four _ _ _ _ _ eya
              have q2 := digitsValue_two _ _ _ ema
              have q3 := digitsValue_two _ _ _ eda
              have q4 := digitsValue_two _ _ _ eha
              have q5 := digitsValue_two _ _ _ ena
              have q6 := digitsValue_two _ _ _ esa
              have q7 := digitsValue_three _ _ _ _ efa
              have p1 := digitsValue_four _ _ _ _ _ eyb
              have p2 := digitsValue_two _ _ _ emb
              have p3 := digitsValue_two _ _ _ edb
              have p4 := digitsValue_two _ _ _ ehb
              have p5 := digitsValue_two _ _ _ enb
              have p6 := digitsValue_two _ _ _ esb
              have p7 := digitsValue_three _ _ _ _ efb
              simp only [textLtChars, lt_self_iff_false, true_and, false_or, and_false, or_false,
                Bool.false_eq_true] at hlt
              have hlex : ya < yb ∨ (ya = yb ∧ (ma < mb ∨ (ma = mb ∧ (da < db ∨ (da = db ∧
                  (ha' < hb' ∨ (ha' = hb' ∧ (na < nb ∨ (na = nb ∧ (sa < sb ∨
                  (sa = sb ∧ fa < fb))))))))))) := by
                omega
              have hf1 : fa ≤ 999 := by omega
              have hf2 : fb ≤ 999 := by omega
              rw [← ha, ← hb]
              apply timeValue_lt _ _ _ _ _ _ _ _ _ _ va.2.2.2.2.1 va.2.2.2.2.2.1 va.2.2.2.2.2.2 hf1
                vb.2.2.2.2.1 vb.2.2.2.2.2.1 vb.2.2.2.2.2.2 hf2
              by_cases hd : ya = yb ∧ ma = mb ∧ da = db
              · obtain ⟨e1, e2, e3⟩ := hd
                subst e1 e2 e3
                right
                refine ⟨rfl, ?_⟩
                omega
              · left
                apply daysFromCivil_lt _ _ _ _ _ _ va.1 va.2.1 va.2.2.2.1 vb.1 vb.2.1 vb.2.2.1
                omega
            · cases hb
          · cases hb
        · cases hb
      · cases ha
    · cases ha
  · cases ha

theorem char_toNat_inj (a b : Char) (h : a.toNat = b.toNat) : a = b := by
  apply Char.ext
  apply UInt32.ext
  exact h

theorem textLtChars_trichotomy : ∀ (a b : List Char),
    textLtChars a b = true ∨ a = b ∨ textLtChars b a = true
  | [], [] => by simp
  | [], _ :: _ => by simp [textLtChars]
  | _ :: _, [] => by simp [textLtChars]
  | x :: xs, y :: ys => by
    simp only [textLtChars_cons, List.cons.injEq]
    rcases Nat.lt_trichotomy x.toNat y.toNat with h | h | h
    · left; left; exact h
    · have hxy := char_toNat_inj x y h
      rcases textLtChars_trichotomy xs ys with h1 | h1 | h1
      · left; right; exact ⟨h, h1⟩
      · right; left; exact ⟨hxy, h1⟩
      · right; right; right; exact ⟨h.symm, h1⟩
    · right; right; left; exact h

theorem textLt_iff_isoDate (a b : String) (x y : Int) (ha : isoDate a = some x)
    (hb : isoDate b = some y) : textLt a b = true ↔ x < y := by
  constructor
  · exact isoDate_lt a b x y ha hb
  · intro hxy
    rcases textLtChars_trichotomy a.toList b.toList with h | h | h
    · exact h
    · have hab : a = b := String.ext h
      rw [hab, hb] at ha
      injection ha with ha
      omega
    · have := isoDate_lt b a y x hb ha h
      omega

theorem textLe_iff_isoDate (a b : String) (x y : Int) (ha : isoDate a = some x)
    (hb : isoDate b = some y) : textLe a b = true ↔ x ≤ y := by
  unfold textLe
  have := textLt_iff_isoDate b a y x hb ha
  cases h : textLt b a
  · simp only [Bool.not_false, true_iff]
    by_contra hc
    have h2 := this.mpr (by omega)
    rw [h] at h2
    cases h2
  · simp only [Bool.not_true, Bool.false_eq_true, false_iff]
    have := this.mp h
    omega


/-! ## The resolver `DatabaseManager.getActiveSchedule` -/

theorem mem_joinScheduleContent (st : Store) (s : ScheduleRow) (c : ContentRow) :
    (s, c) ∈ joinScheduleContent st ↔ s ∈ st.schedule ∧ c ∈ st.content ∧ s.contentId = c.id := by
  unfold joinScheduleContent
  simp only [List.mem_flatMap, List.mem_map, List.mem_filter, decide_eq_true_eq, Prod.mk.injEq]
  constructor
  · rintro ⟨s', hs, c', ⟨hc, hid⟩, rfl, rfl⟩
    exact ⟨hs, hc, hid⟩
  · rintro ⟨hs, hc, hid⟩
    exact ⟨s, hs, c, ⟨hc, hid⟩, rfl, rfl⟩

theorem activeAt_iff (zone now : String) (r : ScheduleRow × ContentRow) :
    activeAt zone now r = true ↔
      r.1.zone = zone ∧ textLe r.1.startTime now = true ∧ textLe now r.1.endTime = true ∧
        r.1.isActive = 1 ∧ r.2.isActive = 1 := by
  unfold activeAt
  simp only [Bool.and_eq_true, decide_eq_true_eq]
  tauto

theorem mem_getActiveSchedule (st : Store) (now zone : String) (r : ScheduleRow × ContentRow) :
    r ∈ DatabaseManager.getActiveSchedule st now zone ↔
      r ∈ joinScheduleContent st ∧ activeAt zone now r = true := by
  unfold DatabaseManager.getActiveSchedule
  rw [List.mem_insertionSort, List.mem_filter]

/-- The WHERE clause on the stored text: every row the resolver returns for
zone `zone` at `now` joins a schedule entry of the store with `isActive = 1`
whose texts satisfy `startTime <= now <= endTime` in the order SQLite applies
to TEXT, to a content record with `isActive = 1`; a row that fails one of
these tests is never returned; and when no joined entry passes them the result
is the empty list. -/
theorem getActiveSchedule_only_qualifying (st : Store) (now zone : String) :
    (∀ r ∈ DatabaseManager.getActiveSchedule st now zone,
        r.1 ∈ st.schedule ∧ r.2 ∈ st.content ∧ r.1.contentId = r.2.id ∧ r.1.zone = zone ∧
          r.1.isActive = 1 ∧ textLe r.1.startTime now = true ∧ textLe now r.1.endTime = true ∧
          r.2.isActive = 1) ∧
      (∀ s c, (textLe s.startTime now = false ∨ textLe now s.endTime = false ∨
          s.isActive ≠ 1 ∨ c.isActive ≠ 1) →
          (s, c) ∉ DatabaseManager.getActiveSchedule st now zone) ∧
      ((∀ s ∈ st.schedule, ∀ c ∈ st.content, s.contentId = c.id →
          activeAt zone now (s, c) = false) →
          DatabaseManager.getActiveSchedule st now zone = []) := by
  refine ⟨?_, ?_, ?_⟩
  · rintro ⟨s, c⟩ hr
    rw [mem_getActiveSchedule, mem_joinScheduleContent, activeAt_iff] at hr
    obtain ⟨⟨hs, hc, hid⟩, hz, h1, h2, h3, h4⟩ := hr
    exact ⟨hs, hc, hid, hz, h3, h1, h2, h4⟩
  · intro s c hbad hmem
    rw [mem_getActiveSchedule, activeAt_iff] at hmem
    obtain ⟨-, -, h1, h2, h3, h4⟩ := hmem
    simp only at h1 h2 h3 h4
    rcases hbad with h | h | h | h
    · rw [h1] at h; cases h
    · rw [h2] at h; cases h
    · exact h h3
    · exact h h4
  · intro hnone
    apply List.eq_nil_iff_forall_not_mem.mpr
    rintro ⟨s, c⟩ hr
    rw [mem_getActiveSchedule, mem_joinScheduleContent] at hr
    obtain ⟨⟨hs, hc, hid⟩, hact⟩ := hr
    rw [hnone s hs c hc hid] at hact
    cases hact

/-- At the reception scenario, entry B is returned at noon and passes the
tests on the text. -/
theorem getActiveSchedule_only_qualifying_witness :
    (entryB, sampleContent "contentB" 1) ∈
        DatabaseManager.getActiveSchedule receptionStore noon.now "reception" ∧
      entryB.isActive = 1 ∧ textLe entryB.startTime noon.now = true ∧
      textLe noon.now entryB.endTime = true ∧
      DatabaseManager.getActiveSchedule receptionStore noon.now "shop" = [] :=
  ⟨by decide,
    ((getActiveSchedule_only_qualifying receptionStore noon.now "reception").1
      (entryB, sampleContent "contentB" 1) (by decide)).2.2.2.2.1,
    ((getActiveSchedule_only_qualifying receptionStore noon.now "reception").1
      (entryB, sampleContent "contentB" 1) (by decide)).2.2.2.2.2.1,
    ((getActiveSchedule_only_qualifying receptionStore noon.now "reception").1
      (entryB, sampleContent "contentB" 1) (by decide)).2.2.2.2.2.2.1,
    (getActiveSchedule_only_qualifying receptionStore noon.now "shop").2.2 (by decide)⟩

/-- C1, on the code: the resolver tests the window on the stored text.  For a
row whose `startTime` and `endTime` are, like `now`, texts of the form
`toISOString` writes, that is the test `startTime <= now <= endTime` on the
instants, and the row is returned exactly when it joins an entry of the zone
with `isActive = 1`, such a window and content with `isActive = 1`.  But
`POST /api/schedule` accepts and stores a window written with the offset
`+02:00`, from 10:30 to 11:30 UTC; the resolver returns that entry at 13:00
UTC, after its window has ended, and returns nothing at 11:00 UTC, inside its
window. -/
theorem getActiveSchedule_window_by_text :
    (∀ (st : Store) (now zone : String) (r : ScheduleRow × ContentRow) (t s e : Int),
        isoDate now = some t → isoDate r.1.startTime = some s → isoDate r.1.endTime = some e →
        (r ∈ DatabaseManager.getActiveSchedule st now zone ↔
          r.1 ∈ st.schedule ∧ r.2 ∈ st.content ∧ r.1.contentId = r.2.id ∧ r.1.zone = zone ∧
            r.1.isActive = 1 ∧ s ≤ t ∧ t ≤ e ∧ r.2.isActive = 1)) ∧
      (Server.postSchedule offsetDate (freshManager contentStore) noon "entryOffset"
        offsetBody).1 = 200 ∧
      offsetStore.content = [sampleContent "contentA" 1] ∧
      offsetStore.schedule = [entryOffset] ∧
      entryOffset.zone = "reception" ∧ entryOffset.isActive = 1 ∧
      (sampleContent "contentA" 1).isActive = 1 ∧
      offsetDate entryOffset.startTime = some 1893580200000 ∧
      offsetDate entryOffset.endTime = some 1893583800000 ∧
      offsetDate "2030-01-02T13:00:00.000Z" = some 1893589200000 ∧
      dateLt (offsetDate entryOffset.endTime) (offsetDate "2030-01-02T13:00:00.000Z") = true ∧
      DatabaseManager.getActiveSchedule offsetStore "2030-01-02T13:00:00.000Z" "reception" =
        [(entryOffset, sampleContent "contentA" 1)] ∧
      offsetDate "2030-01-02T11:00:00.000Z" = some 1893582000000 ∧
      dateGe (offsetDate "2030-01-02T11:00:00.000Z") (offsetDate entryOffset.startTime) = true ∧
      dateGe (offsetDate entryOffset.endTime) (offsetDate "2030-01-02T11:00:00.000Z") = true ∧
      DatabaseManager.getActiveSchedule offsetStore "2030-01-02T11:00:00.000Z" "reception" =
        [] := by
  refine ⟨?_, by decide, by decide, by decide, by decide, by decide, by decide, by decide,
    by decide, by decide, by decide, by decide, by decide, by decide, by decide, by decide⟩
  rintro st now zone ⟨sr, c⟩ t s e ht hs he
  rw [mem_getActiveSchedule, mem_joinScheduleContent, activeAt_iff]
  simp only at hs he ⊢
  rw [textLe_iff_isoDate _ _ s t hs ht, textLe_iff_isoDate _ _ t e ht he]
  tauto

/-- C1, at the reception scenario: entry B, whose window is the whole of
2030-01-01 in the form `toISOString` writes, is returned at noon of that day,
and its window contains that instant. -/
theorem getActiveSchedule_window_by_text_witness :
    isoDate noon.now = some 1893499200000 ∧
      isoDate entryB.startTime = some 1893456000000 ∧
      isoDate entryB.endTime = some 1893542400000 ∧
      (entryB, sampleContent "contentB" 1) ∈
        DatabaseManager.getActiveSchedule receptionStore noon.now "reception" ∧
      (1893456000000 : Int) ≤ 1893499200000 ∧ (1893499200000 : Int) ≤ 1893542400000 :=
  ⟨by decide, by decide, by decide, by decide,
    ((getActiveSchedule_window_by_text.1 receptionStore noon.now "reception"
      (entryB, sampleContent "contentB" 1) 1893499200000 1893456000000 1893542400000
      (by decide) (by decide) (by decide)).mp (by decide)).2.2.2.2.2.1,
    ((getActiveSchedule_window_by_text.1 receptionStore noon.now "reception"
      (entryB, sampleContent "contentB" 1) 1893499200000 1893456000000 1893542400000
      (by decide) (by decide) (by decide)).mp (by decide)).2.2.2.2.2.2.1⟩

theorem getActiveSchedule_pairwise (st : Store) (now zone : String) :
    List.Sorted scheduleOrder (DatabaseManager.getActiveSchedule st now zone) := by
  unfold DatabaseManager.getActiveSchedule
  exact @List.sorted_insertionSort _ scheduleOrder _ ⟨scheduleOrder_total⟩ ⟨scheduleOrder_trans⟩ _

/-- C2: the list the resolver returns is ordered by priority descending and,
among entries of equal priority, by the schedule entry's `createdAt`
ascending: of any two rows, the earlier one has the strictly higher priority,
or the same priority and a `createdAt` not after the later one's; sorting the
result again by that key leaves it unchanged.  In the reception scenario the
result is `[B, A]`, and after deleting entry B it is `[A]`. -/
theorem getActiveSchedule_ordered (st : Store) (now zone : String) :
    List.Pairwise
        (fun a b : ScheduleRow × ContentRow => b.1.priority < a.1.priority ∨
          (a.1.priority = b.1.priority ∧ textLe a.1.createdAt b.1.createdAt = true))
        (DatabaseManager.getActiveSchedule st now zone) ∧
      List.insertionSort scheduleOrder (DatabaseManager.getActiveSchedule st now zone) =
        DatabaseManager.getActiveSchedule st now zone ∧
      DatabaseManager.getActiveSchedule receptionStore noon.now "reception" =
        [(entryB, sampleContent "contentB" 1), (entryA, sampleContent "contentA" 1)] ∧
      DatabaseManager.getActiveSchedule
          (ScheduleManager.deleteSchedule (freshManager receptionStore) noon "entryB").2.db
          noon.now "reception" =
        [(entryA, sampleContent "contentA" 1)] :=
  ⟨getActiveSchedule_pairwise st now zone,
    (getActiveSchedule_pairwise st now zone).insertionSort_eq, by decide, by decide⟩

/-- C3, on the code: with an active entry of zone `all` whose window covers
noon and whose content is active as the only schedule entry, the resolver
returns nothing for zone reception, while the same entry is returned when the
zone asked for is `all` itself. -/
theorem getActiveSchedule_omits_all_zone :
    entryAll.zone = "all" ∧ entryAll.isActive = 1 ∧
      textLe entryAll.startTime noon.now = true ∧ textLe noon.now entryAll.endTime = true ∧
      (sampleContent "contentA" 1).isActive = 1 ∧
      (entryAll, sampleContent "contentA" 1) ∈ joinScheduleContent allZoneStore ∧
      DatabaseManager.getActiveSchedule allZoneStore noon.now "reception" = [] ∧
      DatabaseManager.getActiveSchedule allZoneStore noon.now "all" =
        [(entryAll, sampleContent "contentA" 1)] := by
  decide

/-! ## The cached pull `ScheduleManager.getActiveSchedule` -/

theorem getActiveSchedule_miss (st : ManagerState) (clk : Clock) (zone : String)
    (h : ∀ e, cacheGet st.activeSchedules zone = some e → textLt clk.now e.timestamp = false) :
    ScheduleManager.getActiveSchedule st clk zone =
      (DatabaseManager.getActiveSchedule st.db clk.now zone,
        { st with activeSchedules := (cacheSet st.activeSchedules zone
            ⟨DatabaseManager.getActiveSchedule st.db clk.now zone, clk.nowPlusMinute⟩) }) := by
  unfold ScheduleManager.getActiveSchedule
  cases hget : cacheGet st.activeSchedules zone with
  | none => rfl
  | some e => simp only [h e hget]; rfl

theorem getActiveSchedule_hit (st : ManagerState) (clk : Clock) (zone : String) (e : CacheEntry)
    (hget : cacheGet st.activeSchedules zone = some e)
    (hfresh : textLt clk.now e.timestamp = true) :
    ScheduleManager.getActiveSchedule st clk zone = (e.schedule, st) := by
  unfold ScheduleManager.getActiveSchedule
  simp only [hget, hfresh]; rfl

theorem cacheGet_cacheSet (cache : List (String × CacheEntry)) (zone : String) (e : CacheEntry) :
    cacheGet (cacheSet cache zone e) zone = some e := by
  simp [cacheGet, cacheSet]

theorem getActiveSchedule_db (st : ManagerState) (clk : Clock) (zone : String) :
    (ScheduleManager.getActiveSchedule st clk zone).2.db = st.db ∧
      (ScheduleManager.getActiveSchedule st clk zone).2.emitted = st.emitted := by
  by_cases h : ∀ e, cacheGet st.activeSchedules zone = some e →
      textLt clk.now e.timestamp = false
  · rw [getActiveSchedule_miss st clk zone h]
    exact ⟨rfl, rfl⟩
  · push_neg at h
    obtain ⟨e, hget, hfresh⟩ := h
    rw [getActiveSchedule_hit st clk zone e hget (by simpa using hfresh)]
    exact ⟨rfl, rfl⟩

/-- C4, as the code has it: the pull `ScheduleManager.getActiveSchedule(zone)`
returns exactly the resolver output on the store as it is at the call
whenever the cache holds no entry for the zone whose timestamp is later than
now, and it then caches that output until one minute later; while such an
entry exists the pull returns the cached list and leaves the state as it is.
The pull never changes the database. -/
theorem pull_agrees_unless_cached (st : ManagerState) (clk : Clock) (zone : String) :
    ((∀ e, cacheGet st.activeSchedules zone = some e → textLt clk.now e.timestamp = false) →
        (ScheduleManager.getActiveSchedule st clk zone).1 =
            DatabaseManager.getActiveSchedule st.db clk.now zone ∧
          cacheGet (ScheduleManager.getActiveSchedule st clk zone).2.activeSchedules zone =
            some { schedule := DatabaseManager.getActiveSchedule st.db clk.now zone,
                   timestamp := clk.nowPlusMinute }) ∧
      (∀ e, cacheGet st.activeSchedules zone = some e → textLt clk.now e.timestamp = true →
        ScheduleManager.getActiveSchedule st clk zone = (e.schedule, st)) ∧
      (ScheduleManager.getActiveSchedule st clk zone).2.db = st.db := by
  refine ⟨fun h => ?_, fun e hget hfresh => getActiveSchedule_hit st clk zone e hget hfresh,
    (getActiveSchedule_db st clk zone).1⟩
  rw [getActiveSchedule_miss st clk zone h]
  exact ⟨rfl, cacheGet_cacheSet _ _ _⟩

/-- C4, as the code has it, at the reception scenario: the first pull at noon
finds an empty cache and returns the resolver output `[B, A]`. -/
theorem pull_agrees_unless_cached_witness :
    (ScheduleManager.getActiveSchedule (freshManager receptionStore) noon "reception").1 =
      [(entryB, sampleContent "contentB" 1), (entryA, sampleContent "contentA" 1)] :=
  ((pull_agrees_unless_cached (freshManager receptionStore) noon "reception").1
    (by decide)).1.trans (by decide)

/-- C4 as stated fails: after a pull at noon has cached the list `[entryShort]`
for one minute, a pull thirty seconds later, with no mutation in between,
still returns `[entryShort]`, although the window of that entry ended at
12:00:10 and the resolver on the same store now returns the empty list. -/
theorem pull_differs_from_resolver :
    (ScheduleManager.getActiveSchedule (freshManager shortStore) noon "reception").2.db =
        shortStore ∧
      (ScheduleManager.getActiveSchedule
          (ScheduleManager.getActiveSchedule (freshManager shortStore) noon "reception").2
          halfPastNoon "reception").1 = [(entryShort, sampleContent "contentA" 1)] ∧
      DatabaseManager.getActiveSchedule shortStore halfPastNoon.now "reception" = [] ∧
      (ScheduleManager.getActiveSchedule
          (ScheduleManager.getActiveSchedule (freshManager shortStore) noon "reception").2
          halfPastNoon "reception").1 ≠
        DatabaseManager.getActiveSchedule
          (ScheduleManager.getActiveSchedule (freshManager shortStore) noon "reception").2.db
          halfPastNoon.now "reception" := by
  decide

/-! ## Emission after a mutation -/

/-- C5, on the code: after a pull at noon has cached `[B, A]` for zone
reception, deleting entry B thirty seconds later emits to room reception and
to room admin the cached list `[B, A]`, although the resolver on the store
after the deletion returns `[A]`; in the same way, adding an entry that is
active at once emits `[B, A]` although the resolver on the store after the
insertion returns three rows. -/
theorem update_emits_cached_list :
    (ScheduleManager.deleteSchedule
        (ScheduleManager.getActiveSchedule (freshManager receptionStore) noon "reception").2
        halfPastNoon "entryB").2.emitted =
      [ { room := "reception", event := "scheduleUpdate", zone := "reception",
          schedule := [(entryB, sampleContent "contentB" 1), (entryA, sampleContent "contentA" 1)],
          timestamp := "2030-01-01T12:00:30.000Z" },
        { room := "admin", event := "scheduleUpdate", zone := "reception",
          schedule := [(entryB, sampleContent "contentB" 1), (entryA, sampleContent "contentA" 1)],
          timestamp := "2030-01-01T12:00:30.000Z" } ] ∧
      DatabaseManager.getActiveSchedule
          (ScheduleManager.deleteSchedule
            (ScheduleManager.getActiveSchedule (freshManager receptionStore) noon "reception").2
            halfPastNoon "entryB").2.db
          halfPastNoon.now "reception" =
        [(entryA, sampleContent "contentA" 1)] ∧
      ((ScheduleManager.addSchedule isoDate
          (ScheduleManager.getActiveSchedule (freshManager receptionStore) noon "reception").2
          halfPastNoon
          (sampleRequest "entryC" "contentA" "reception" "2030-01-01T12:00:30.000Z"
            "2030-01-02T00:00:00.000Z")).2.emitted.map fun m => m.schedule.length) = [2, 2] ∧
      (DatabaseManager.getActiveSchedule
          (ScheduleManager.addSchedule isoDate
            (ScheduleManager.getActiveSchedule (freshManager receptionStore) noon "reception").2
            halfPastNoon
            (sampleRequest "entryC" "contentA" "reception" "2030-01-01T12:00:30.000Z"
              "2030-01-02T00:00:00.000Z")).2.db
          halfPastNoon.now "reception").length = 3 := by
  decide

/-! ## Validation in `ScheduleManager.addSchedule` -/

theorem getContentById_none (db : Store) (id : String) (h : ∀ c ∈ db.content, c.id ≠ id) :
    DatabaseManager.getContentById db id = none := by
  unfold DatabaseManager.getContentById
  rw [List.find?_eq_none]
  intro c hc
  simpa using h c hc

theorem getContentById_some (db : Store) (id : String) (c : ContentRow) (hc : c ∈ db.content)
    (hid : c.id = id) : ∃ c', DatabaseManager.getContentById db id = some c' := by
  unfold DatabaseManager.getContentById
  cases hfind : db.content.find? fun c => decide (c.id = id) with
  | some c' => exact ⟨c', rfl⟩
  | none =>
    rw [List.find?_eq_none] at hfind
    exact absurd (by simpa using hid) (hfind c hc)

/-- C6: when `scheduleData.contentId` is the id of no content record,
`addSchedule` fails with `Content not found` and leaves the whole state as it
was: the schedule table is unchanged, no log row is written and nothing is
emitted. -/
theorem addSchedule_content_not_found (parseDate : String → Option Int) (st : ManagerState)
    (clk : Clock) (sd : ScheduleData) (h : ∀ c ∈ st.db.content, c.id ≠ sd.contentId) :
    (ScheduleManager.addSchedule parseDate st clk sd).1 = .error "Content not found" ∧
      (ScheduleManager.addSchedule parseDate st clk sd).2.db.schedule = st.db.schedule ∧
      (ScheduleManager.addSchedule parseDate st clk sd).2.db.logs = st.db.logs ∧
      (ScheduleManager.addSchedule parseDate st clk sd).2.emitted = st.emitted ∧
      (ScheduleManager.addSchedule parseDate st clk sd).2 = st := by
  unfold ScheduleManager.addSchedule
  rw [getContentById_none st.db sd.contentId h]
  exact ⟨rfl, rfl, rfl, rfl, rfl⟩

/-- C6, at the reception store: a request for the unknown content id
`missing` is refused and the state is unchanged. -/
theorem addSchedule_content_not_found_witness :
    (ScheduleManager.addSchedule isoDate (freshManager receptionStore) noon
        (sampleRequest "entryC" "missing" "reception" "2030-01-02T00:00:00.000Z"
          "2030-01-03T00:00:00.000Z")).1 = .error "Content not found" ∧
      (ScheduleManager.addSchedule isoDate (freshManager receptionStore) noon
        (sampleRequest "entryC" "missing" "reception" "2030-01-02T00:00:00.000Z"
          "2030-01-03T00:00:00.000Z")).2 = freshManager receptionStore :=
  ⟨(addSchedule_content_not_found isoDate (freshManager receptionStore) noon
      (sampleRequest "entryC" "missing" "reception" "2030-01-02T00:00:00.000Z"
        "2030-01-03T00:00:00.000Z") (by decide)).1,
   (addSchedule_content_not_found isoDate (freshManager receptionStore) noon
      (sampleRequest "entryC" "missing" "reception" "2030-01-02T00:00:00.000Z"
        "2030-01-03T00:00:00.000Z") (by decide)).2.2.2.2⟩

/-- C7: when the content exists and both times parse with the start equal
to or later than the end, `addSchedule` fails with `End time must be after
start time` and leaves the schedule table (and the rest of the state)
unchanged. -/
theorem addSchedule_rejects_reversed_range (parseDate : String → Option Int)
    (st : ManagerState) (clk : Clock) (sd : ScheduleData) (c : ContentRow)
    (hc : c ∈ st.db.content) (hid : c.id = sd.contentId) (a b : Int)
    (ha : parseDate sd.startTime = some a) (hb : parseDate sd.endTime = some b)
    (hab : b ≤ a) :
    (ScheduleManager.addSchedule parseDate st clk sd).1 =
        .error "End time must be after start time" ∧
      (ScheduleManager.addSchedule parseDate st clk sd).2.db.schedule = st.db.schedule ∧
      (ScheduleManager.addSchedule parseDate st clk sd).2 = st := by
  obtain ⟨c', hget⟩ := getContentById_some st.db sd.contentId c hc hid
  have hge : dateGe (some a) (some b) = true := decide_eq_true hab
  unfold ScheduleManager.addSchedule
  simp only [hget, ha, hb, hge, if_true, and_self]

/-- C7, at the reception store: a request whose start equals its end and a
request whose start is a day after its end are both refused. -/
theorem addSchedule_rejects_reversed_range_witness :
    (ScheduleManager.addSchedule isoDate (freshManager receptionStore) noon
        (sampleRequest "entryC" "contentA" "reception" "2030-01-02T00:00:00.000Z"
          "2030-01-02T00:00:00.000Z")).1 = .error "End time must be after start time" ∧
      (ScheduleManager.addSchedule isoDate (freshManager receptionStore) noon
        (sampleRequest "entryC" "contentA" "reception" "2030-01-03T00:00:00.000Z"
          "2030-01-02T00:00:00.000Z")).2.db.schedule = receptionStore.schedule :=
  ⟨(addSchedule_rejects_reversed_range isoDate (freshManager receptionStore) noon
      (sampleRequest "entryC" "contentA" "reception" "2030-01-02T00:00:00.000Z"
        "2030-01-02T00:00:00.000Z") (sampleContent "contentA" 1) (by decide) (by decide)
      1893542400000 1893542400000 (by decide) (by decide) (by decide)).1,
   (addSchedule_rejects_reversed_range isoDate (freshManager receptionStore) noon
      (sampleRequest "entryC" "contentA" "reception" "2030-01-03T00:00:00.000Z"
        "2030-01-02T00:00:00.000Z") (sampleContent "contentA" 1) (by decide) (by decide)
      1893628800000 1893542400000 (by decide) (by decide) (by decide)).2.1⟩

/-- C8, on the code: a request whose `startTime` is the text `not-a-date`,
which the `Date` constructor turns into an Invalid Date, passes both time
checks, is returned as created and is stored in the schedule table; so is a
request whose `endTime` is not a date. -/
theorem addSchedule_stores_invalid_date :
    isoDate "not-a-date" = none ∧
      (ScheduleManager.addSchedule isoDate (freshManager receptionStore) noon
        (sampleRequest "entryC" "contentA" "reception" "not-a-date"
          "2030-01-03T00:00:00.000Z")).1 =
        .ok (sampleRequest "entryC" "contentA" "reception" "not-a-date"
          "2030-01-03T00:00:00.000Z") ∧
      (ScheduleManager.addSchedule isoDate (freshManager receptionStore) noon
        (sampleRequest "entryC" "contentA" "reception" "not-a-date"
          "2030-01-03T00:00:00.000Z")).2.db.schedule =
        [entryA, entryB,
          { id := "entryC", contentId := "contentA", zone := "reception",
            startTime := "not-a-date", endTime := "2030-01-03T00:00:00.000Z", priority := 1,
            isActive := 1, createdAt := "2030-01-01T12:00:00.000Z" }] ∧
      (ScheduleManager.addSchedule isoDate (freshManager receptionStore) noon
        (sampleRequest "entryD" "contentA" "reception" "2030-01-02T00:00:00.000Z"
          "not-a-date")).2.db.schedule =
        [entryA, entryB,
          { id := "entryD", contentId := "contentA", zone := "reception",
            startTime := "2030-01-02T00:00:00.000Z", endTime := "not-a-date", priority := 1,
            isActive := 1, createdAt := "2030-01-01T12:00:00.000Z" }] :=
  ⟨by decide, rfl, by decide, by decide⟩

theorem updateActiveSchedules_tables (st : ManagerState) (clk : Clock) (zone : String) :
    (ScheduleManager.updateActiveSchedules st clk zone).db.schedule = st.db.schedule ∧
      (ScheduleManager.updateActiveSchedules st clk zone).db.content = st.db.content ∧
      (ScheduleManager.updateActiveSchedules st clk zone).db.zones = st.db.zones := by
  unfold ScheduleManager.updateActiveSchedules DatabaseManager.addLog
  simp only [(getActiveSchedule_db st clk zone).1, and_self]

theorem addSchedule_db_fresh (db : Store) (sd : ScheduleData)
    (hfresh : ∀ s ∈ db.schedule, s.id ≠ sd.id) :
    DatabaseManager.addSchedule db sd = .ok { db with schedule := db.schedule ++ [sd.toRow] } := by
  unfold DatabaseManager.addSchedule
  have hany : (db.schedule.any fun s => decide (s.id = sd.id)) = false := by
    rw [List.any_eq_false]
    intro s hs
    simpa using hfresh s hs
  simp only [hany, Bool.false_eq_true, if_false]

/-- C9, as the code has it: `addSchedule` never looks at the zones table.
For every request with existing content, parseable times with start before
end, a start that is not in the past and an unused id, the entry is inserted
with its zone as given, whatever that zone is, and the zones table is left as
it was. -/
theorem addSchedule_inserts_any_zone (parseDate : String → Option Int) (st : ManagerState)
    (clk : Clock) (sd : ScheduleData) (c : ContentRow) (hc : c ∈ st.db.content)
    (hid : c.id = sd.contentId) (a b : Int) (ha : parseDate sd.startTime = some a)
    (hb : parseDate sd.endTime = some b) (hab : a < b) (hnow : clk.ms ≤ a)
    (hfresh : ∀ s ∈ st.db.schedule, s.id ≠ sd.id) :
    (ScheduleManager.addSchedule parseDate st clk sd).1 = .ok sd ∧
      (ScheduleManager.addSchedule parseDate st clk sd).2.db.schedule =
        st.db.schedule ++ [sd.toRow] ∧
      sd.toRow.zone = sd.zone ∧
      (ScheduleManager.addSchedule parseDate st clk sd).2.db.zones = st.db.zones := by
  obtain ⟨c', hget⟩ := getContentById_some st.db sd.contentId c hc hid
  have hge : dateGe (some a) (some b) = false := decide_eq_false (by omega)
  have hlt : dateLt (some a) (some clk.ms) = false := decide_eq_false (by omega)
  unfold ScheduleManager.addSchedule
  simp only [hget, ha, hb, hge, hlt, addSchedule_db_fresh st.db sd hfresh, Bool.false_eq_true,
    if_false]
  refine ⟨trivial, ?_, rfl, ?_⟩
  · rw [(updateActiveSchedules_tables _ clk sd.zone).1]; rfl
  · rw [(updateActiveSchedules_tables _ clk sd.zone).2.2]; rfl

/-- C9, as the code has it, at the reception store: a request for the zone
`nowhere` is inserted. -/
theorem addSchedule_inserts_any_zone_witness :
    (ScheduleManager.addSchedule isoDate (freshManager receptionStore) noon
        (sampleRequest "entryC" "contentA" "nowhere" "2030-01-02T00:00:00.000Z"
          "2030-01-03T00:00:00.000Z")).2.db.schedule =
      receptionStore.schedule ++
        [(sampleRequest "entryC" "contentA" "nowhere" "2030-01-02T00:00:00.000Z"
          "2030-01-03T00:00:00.000Z").toRow] :=
  (addSchedule_inserts_any_zone isoDate (freshManager receptionStore) noon
    (sampleRequest "entryC" "contentA" "nowhere" "2030-01-02T00:00:00.000Z"
      "2030-01-03T00:00:00.000Z") (sampleContent "contentA" 1) (by decide) (by decide)
    1893542400000 1893628800000 (by decide) (by decide) (by decide) (by decide)
    (by decide)).2.1

/-- C9 as stated fails: `nowhere` is the id of no row of the zones table, yet
the request for it is accepted and its row is appended to the schedule
table. -/
theorem addSchedule_accepts_unknown_zone :
    (∀ z ∈ receptionStore.zones, z.id ≠ "nowhere") ∧
      (ScheduleManager.addSchedule isoDate (freshManager receptionStore) noon
        (sampleRequest "entryC" "contentA" "nowhere" "2030-01-02T00:00:00.000Z"
          "2030-01-03T00:00:00.000Z")).1 =
        .ok (sampleRequest "entryC" "contentA" "nowhere" "2030-01-02T00:00:00.000Z"
          "2030-01-03T00:00:00.000Z") ∧
      (ScheduleManager.addSchedule isoDate (freshManager receptionStore) noon
        (sampleRequest "entryC" "contentA" "nowhere" "2030-01-02T00:00:00.000Z"
          "2030-01-03T00:00:00.000Z")).2.db.schedule =
        [entryA, entryB,
          { id := "entryC", contentId := "contentA", zone := "nowhere",
            startTime := "2030-01-02T00:00:00.000Z", endTime := "2030-01-03T00:00:00.000Z",
            priority := 1, isActive := 1, createdAt := "2030-01-01T12:00:00.000Z" }] :=
  ⟨by decide, rfl, by decide⟩

/-! ## The overlap query `ScheduleManager.checkOverlappingSchedules` -/

theorem textLt_irrefl (a : String) : textLt a a = false := by
  unfold textLt
  cases h : textLtChars a.toList a.toList
  · rfl
  · rw [textLtChars_asymm _ _ h] at h; cases h

theorem overlapsHigher_iff (zone startTime endTime : String) (priority : Int)
    (r : ScheduleRow × ContentRow) :
    overlapsHigher zone startTime endTime priority r = true ↔
      r.1.zone = zone ∧ r.1.isActive = 1 ∧ priority < r.1.priority ∧
        textLt r.1.startTime endTime = true ∧ textLt startTime r.1.endTime = true := by
  unfold overlapsHigher
  simp only [Bool.and_eq_true, decide_eq_true_eq]
  tauto

/-- The WHERE clause of the overlap query on the stored text:
`checkOverlappingSchedules` returns exactly the schedule entries joined to an
existing content record that are of the given zone, have `isActive = 1`, have
a priority strictly greater than the candidate's and texts with
`entry.startTime < endTime` and `entry.endTime > startTime` in the order
SQLite applies to TEXT; an entry whose text equals the candidate's at an
endpoint, or whose priority equals the candidate's, is not returned. -/
theorem checkOverlappingSchedules_exact (db : Store) (zone startTime endTime : String)
    (priority : Int) :
    (∀ row, row ∈ ScheduleManager.checkOverlappingSchedules db zone startTime endTime priority ↔
        ∃ s c, s ∈ db.schedule ∧ c ∈ db.content ∧ s.contentId = c.id ∧
          row = { s := s, title := c.title, type := c.type } ∧
          s.zone = zone ∧ s.isActive = 1 ∧ priority < s.priority ∧
          textLt s.startTime endTime = true ∧ textLt startTime s.endTime = true) ∧
      (∀ row ∈ ScheduleManager.checkOverlappingSchedules db zone startTime endTime priority,
        row.s.endTime ≠ startTime ∧ row.s.startTime ≠ endTime ∧ row.s.priority ≠ priority) := by
  have key : ∀ row,
      row ∈ ScheduleManager.checkOverlappingSchedules db zone startTime endTime priority ↔
        ∃ s c, s ∈ db.schedule ∧ c ∈ db.content ∧ s.contentId = c.id ∧
          row = { s := s, title := c.title, type := c.type } ∧
          s.zone = zone ∧ s.isActive = 1 ∧ priority < s.priority ∧
          textLt s.startTime endTime = true ∧ textLt startTime s.endTime = true := by
    intro row
    unfold ScheduleManager.checkOverlappingSchedules
    rw [List.mem_map]
    constructor
    · rintro ⟨⟨s, c⟩, hmem, rfl⟩
      rw [List.mem_filter, mem_joinScheduleContent, overlapsHigher_iff] at hmem
      obtain ⟨⟨hs, hc, hid⟩, hz, ha, hp, h1, h2⟩ := hmem
      exact ⟨s, c, hs, hc, hid, rfl, hz, ha, hp, h1, h2⟩
    · rintro ⟨s, c, hs, hc, hid, rfl, hz, ha, hp, h1, h2⟩
      refine ⟨(s, c), ?_, rfl⟩
      rw [List.mem_filter, mem_joinScheduleContent, overlapsHigher_iff]
      exact ⟨⟨hs, hc, hid⟩, hz, ha, hp, h1, h2⟩
  refine ⟨key, ?_⟩
  intro row hrow
  obtain ⟨s, c, -, -, -, rfl, -, -, hp, h1, h2⟩ := (key row).mp hrow
  refine ⟨?_, ?_, ?_⟩
  · intro h
    simp only at h
    rw [h, textLt_irrefl] at h2
    cases h2
  · intro h
    simp only at h
    rw [h, textLt_irrefl] at h1
    cases h1
  · intro h
    simp only at h
    omega

/-- At the reception scenario, for a candidate of priority 1 in zone
reception over the afternoon, only entry B (priority 5) is returned, and for a
candidate that starts when the entries end nothing is returned. -/
theorem checkOverlappingSchedules_exact_witness :
    ScheduleManager.checkOverlappingSchedules receptionStore "reception"
        "2030-01-01T13:00:00.000Z" "2030-01-01T14:00:00.000Z" 1 =
      [{ s := entryB, title := "contentB", type := "image" }] ∧
      ScheduleManager.checkOverlappingSchedules receptionStore "reception"
        "2030-01-02T00:00:00.000Z" "2030-01-03T00:00:00.000Z" 0 = [] ∧
      entryB.priority ≠ 1 :=
  ⟨by decide, by decide,
    ((checkOverlappingSchedules_exact receptionStore "reception" "2030-01-01T13:00:00.000Z"
      "2030-01-01T14:00:00.000Z" 1).2 { s := entryB, title := "contentB", type := "image" }
      (by decide)).2.2⟩

/-- C10, on the code: the overlap query compares the stored text.  When the
candidate's `startTime` and `endTime` and those of a row are texts of the form
`toISOString` writes, the row is returned exactly when it joins an entry of
the zone with `isActive = 1`, a strictly greater priority and a window that
strictly overlaps the candidate's as instants.  But for a candidate written
with the offset `-05:00`, from 15:00 to 16:00 UTC, which `POST /api/schedule`
accepts, the query lists the entry of 10:30 to 10:45 UTC, which ends before
the candidate starts, and omits the entry of 15:15 to 15:45 UTC of the same
zone and priority 5, which lies inside the candidate's window. -/
theorem checkOverlappingSchedules_window_by_text :
    (∀ (db : Store) (zone startTime endTime : String) (priority : Int) (row : OverlapRow)
        (a b x y : Int),
        isoDate startTime = some a → isoDate endTime = some b →
        isoDate row.s.startTime = some x → isoDate row.s.endTime = some y →
        (row ∈ ScheduleManager.checkOverlappingSchedules db zone startTime endTime priority ↔
          (∃ c ∈ db.content, row.s ∈ db.schedule ∧ row.s.contentId = c.id ∧
            row.title = c.title ∧ row.type = c.type) ∧
          row.s.zone = zone ∧ row.s.isActive = 1 ∧ priority < row.s.priority ∧
          x < b ∧ a < y)) ∧
      (Server.postSchedule offsetDate (freshManager overlapStore) noon "entryWest"
        westBody).1 = 200 ∧
      overlapStore.schedule = [entryMorning, entryAfternoon] ∧
      offsetDate westBody.startTime = some 1893596400000 ∧
      offsetDate westBody.endTime = some 1893600000000 ∧
      offsetDate entryMorning.endTime = some 1893581100000 ∧
      dateLt (offsetDate entryMorning.endTime) (offsetDate westBody.startTime) = true ∧
      entryAfternoon.zone = westBody.zone ∧ entryAfternoon.isActive = 1 ∧
      westBody.priority < entryAfternoon.priority ∧
      offsetDate entryAfternoon.startTime = some 1893597300000 ∧
      offsetDate entryAfternoon.endTime = some 1893599100000 ∧
      dateLt (offsetDate entryAfternoon.startTime) (offsetDate westBody.endTime) = true ∧
      dateLt (offsetDate westBody.startTime) (offsetDate entryAfternoon.endTime) = true ∧
      ScheduleManager.checkOverlappingSchedules overlapStore westBody.zone westBody.startTime
          westBody.endTime westBody.priority =
        [{ s := entryMorning, title := "contentA", type := "image" }] := by
  refine ⟨?_, by decide, by decide, by decide, by decide, by decide, by decide, by decide,
    by decide, by decide, by decide, by decide, by decide, by decide, by decide⟩
  intro db zone startTime endTime priority row a b x y ha hb hx hy
  rw [← textLt_iff_isoDate _ _ x b hx hb, ← textLt_iff_isoDate _ _ a y ha hy]
  unfold ScheduleManager.checkOverlappingSchedules
  rw [List.mem_map]
  constructor
  · rintro ⟨⟨s, c⟩, hmem, rfl⟩
    rw [List.mem_filter, mem_joinScheduleContent, overlapsHigher_iff] at hmem
    obtain ⟨⟨hs, hc, hid⟩, hz, hact, hp, h1, h2⟩ := hmem
    exact ⟨⟨c, hc, hs, hid, rfl, rfl⟩, hz, hact, hp, h1, h2⟩
  · rintro ⟨⟨c, hc, hs, hid, htitle, htype⟩, hz, hact, hp, h1, h2⟩
    refine ⟨(row.s, c), ?_, ?_⟩
    · rw [List.mem_filter, mem_joinScheduleContent, overlapsHigher_iff]
      exact ⟨⟨hs, hc, hid⟩, hz, hact, hp, h1, h2⟩
    · cases row
      simp only at htitle htype ⊢
      rw [htitle, htype]

/-- C10, at the reception scenario: for a candidate of priority 1 over the
afternoon of 2030-01-01, written in the form `toISOString` writes, entry B of
priority 5 is returned, and its window overlaps the candidate's. -/
theorem checkOverlappingSchedules_window_by_text_witness :
    ScheduleManager.checkOverlappingSchedules receptionStore "reception"
        "2030-01-01T13:00:00.000Z" "2030-01-01T14:00:00.000Z" 1 =
      [{ s := entryB, title := "contentB", type := "image" }] ∧
      (1893456000000 : Int) < 1893506400000 ∧ (1893502800000 : Int) < 1893542400000 :=
  ⟨by decide,
    ((checkOverlappingSchedules_window_by_text.1 receptionStore "reception"
      "2030-01-01T13:00:00.000Z" "2030-01-01T14:00:00.000Z" 1
      { s := entryB, title := "contentB", type := "image" } 1893502800000 1893506400000
      1893456000000 1893542400000 (by decide) (by decide) (by decide) (by decide)).mp
      (by decide)).2.2.2.2.1,
    ((checkOverlappingSchedules_window_by_text.1 receptionStore "reception"
      "2030-01-01T13:00:00.000Z" "2030-01-01T14:00:00.000Z" 1
      { s := entryB, title := "contentB", type := "image" } 1893502800000 1893506400000
      1893456000000 1893542400000 (by decide) (by decide) (by decide) (by decide)).mp
      (by decide)).2.2.2.2.2⟩

/-- C11, on the code: with an active entry of zone `all` and priority 3 whose
window is the whole of 2030-01-01, the overlap query for a candidate of zone
reception, priority 1, over the afternoon of that day returns nothing; the
entry is found only when the candidate's own zone is `all`. -/
theorem checkOverlappingSchedules_omits_all_zone :
    entryAll.zone = "all" ∧ entryAll.isActive = 1 ∧ (1 : Int) < entryAll.priority ∧
      textLt entryAll.startTime "2030-01-01T14:00:00.000Z" = true ∧
      textLt "2030-01-01T13:00:00.000Z" entryAll.endTime = true ∧
      ScheduleManager.checkOverlappingSchedules allZoneStore "reception"
        "2030-01-01T13:00:00.000Z" "2030-01-01T14:00:00.000Z" 1 = [] ∧
      ScheduleManager.checkOverlappingSchedules allZoneStore "all"
        "2030-01-01T13:00:00.000Z" "2030-01-01T14:00:00.000Z" 1 =
        [{ s := entryAll, title := "contentA", type := "image" }] := by
  decide

/-! ## The overlap list is advisory -/

/-- C12, as the code has it: for every request with existing content,
parseable times with start before end, a start that is not in the past and an
id not yet in the schedule table, `addSchedule` returns the request and
appends its row, with no condition on the list of `checkOverlappingSchedules`;
and when the zone holds an active entry of strictly higher priority that
strictly overlaps the request and is joined to an existing content record,
that list is non-empty while the same row is stored. -/
theorem addSchedule_ignores_overlap (parseDate : String → Option Int) (st : ManagerState)
    (clk : Clock) (sd : ScheduleData) (c : ContentRow) (hc : c ∈ st.db.content)
    (hid : c.id = sd.contentId) (a b : Int) (ha : parseDate sd.startTime = some a)
    (hb : parseDate sd.endTime = some b) (hab : a < b) (hnow : clk.ms ≤ a)
    (hfresh : ∀ s ∈ st.db.schedule, s.id ≠ sd.id) :
    (ScheduleManager.addSchedule parseDate st clk sd).1 = .ok sd ∧
      (ScheduleManager.addSchedule parseDate st clk sd).2.db.schedule =
        st.db.schedule ++ [sd.toRow] ∧
      (∀ s ∈ st.db.schedule, ∀ c' ∈ st.db.content, s.contentId = c'.id → s.zone = sd.zone →
        s.isActive = 1 → sd.priority < s.priority → textLt s.startTime sd.endTime = true →
        textLt sd.startTime s.endTime = true →
        ScheduleManager.checkOverlappingSchedules st.db sd.zone sd.startTime sd.endTime
          sd.priority ≠ []) := by
  obtain ⟨c0, hget⟩ := getContentById_some st.db sd.contentId c hc hid
  have hge : dateGe (some a) (some b) = false := decide_eq_false (by omega)
  have hlt : dateLt (some a) (some clk.ms) = false := decide_eq_false (by omega)
  refine ⟨?_, ?_, ?_⟩
  · unfold ScheduleManager.addSchedule
    simp only [hget, ha, hb, hge, hlt, addSchedule_db_fresh st.db sd hfresh, Bool.false_eq_true,
      if_false]
  · unfold ScheduleManager.addSchedule
    simp only [hget, ha, hb, hge, hlt, addSchedule_db_fresh st.db sd hfresh, Bool.false_eq_true,
      if_false]
    rw [(updateActiveSchedules_tables _ clk sd.zone).1]; rfl
  · intro s hs c' hc' hjoin hz hact hp h1 h2 hnil
    have hmem : (s, c') ∈ (joinScheduleContent st.db).filter
        (overlapsHigher sd.zone sd.startTime sd.endTime sd.priority) := by
      rw [List.mem_filter, mem_joinScheduleContent, overlapsHigher_iff]
      exact ⟨⟨hs, hc', hjoin⟩, hz, hact, hp, h1, h2⟩
    unfold ScheduleManager.checkOverlappingSchedules at hnil
    rw [List.map_eq_nil_iff] at hnil
    rw [hnil] at hmem
    cases hmem

/-- C12, as the code has it, at the reception scenario: a request of
priority 1 over the afternoon, overlapped by entry B of priority 5, is stored
while the advisory list is not empty. -/
theorem addSchedule_ignores_overlap_witness :
    (ScheduleManager.addSchedule isoDate (freshManager receptionStore) noon
        (sampleRequest "entryC" "contentA" "reception" "2030-01-01T13:00:00.000Z"
          "2030-01-01T14:00:00.000Z")).2.db.schedule =
      receptionStore.schedule ++
        [(sampleRequest "entryC" "contentA" "reception" "2030-01-01T13:00:00.000Z"
          "2030-01-01T14:00:00.000Z").toRow] ∧
      ScheduleManager.checkOverlappingSchedules receptionStore "reception"
        "2030-01-01T13:00:00.000Z" "2030-01-01T14:00:00.000Z" 1 ≠ [] :=
  ⟨(addSchedule_ignores_overlap isoDate (freshManager receptionStore) noon
      (sampleRequest "entryC" "contentA" "reception" "2030-01-01T13:00:00.000Z"
        "2030-01-01T14:00:00.000Z") (sampleContent "contentA" 1) (by decide) (by decide)
      1893502800000 1893506400000 (by decide) (by decide) (by decide) (by decide)
      (by decide)).2.1,
   (addSchedule_ignores_overlap isoDate (freshManager receptionStore) noon
      (sampleRequest "entryC" "contentA" "reception" "2030-01-01T13:00:00.000Z"
        "2030-01-01T14:00:00.000Z") (sampleContent "contentA" 1) (by decide) (by decide)
      1893502800000 1893506400000 (by decide) (by decide) (by decide) (by decide)
      (by decide)).2.2 entryB (by decide) (sampleContent "contentB" 1) (by decide) (by decide)
      (by decide) (by decide) (by decide) (by decide) (by decide)⟩

/-- C12 as stated fails: a request that meets the three conditions but
reuses the id of entry A is refused by the INSERT and nothing is stored; and
in a store whose higher-priority overlapping entry has lost its content record
the request is stored while the advisory list is empty. -/
theorem addSchedule_refuses_used_id :
    (ScheduleManager.addSchedule isoDate (freshManager receptionStore) noon
        (sampleRequest "entryA" "contentA" "reception" "2030-01-02T00:00:00.000Z"
          "2030-01-03T00:00:00.000Z")).1 =
        .error "SQLITE_CONSTRAINT: UNIQUE constraint failed: schedule.id" ∧
      (ScheduleManager.addSchedule isoDate (freshManager receptionStore) noon
        (sampleRequest "entryA" "contentA" "reception" "2030-01-02T00:00:00.000Z"
          "2030-01-03T00:00:00.000Z")).2.db.schedule = [entryA, entryB] ∧
      entryOrphan.zone = "reception" ∧ entryOrphan.isActive = 1 ∧
      (1 : Int) < entryOrphan.priority ∧
      textLt entryOrphan.startTime "2030-01-03T00:00:00.000Z" = true ∧
      textLt "2030-01-02T00:00:00.000Z" entryOrphan.endTime = true ∧
      ScheduleManager.checkOverlappingSchedules orphanStore "reception"
        "2030-01-02T00:00:00.000Z" "2030-01-03T00:00:00.000Z" 1 = [] ∧
      (ScheduleManager.addSchedule isoDate (freshManager orphanStore) noon
        (sampleRequest "entryC" "contentA" "reception" "2030-01-02T00:00:00.000Z"
          "2030-01-03T00:00:00.000Z")).2.db.schedule.length = 2 :=
  ⟨rfl, by decide, by decide, by decide, by decide, by decide, by decide, by decide, by decide⟩

/-! ## Room membership on the server -/

theorem mem_join (h : Hub) (socketId zone : String) (p : String × String) :
    p ∈ (h.join socketId zone).rooms ↔ p ∈ h.rooms ∨ p = (socketId, zone) := by
  unfold Hub.join
  by_cases hin : (socketId, zone) ∈ h.rooms
  · simp only [hin, if_true]
    constructor
    · exact Or.inl
    · rintro (hp | rfl)
      · exact hp
      · exact hin
  · simp only [hin, if_false, List.mem_append, List.mem_singleton]

theorem mem_leave (h : Hub) (socketId zone : String) (p : String × String) :
    p ∈ (h.leave socketId zone).rooms ↔ p ∈ h.rooms ∧ p ≠ (socketId, zone) := by
  unfold Hub.leave
  simp [List.mem_filter]

/-- C13, as the code has it: handling `joinZone(Z2)` adds the session to
room Z2 and removes it from no room; handling `leaveZone(Z1)` removes exactly
the membership of the session in Z1; so a session that is in Z1 only and sends
`leaveZone(Z1)` before `joinZone(Z2)`, as `ConnectionManager.setZone` does, is
afterwards in Z2 only. -/
theorem joinZone_adds_only (h : Hub) (socketId z1 z2 : String) :
    (∀ p, p ∈ (Server.onSocketEvent h socketId "joinZone" (.str z2)).1.rooms ↔
        p ∈ h.rooms ∨ p = (socketId, z2)) ∧
      (∀ p, p ∈ (Server.onSocketEvent h socketId "leaveZone" (.str z1)).1.rooms ↔
        p ∈ h.rooms ∧ p ≠ (socketId, z1)) ∧
      ((∀ r, (socketId, r) ∈ h.rooms → r = z1) →
        ∀ r, (socketId, r) ∈
            (Server.onSocketEvent (Server.onSocketEvent h socketId "leaveZone" (.str z1)).1
              socketId "joinZone" (.str z2)).1.rooms ↔ r = z2) := by
  have hjoin : ∀ (g : Hub) (z : String),
      (Server.onSocketEvent g socketId "joinZone" (.str z)).1 = g.join socketId z := by
    intro g z; rfl
  have hleave : ∀ (g : Hub) (z : String),
      (Server.onSocketEvent g socketId "leaveZone" (.str z)).1 = g.leave socketId z := by
    intro g z; rfl
  refine ⟨?_, ?_, ?_⟩
  · intro p; rw [hjoin]; exact mem_join h socketId z2 p
  · intro p; rw [hleave]; exact mem_leave h socketId z1 p
  · intro honly r
    rw [hjoin, hleave, mem_join, mem_leave]
    constructor
    · rintro (⟨hr, hne⟩ | heq)
      · exact absurd (by rw [honly r hr]) hne
      · exact (Prod.mk.inj heq).2
    · rintro rfl
      exact Or.inr rfl

/-- C13, as the code has it, at a session in room reception: after
`leaveZone` reception and `joinZone` shop it is in room shop only. -/
theorem joinZone_adds_only_witness :
    ("s1", "shop") ∈
        (Server.onSocketEvent
          (Server.onSocketEvent { rooms := [("s1", "reception")] } "s1" "leaveZone"
            (.str "reception")).1 "s1" "joinZone" (.str "shop")).1.rooms ∧
      ("s1", "reception") ∉
        (Server.onSocketEvent
          (Server.onSocketEvent { rooms := [("s1", "reception")] } "s1" "leaveZone"
            (.str "reception")).1 "s1" "joinZone" (.str "shop")).1.rooms :=
  ⟨((joinZone_adds_only { rooms := [("s1", "reception")] } "s1" "reception" "shop").2.2
      (fun r hr => by simpa using hr) "shop").mpr rfl,
   fun hmem => absurd
    (((joinZone_adds_only { rooms := [("s1", "reception")] } "s1" "reception" "shop").2.2
      (fun r hr => by simpa using hr) "reception").mp hmem) (by decide)⟩

/-- C13 as stated fails: a session that has joined room reception and then
sends `joinZone` for shop, without a `leaveZone`, is subscribed to both
rooms. -/
theorem joinZone_keeps_earlier_zone :
    (Server.onSocketEvent (Server.onSocketEvent { rooms := [] } "s1" "joinZone"
        (.str "reception")).1 "s1" "joinZone" (.str "shop")).1.rooms =
      [("s1", "reception"), ("s1", "shop")] := by
  decide

/-! ## Requests of a connected session -/

/-- C14, on the code: a session of zone reception that connects sends
`joinZone` and then `requestContent` for its zone, but the server has no
handler for `requestContent`: whatever the membership and the payload, the
server changes nothing and answers nothing, and the display of the session is
still the one the constructor left, with no content loaded. -/
theorem requestContent_is_not_answered :
    sentEvents connectedClient.effects =
        [("joinZone", .str "reception"), ("requestContent", .obj [("zone", .str "reception")])] ∧
      fetchedUrls connectedClient.effects = [] ∧
      (∀ (h : Hub) (socketId : String) (payload : JsVal),
        Server.onSocketEvent h socketId "requestContent" payload = (h, [])) ∧
      connectedClient.display = DisplayManager.new "reception" ∧
      connectedClient.display.currentContent = [] :=
  ⟨rfl, rfl, fun _ _ _ => rfl, rfl, rfl⟩

/-! ## The broadcast after `POST /api/schedule` -/

/-- C15, on the code: the payload that `POST /api/schedule` broadcasts as
`scheduleUpdated` is the object with the keys `type` and `schedule`; it has no
key `zone`, so `handleScheduleUpdate` finds `data.zone` different from the
zone of every session and returns without a request.  In the reception
scenario the entry is created for zone reception with status 200, one message
is broadcast, and the connected session of zone reception sends nothing and
fetches nothing on it. -/
theorem scheduleUpdated_refreshes_no_session (parseDate : String → Option Int)
    (st : ManagerState) (clk : Clock) (uuid : String) (body : ScheduleBody) (c : Client) :
    (∀ msg ∈ (Server.postSchedule parseDate st clk uuid body).2.2,
        msg.1 = "scheduleUpdated" ∧ (msg.2.get "zone").isStr c.conn.zone = false ∧
          ConnectionManager.handleScheduleUpdate c msg.2 = c) ∧
      (Server.postSchedule isoDate (freshManager receptionStore) noon "entryC"
          { contentId := "contentA", zone := "reception",
            startTime := "2030-01-02T00:00:00.000Z", endTime := "2030-01-03T00:00:00.000Z",
            priority := 1 }).1 = 200 ∧
      (Server.postSchedule isoDate (freshManager receptionStore) noon "entryC"
          { contentId := "contentA", zone := "reception",
            startTime := "2030-01-02T00:00:00.000Z", endTime := "2030-01-03T00:00:00.000Z",
            priority := 1 }).2.2.length = 1 ∧
      connectedClient.conn.zone = "reception" ∧
      (∀ msg ∈ (Server.postSchedule isoDate (freshManager receptionStore) noon "entryC"
          { contentId := "contentA", zone := "reception",
            startTime := "2030-01-02T00:00:00.000Z", endTime := "2030-01-03T00:00:00.000Z",
            priority := 1 }).2.2,
        sentEvents (ConnectionManager.handleScheduleUpdate connectedClient msg.2).effects =
            sentEvents connectedClient.effects ∧
          fetchedUrls (ConnectionManager.handleScheduleUpdate connectedClient msg.2).effects =
            fetchedUrls connectedClient.effects) := by
  have key : ∀ (pd : String → Option Int) (s : ManagerState) (k : Clock) (u : String)
      (b : ScheduleBody) (d : Client),
      ∀ msg ∈ (Server.postSchedule pd s k u b).2.2,
        msg.1 = "scheduleUpdated" ∧ (msg.2.get "zone").isStr d.conn.zone = false ∧
          ConnectionManager.handleScheduleUpdate d msg.2 = d := by
    intro pd s k u b d msg hmsg
    unfold Server.postSchedule at hmsg
    simp only at hmsg
    split at hmsg
    · simp only [List.mem_singleton] at hmsg
      subst hmsg
      refine ⟨rfl, rfl, ?_⟩
      unfold ConnectionManager.handleScheduleUpdate
      rfl
    · cases hmsg
  refine ⟨key parseDate st clk uuid body c, by decide, by decide, rfl, ?_⟩
  intro msg hmsg
  rw [(key _ _ _ _ _ connectedClient msg hmsg).2.2]
  exact ⟨rfl, rfl⟩

/-! ## Reconnection with backoff -/

theorem reconnectDelays_append (xs ys : List ClientEffect) :
    reconnectDelays (xs ++ ys) = reconnectDelays xs ++ reconnectDelays ys := by
  induction xs with
  | nil => rfl
  | cons x xs ih => cases x <;> simp [reconnectDelays, ih]

theorem attemptReconnect_below_cap (c : Client)
    (h : c.conn.reconnectAttempts < c.conn.maxReconnectAttempts) :
    ConnectionManager.attemptReconnect c =
      { c with
        conn := { c.conn with reconnectAttempts := c.conn.reconnectAttempts + 1 },
        effects := c.effects ++
          [.reconnectTimer (c.conn.reconnectDelay * 2 ^ c.conn.reconnectAttempts)] } := by
  unfold ConnectionManager.attemptReconnect
  have hnot : ¬ c.conn.reconnectAttempts ≥ c.conn.maxReconnectAttempts := by omega
  simp only [hnot, if_false, Client.push, Nat.add_sub_cancel]

theorem attemptReconnect_iterate (n : Nat) : ∀ (c : Client),
    c.conn.reconnectAttempts + n ≤ c.conn.maxReconnectAttempts →
    reconnectDelays ((ConnectionManager.attemptReconnect^[n]) c).effects =
      reconnectDelays c.effects ++
        (List.range n).map fun k => c.conn.reconnectDelay * 2 ^ (c.conn.reconnectAttempts + k) := by
  induction n with
  | zero => intro c _; simp
  | succ n ih =>
    intro c h
    rw [Function.iterate_succ_apply, ih _ (by rw [attemptReconnect_below_cap c (by omega)]; simp only; omega)]
    rw [attemptReconnect_below_cap c (by omega)]
    simp only [reconnectDelays_append, reconnectDelays, List.range_succ_eq_map, List.map_cons,
      List.map_map, List.append_assoc, List.singleton_append, Nat.add_zero]
    congr 2
    apply List.map_congr_left
    intro k _
    simp only [Function.comp_apply]
    congr 2
    omega

theorem adminReconnect_below_cap (w : WebSocketManager)
    (h : w.reconnectAttempts < w.maxReconnectAttempts) :
    WebSocketManager.attemptReconnect w =
      { w with
        reconnectAttempts := w.reconnectAttempts + 1,
        timers := w.timers ++ [w.reconnectDelay * 2 ^ w.reconnectAttempts] } := by
  unfold WebSocketManager.attemptReconnect
  have hnot : ¬ w.reconnectAttempts ≥ w.maxReconnectAttempts := by omega
  simp only [hnot, if_false, Nat.add_sub_cancel]

theorem adminReconnect_iterate (n : Nat) : ∀ (w : WebSocketManager),
    w.reconnectAttempts + n ≤ w.maxReconnectAttempts →
    ((WebSocketManager.attemptReconnect^[n]) w).timers =
      w.timers ++
        (List.range n).map fun k => w.reconnectDelay * 2 ^ (w.reconnectAttempts + k) := by
  induction n with
  | zero => intro w _; simp
  | succ n ih =>
    intro w h
    rw [Function.iterate_succ_apply, ih _ (by rw [adminReconnect_below_cap w (by omega)]; simp only; omega)]
    rw [adminReconnect_below_cap w (by omega)]
    simp only [List.range_succ_eq_map, List.map_cons, List.map_map, List.append_assoc,
      List.singleton_append, Nat.add_zero]
    congr 2
    apply List.map_congr_left
    intro k _
    simp only [Function.comp_apply]
    congr 2
    omega

/-- C16: starting from a counter of zero (the state after a successful
connect), the first `n` calls of `attemptReconnect`, for every `n` up to
`maxReconnectAttempts`, schedule their reconnects after
`reconnectDelay * 2^0, ..., reconnectDelay * 2^(n-1)` milliseconds, the n-th
call after `reconnectDelay * 2^(n-1)`; each delay is strictly below the next
when the base is positive.  This holds for the display session and for the
admin session; with the defaults the delays are 1000 up to 512000 (cap 10)
and 1000 up to 16000 (cap 5). -/
theorem reconnect_backoff_delays (n : Nat) :
    (∀ c : Client, c.conn.reconnectAttempts = 0 → n ≤ c.conn.maxReconnectAttempts →
        reconnectDelays ((ConnectionManager.attemptReconnect^[n]) c).effects =
          reconnectDelays c.effects ++
            (List.range n).map fun k => c.conn.reconnectDelay * 2 ^ k) ∧
      (∀ w : WebSocketManager, w.reconnectAttempts = 0 → n ≤ w.maxReconnectAttempts →
        ((WebSocketManager.attemptReconnect^[n]) w).timers =
          w.timers ++ (List.range n).map fun k => w.reconnectDelay * 2 ^ k) ∧
      (∀ base k : Nat, 0 < base → base * 2 ^ k < base * 2 ^ (k + 1)) ∧
      reconnectDelays ((ConnectionManager.attemptReconnect^[10]) (Client.start "reception")).effects =
        [1000, 2000, 4000, 8000, 16000, 32000, 64000, 128000, 256000, 512000] ∧
      ((WebSocketManager.attemptReconnect^[5]) WebSocketManager.new).timers =
        [1000, 2000, 4000, 8000, 16000] := by
  refine ⟨?_, ?_, ?_, by decide, by decide⟩
  · intro c h0 hn
    have h := attemptReconnect_iterate n c (by omega)
    simpa [h0] using h
  · intro w h0 hn
    have h := adminReconnect_iterate n w (by omega)
    simpa [h0] using h
  · intro base k hbase
    have h2 : 2 ^ k < 2 ^ (k + 1) := Nat.pow_lt_pow_right (by omega) (by omega)
    exact Nat.mul_lt_mul_of_pos_left h2 hbase

/-- C16, for the third call of a fresh display session: the delays of the
first three calls are 1000, 2000 and 4000 ms. -/
theorem reconnect_backoff_delays_witness :
    reconnectDelays ((ConnectionManager.attemptReconnect^[3]) (Client.start "reception")).effects =
      [1000, 2000, 4000] :=
  ((reconnect_backoff_delays 3).1 (Client.start "reception") rfl (by decide)).trans
    (by decide)

/-! ## The terminal state of the reconnection -/

theorem attemptReconnect_at_cap (c : Client)
    (h : c.conn.maxReconnectAttempts ≤ c.conn.reconnectAttempts) :
    ConnectionManager.attemptReconnect c =
      { c with effects := c.effects ++
          [.showErrorOverlay "Kan geen verbinding maken. Controleer de server en netwerk."] } := by
  unfold ConnectionManager.attemptReconnect
  have hge : c.conn.reconnectAttempts ≥ c.conn.maxReconnectAttempts := h
  simp only [hge, if_true, ConnectionManager.showErrorOverlay, Client.push]

theorem attemptReconnect_cap (c : Client) (h : withinCap c) :
    withinCap (ConnectionManager.attemptReconnect c) ∧
      (ConnectionManager.attemptReconnect c).conn.maxReconnectAttempts =
        c.conn.maxReconnectAttempts := by
  unfold withinCap at *
  by_cases hlt : c.conn.reconnectAttempts < c.conn.maxReconnectAttempts
  · rw [attemptReconnect_below_cap c hlt]
    exact ⟨hlt, rfl⟩
  · rw [attemptReconnect_at_cap c (by omega)]
    exact ⟨h, rfl⟩

theorem requestContentForZone_conn (c : Client) (zone : String) :
    (ConnectionManager.requestContentForZone c zone).conn = c.conn := by
  unfold ConnectionManager.requestContentForZone ConnectionManager.fetchContentViaHTTP
  split <;> rfl

theorem joinZone_conn (c : Client) (zone : String) :
    (ConnectionManager.joinZone c zone).conn = c.conn := by
  unfold ConnectionManager.joinZone
  split <;> rfl

theorem leaveZone_conn (c : Client) (zone : String) :
    (ConnectionManager.leaveZone c zone).conn = c.conn := by
  unfold ConnectionManager.leaveZone
  split <;> rfl

theorem displaySetZone_conn (c : Client) (zone : String) :
    (DisplayManager.setZone c zone).conn = c.conn := by
  unfold DisplayManager.setZone
  split
  · rw [requestContentForZone_conn]
  · rfl

theorem setZone_cap (c : Client) (zone : String) :
    (ConnectionManager.setZone c zone).conn.reconnectAttempts = c.conn.reconnectAttempts ∧
      (ConnectionManager.setZone c zone).conn.maxReconnectAttempts =
        c.conn.maxReconnectAttempts := by
  unfold ConnectionManager.setZone
  split
  · simp only [displaySetZone_conn, requestContentForZone_conn, joinZone_conn, leaveZone_conn,
      and_self]
  · exact ⟨rfl, rfl⟩

theorem handleContentUpdate_cap (parseDate : String → Option Int) (c : Client) (now : String)
    (data : JsVal) :
    (ConnectionManager.handleContentUpdate parseDate c now data).conn.reconnectAttempts =
        c.conn.reconnectAttempts ∧
      (ConnectionManager.handleContentUpdate parseDate c now data).conn.maxReconnectAttempts =
        c.conn.maxReconnectAttempts := by
  unfold ConnectionManager.handleContentUpdate
  split
  · exact ⟨rfl, rfl⟩
  · split
    · rw [requestContentForZone_conn]; exact ⟨rfl, rfl⟩
    · exact ⟨rfl, rfl⟩

theorem step_cap (parseDate : String → Option Int) (now : String) (c : Client)
    (e : ClientEvent) (h : withinCap c) :
    withinCap (Client.step parseDate now c e) ∧
      (Client.step parseDate now c e).conn.maxReconnectAttempts =
        c.conn.maxReconnectAttempts := by
  cases e with
  | connect =>
    simp only [Client.step, ConnectionManager.onConnect, withinCap, Client.push,
      requestContentForZone_conn, joinZone_conn]
    exact ⟨Nat.zero_le _, trivial⟩
  | disconnect =>
    simp only [Client.step, ConnectionManager.onDisconnect]
    exact attemptReconnect_cap _ h
  | connectError =>
    simp only [Client.step, ConnectionManager.handleConnectionError]
    exact attemptReconnect_cap _ h
  | reconnectFailed =>
    simp only [Client.step, ConnectionManager.handleConnectionError]
    exact attemptReconnect_cap _ h
  | contentUpdated data =>
    have hk := handleContentUpdate_cap parseDate c now data
    simp only [Client.step, withinCap, hk.1, hk.2]
    exact ⟨h, trivial⟩
  | scheduleUpdated data =>
    simp only [Client.step, ConnectionManager.handleScheduleUpdate, withinCap]
    split
    · rw [requestContentForZone_conn]; exact ⟨h, rfl⟩
    · exact ⟨h, rfl⟩
  | zoneUpdate data =>
    simp only [Client.step, ConnectionManager.handleZoneUpdate, withinCap]
    split
    · rw [requestContentForZone_conn]; exact ⟨h, rfl⟩
    · exact ⟨h, rfl⟩
  | systemNotification data => exact ⟨h, rfl⟩
  | reconnectTimer =>
    simp only [Client.step, ConnectionManager.reconnectTimerFires, withinCap]
    split
    · exact ⟨h, rfl⟩
    · exact ⟨h, rfl⟩
  | heartbeat =>
    simp only [Client.step, ConnectionManager.sendPing, withinCap]
    split
    · exact ⟨h, rfl⟩
    · exact ⟨h, rfl⟩
  | fetched zone r =>
    simp only [Client.step, ConnectionManager.fetchContentResponse, withinCap]
    split
    · have hk := handleContentUpdate_cap parseDate c now
        (.obj [("type", .str "zone_content"), ("zone", .str zone), ("content", ‹JsVal›)])
      rw [hk.1, hk.2]
      exact ⟨h, rfl⟩
    · exact ⟨h, rfl⟩
  | retryClicked =>
    simp only [Client.step, ConnectionManager.retryClicked, ConnectionManager.reconnect,
      ConnectionManager.disconnect, ConnectionManager.connect, Client.push, withinCap]
    exact ⟨Nat.zero_le _, trivial⟩
  | changeZone zone =>
    simp only [Client.step, SnowWorldClientApp.changeZone, withinCap]
    split
    · rw [displaySetZone_conn, (setZone_cap _ zone).1, (setZone_cap _ zone).2]
      exact ⟨h, rfl⟩
    · exact ⟨h, rfl⟩
  | refresh =>
    simp only [Client.step, SnowWorldClientApp.refreshContent, withinCap,
      requestContentForZone_conn]
    exact ⟨h, trivial⟩

theorem run_cap (parseDate : String → Option Int) (now : String) (events : List ClientEvent) :
    ∀ c : Client, withinCap c →
      withinCap (Client.run parseDate now c events) ∧
        (Client.run parseDate now c events).conn.maxReconnectAttempts =
          c.conn.maxReconnectAttempts := by
  induction events with
  | nil => intro c h; exact ⟨h, rfl⟩
  | cons e es ih =>
    intro c h
    have hs := step_cap parseDate now c e h
    have hr := ih _ hs.1
    exact ⟨hr.1, hr.2.trans hs.2⟩

/-- C17: in every state of the display session whose counter equals
`maxReconnectAttempts`, `attemptReconnect` schedules no reconnect timer,
leaves the counter and the rest of the connection state unchanged and shows
the error overlay; the counter goes back to zero on a successful connect and
on a manual reconnect; and in every state reached from the start of the
session by any sequence of events the counter is at most
`maxReconnectAttempts`, which stays 10. -/
theorem failed_is_terminal (parseDate : String → Option Int) (now zone : String)
    (events : List ClientEvent) :
    (∀ c : Client, c.conn.reconnectAttempts = c.conn.maxReconnectAttempts →
        reconnectDelays (ConnectionManager.attemptReconnect c).effects =
            reconnectDelays c.effects ∧
          (ConnectionManager.attemptReconnect c).conn = c.conn ∧
          (ConnectionManager.attemptReconnect c).effects = c.effects ++
            [.showErrorOverlay "Kan geen verbinding maken. Controleer de server en netwerk."]) ∧
      (∀ c : Client, (ConnectionManager.onConnect c).conn.reconnectAttempts = 0 ∧
          (ConnectionManager.reconnect c).conn.reconnectAttempts = 0 ∧
          (ConnectionManager.retryClicked c).conn.reconnectAttempts = 0) ∧
      (Client.run parseDate now (Client.start zone) events).conn.reconnectAttempts ≤
        (Client.run parseDate now (Client.start zone) events).conn.maxReconnectAttempts ∧
      (Client.run parseDate now (Client.start zone) events).conn.maxReconnectAttempts = 10 := by
  refine ⟨?_, ?_, ?_, ?_⟩
  · intro c h
    rw [attemptReconnect_at_cap c (by omega)]
    refine ⟨?_, rfl, rfl⟩
    simp only [reconnectDelays_append, reconnectDelays, List.append_nil]
  · intro c
    refine ⟨?_, rfl, rfl⟩
    simp only [ConnectionManager.onConnect, Client.push, requestContentForZone_conn,
      joinZone_conn]
  · exact (run_cap parseDate now events (Client.start zone) (Nat.zero_le _)).1
  · exact (run_cap parseDate now events (Client.start zone) (Nat.zero_le _)).2

/-- C17, for a fresh display session whose connection fails eleven times:
the counter stays at 10, ten timers have been set, and a twelfth failure sets
no further timer. -/
theorem failed_is_terminal_witness :
    (Client.run isoDate noon.now (Client.start "reception")
        (List.replicate 11 ClientEvent.connectError)).conn.reconnectAttempts = 10 ∧
      (reconnectDelays (ConnectionManager.attemptReconnect
        (Client.run isoDate noon.now (Client.start "reception")
          (List.replicate 11 ClientEvent.connectError))).effects).length = 10 :=
  ⟨by decide,
    (congrArg List.length ((failed_is_terminal isoDate noon.now "reception" []).1
      (Client.run isoDate noon.now (Client.start "reception")
        (List.replicate 11 ClientEvent.connectError)) (by decide)).1).trans (by decide)⟩

/-! ## The HTTP fallback of a session that is not connected -/

theorem sentEvents_append (xs ys : List ClientEffect) :
    sentEvents (xs ++ ys) = sentEvents xs ++ sentEvents ys := by
  induction xs with
  | nil => rfl
  | cons x xs ih => cases x <;> simp [sentEvents, ih]

theorem handleContentUpdate_zoneContent (parseDate : String → Option Int) (c : Client)
    (now zone : String) (l : List DisplayItem) :
    ConnectionManager.handleContentUpdate parseDate c now
        (.obj [("type", .str "zone_content"), ("zone", .str zone), ("content", .items l)]) =
      if zone = c.conn.zone then
        { c with
          display := DisplayManager.updateContent parseDate c.display l,
          conn := { c.conn with lastContentUpdate := some now } }
      else c := by
  unfold ConnectionManager.handleContentUpdate
  have ht : (JsVal.obj [("type", .str "zone_content"), ("zone", .str zone),
      ("content", .items l)]).get "type" = .str "zone_content" := rfl
  have hz : (JsVal.obj [("type", .str "zone_content"), ("zone", .str zone),
      ("content", .items l)]).get "zone" = .str zone := rfl
  have hc : (JsVal.obj [("type", .str "zone_content"), ("zone", .str zone),
      ("content", .items l)]).get "content" = .items l := rfl
  rw [ht, hz, hc]
  by_cases h : zone = c.conn.zone
  · simp [JsVal.isStr, h]
  · simp [JsVal.isStr, h]

/-- C18, as the code has it: a session that is not connected sends nothing
over the socket for `requestContentForZone(Z)` and fetches
`/api/schedule/Z` instead; a successful answer with a list is passed to
`handleContentUpdate` as a `zone_content` update for Z, which hands the list
to `DisplayManager.updateContent` when Z is the zone assigned to the session
at that moment and otherwise leaves the session as it is. -/
theorem offline_request_uses_http (parseDate : String → Option Int) (c c' : Client)
    (now zone : String) (l : List DisplayItem) (hoff : c.conn.isConnected = false) :
    (ConnectionManager.requestContentForZone c zone).effects =
        c.effects ++ [.fetch ("http://localhost:3000/api/schedule/" ++ zone)] ∧
      sentEvents (ConnectionManager.requestContentForZone c zone).effects =
        sentEvents c.effects ∧
      ConnectionManager.fetchContentResponse parseDate c' now zone
          (.response true (some (.items l))) =
        ConnectionManager.handleContentUpdate parseDate c' now
          (.obj [("type", .str "zone_content"), ("zone", .str zone), ("content", .items l)]) ∧
      (zone = c'.conn.zone →
        (ConnectionManager.fetchContentResponse parseDate c' now zone
          (.response true (some (.items l)))).display =
          DisplayManager.updateContent parseDate c'.display l) ∧
      (zone ≠ c'.conn.zone →
        ConnectionManager.fetchContentResponse parseDate c' now zone
          (.response true (some (.items l))) = c') := by
  have hreq : (ConnectionManager.requestContentForZone c zone).effects =
      c.effects ++ [.fetch ("http://localhost:3000/api/schedule/" ++ zone)] := by
    unfold ConnectionManager.requestContentForZone ConnectionManager.fetchContentViaHTTP
    simp only [hoff, Bool.false_eq_true, if_false, Client.push]
  have hresp : ConnectionManager.fetchContentResponse parseDate c' now zone
      (.response true (some (.items l))) =
      ConnectionManager.handleContentUpdate parseDate c' now
        (.obj [("type", .str "zone_content"), ("zone", .str zone), ("content", .items l)]) := rfl
  refine ⟨hreq, ?_, hresp, ?_, ?_⟩
  · rw [hreq, sentEvents_append]
    simp [sentEvents]
  · intro hz
    rw [hresp, handleContentUpdate_zoneContent, if_pos hz]
  · intro hz
    rw [hresp, handleContentUpdate_zoneContent, if_neg hz]

/-- C18, as the code has it, for the session of zone reception before its
socket has connected: the request for reception is a fetch of
`/api/schedule/reception`, and the answered list is playing afterwards. -/
theorem offline_request_uses_http_witness :
    fetchedUrls (ConnectionManager.requestContentForZone offlineClient "reception").effects =
        ["http://localhost:3000/api/schedule/reception"] ∧
      (ConnectionManager.fetchContentResponse isoDate offlineClient noon.now "reception"
        (.response true (some (.items [sampleItem "contentA" "reception" 1 30])))).display.currentContent =
        [sampleItem "contentA" "reception" 1 30] :=
  ⟨(congrArg fetchedUrls (offline_request_uses_http isoDate offlineClient offlineClient noon.now
      "reception" [] rfl).1).trans (by decide),
   (congrArg DisplayManager.currentContent
      ((offline_request_uses_http isoDate offlineClient offlineClient noon.now "reception"
        [sampleItem "contentA" "reception" 1 30] rfl).2.2.2.1 rfl)).trans (by decide)⟩

/-- C18 as stated fails: a session that is not connected pulls the list of
reception, is switched to zone shop before the answer arrives, and then drops
the answered list: the display has loaded nothing.  The same holds for a
request made for a zone other than the assigned one. -/
theorem offline_answer_for_other_zone_dropped :
    (Client.run isoDate noon.now offlineClient
        [.refresh, .changeZone "shop"]).conn.isConnected = false ∧
      fetchedUrls (Client.run isoDate noon.now offlineClient [.refresh]).effects =
        ["http://localhost:3000/api/schedule/reception"] ∧
      (Client.run isoDate noon.now offlineClient
        [.refresh, .changeZone "shop",
          .fetched "reception"
            (.response true (some (.items [sampleItem "contentA" "reception" 1 30])))]).display =
        { DisplayManager.new "reception" with zone := "shop" } ∧
      (ConnectionManager.fetchContentResponse isoDate
        (ConnectionManager.requestContentForZone offlineClient "shop") noon.now "shop"
        (.response true (some (.items [sampleItem "contentA" "shop" 1 30])))).display =
        DisplayManager.new "reception" := by
  decide

/-! ## Zone reassignment -/

/-- C19, as the code has it: for a connected session assigned to Z1 and a
zone Z2 different from Z1, `ConnectionManager.setZone(Z2)` emits
`leaveZone(Z1)`, sets the assigned zone to Z2, emits `joinZone(Z2)` and then
`requestContent` for Z2, in that order; when the zone of the display manager
is not yet Z2, `DisplayManager.setZone` then sets it and emits `requestContent`
for Z2 a second time.  With the zone already assigned, `setZone` emits nothing
and changes nothing. -/
theorem setZone_sequence (c : Client) (zone : String) (hconn : c.conn.isConnected = true)
    (hne : c.conn.zone ≠ zone) :
    (ConnectionManager.setZone c zone).effects =
        c.effects ++
          [.emit "leaveZone" (.str c.conn.zone), .emit "joinZone" (.str zone),
            .emit "requestContent" (.obj [("zone", .str zone)])] ++
          (if c.display.zone ≠ zone then [.emit "requestContent" (.obj [("zone", .str zone)])]
            else []) ∧
      (ConnectionManager.setZone c zone).conn = { c.conn with zone := zone } ∧
      (ConnectionManager.setZone c zone).display = { c.display with zone := zone } ∧
      ConnectionManager.setZone c c.conn.zone = c := by
  refine ⟨?_, ?_, ?_, ?_⟩
  · unfold ConnectionManager.setZone DisplayManager.setZone ConnectionManager.requestContentForZone
      ConnectionManager.joinZone ConnectionManager.leaveZone
    by_cases hd : c.display.zone = zone
    · simp [hne, hconn, hd, Client.push]
    · simp [hne, hconn, hd, Client.push]
  · unfold ConnectionManager.setZone
    simp only [hne, ne_eq, not_false_eq_true, if_true, displaySetZone_conn,
      requestContentForZone_conn, joinZone_conn, leaveZone_conn]
  · unfold ConnectionManager.setZone DisplayManager.setZone ConnectionManager.requestContentForZone
      ConnectionManager.joinZone ConnectionManager.leaveZone
    by_cases hd : c.display.zone = zone
    · simp [hne, hconn, hd, Client.push]
      rw [← hd]
    · simp [hne, hconn, hd, Client.push]
  · unfold ConnectionManager.setZone
    simp

/-- C19, as the code has it, for the connected session of zone reception
switched to shop: the events sent are `leaveZone` reception, `joinZone` shop
and `requestContent` twice. -/
theorem setZone_sequence_witness :
    (sentEvents (ConnectionManager.setZone connectedClient "shop").effects).map Prod.fst =
      ["joinZone", "requestContent", "leaveZone", "joinZone", "requestContent",
        "requestContent"] :=
  (congrArg (fun es => (sentEvents es).map Prod.fst)
    (setZone_sequence connectedClient "shop" rfl (by decide)).1).trans (by decide)

/-- C19 as stated fails: when the connected session of zone reception is
switched to shop, `requestContent` for shop is emitted twice, not once. -/
theorem setZone_requests_twice :
    connectedClient.conn.isConnected = true ∧ connectedClient.conn.zone = "reception" ∧
      (ConnectionManager.setZone connectedClient "shop").effects =
        connectedClient.effects ++
          [.emit "leaveZone" (.str "reception"), .emit "joinZone" (.str "shop"),
            .emit "requestContent" (.obj [("zone", .str "shop")]),
            .emit "requestContent" (.obj [("zone", .str "shop")])] :=
  ⟨rfl, rfl, rfl⟩

/-! ## Dwell timers across a zone switch -/

theorem requestContentForZone_display (c : Client) (zone : String) :
    (ConnectionManager.requestContentForZone c zone).display = c.display := by
  unfold ConnectionManager.requestContentForZone ConnectionManager.fetchContentViaHTTP
  split <;> rfl

theorem joinZone_display (c : Client) (zone : String) :
    (ConnectionManager.joinZone c zone).display = c.display := by
  unfold ConnectionManager.joinZone
  split <;> rfl

theorem leaveZone_display (c : Client) (zone : String) :
    (ConnectionManager.leaveZone c zone).display = c.display := by
  unfold ConnectionManager.leaveZone
  split <;> rfl

/-- The playback part of a display: everything but its zone label. -/
theorem displaySetZone_playback (c : Client) (zone : String) :
    (DisplayManager.setZone c zone).display = { c.display with zone := zone } := by
  unfold DisplayManager.setZone
  split
  · rw [requestContentForZone_display]
  · rename_i h
    have hz : c.display.zone = zone := by simpa using h
    rw [← hz]

theorem connectionSetZone_playback (c : Client) (zone : String) :
    (ConnectionManager.setZone c zone).display = c.display ∨
      (ConnectionManager.setZone c zone).display = { c.display with zone := zone } := by
  unfold ConnectionManager.setZone
  split
  · right
    rw [displaySetZone_playback, requestContentForZone_display, joinZone_display]
    simp only [leaveZone_display]
  · left; rfl

theorem stop_clears_pending (d : DisplayManager)
    (h : ∀ t ∈ d.pending, d.contentTimer = some t.id) : d.stop.pending = [] := by
  unfold DisplayManager.stop DisplayManager.clearTimer
  cases hct : d.contentTimer with
  | none =>
    cases hp : d.pending with
    | nil => simp [hp]
    | cons t ts =>
      have := h t (by rw [hp]; exact List.mem_cons_self _ _)
      rw [hct] at this
      cases this
  | some id =>
    simp only
    rw [List.filter_eq_nil_iff]
    intro t ht
    have := h t ht
    rw [hct] at this
    simp [Option.some.inj this]

theorem clearTimer_pending_nil (d : DisplayManager) (h : d.pending = []) :
    d.clearTimer.pending = [] ∧ d.clearTimer.nextTimerId = d.nextTimerId := by
  unfold DisplayManager.clearTimer
  cases d.contentTimer with
  | none => exact ⟨h, rfl⟩
  | some id => simp [h]

theorem scheduleNextContent_pending (d r : DisplayManager) (h : d.pending = [])
    (hr : d.scheduleNextContent = .ok r ∨ d.scheduleNextContent = .error r) :
    ∀ t ∈ r.pending, d.nextTimerId ≤ t.id := by
  unfold DisplayManager.scheduleNextContent at hr
  have hc := clearTimer_pending_nil d h
  split at hr
  · rcases hr with hr | hr
    · injection hr with hr; subst hr; intro t ht; rw [h] at ht; cases ht
    · cases hr
  · simp only at hr
    split at hr
    · rcases hr with hr | hr
      · cases hr
      · injection hr with hr; subst hr; intro t ht; rw [hc.1] at ht; cases ht
    · rcases hr with hr | hr
      · injection hr with hr
        subst hr
        intro t ht
        simp only [hc.1, List.nil_append, List.mem_singleton] at ht
        subst ht
        simp only [hc.2, le_refl]
      · cases hr

theorem startPlayback_pending (d r : DisplayManager) (h : d.pending = [])
    (hr : d.startPlayback = .ok r ∨ d.startPlayback = .error r) :
    ∀ t ∈ r.pending, d.nextTimerId ≤ t.id := by
  unfold DisplayManager.startPlayback at hr
  split at hr
  · rcases hr with hr | hr
    · injection hr with hr; subst hr; intro t ht
      simp only [DisplayManager.showPlaceholder, h] at ht; cases ht
    · cases hr
  · simp only at hr
    cases h0 : d.currentContent[0]? with
    | none =>
      simp only [h0, DisplayManager.showContentItem] at hr
      rcases hr with hr | hr
      · cases hr
      · injection hr with hr; subst hr; intro t ht
        simp only [h] at ht; cases ht
    | some i =>
      simp only [h0, DisplayManager.showContentItem] at hr
      have key := fun hp => scheduleNextContent_pending _ r hp hr
      exact key h

theorem loadContent_pending (parseDate : String → Option Int) (d : DisplayManager)
    (l : List DisplayItem) (h : d.pending = []) :
    ∀ t ∈ (DisplayManager.loadContent parseDate d l).pending, d.nextTimerId ≤ t.id := by
  unfold DisplayManager.loadContent
  simp only
  split
  · intro t ht
    simp only [DisplayManager.showPlaceholder, h] at ht; cases ht
  · split
    · rename_i d3 heq
      have key := fun hp => startPlayback_pending _ d3 hp (Or.inl heq)
      exact key h
    · rename_i d3 heq
      have key := fun hp => startPlayback_pending _ d3 hp (Or.inr heq)
      exact key h

theorem stop_nextTimerId (d : DisplayManager) : d.stop.nextTimerId = d.nextTimerId := by
  unfold DisplayManager.stop DisplayManager.clearTimer
  cases d.contentTimer <;> rfl

theorem changeZone_display (c : Client) (zone : String) :
    (SnowWorldClientApp.changeZone c zone).display = c.display ∨
      (SnowWorldClientApp.changeZone c zone).display = { c.display with zone := zone } := by
  unfold SnowWorldClientApp.changeZone
  split
  · right
    rw [displaySetZone_playback]
    rcases connectionSetZone_playback { c with appZone := zone } zone with h | h <;> rw [h]
  · left; rfl

/-- C20, as the code has it: a zone switch cancels no dwell timer.  Each of
`SnowWorldClientApp.changeZone`, `ConnectionManager.setZone` and
`DisplayManager.setZone` changes at most the zone label of the display: the
pending timers, the current set, the index and the playing flag stay as they
were.  The timer of the earlier set is cleared when the next content update is
handed to `DisplayManager.updateContent`: if every pending timer is the one
held in `contentTimer` and was set before, no timer that was pending before
the update is pending after it. -/
theorem zone_switch_keeps_timer (parseDate : String → Option Int) (c : Client) (zone : String)
    (l : List DisplayItem) :
    ((SnowWorldClientApp.changeZone c zone).display.pending = c.display.pending ∧
        (SnowWorldClientApp.changeZone c zone).display.currentContent =
          c.display.currentContent ∧
        (SnowWorldClientApp.changeZone c zone).display.currentIndex = c.display.currentIndex ∧
        (SnowWorldClientApp.changeZone c zone).display.isPlaying = c.display.isPlaying) ∧
      ((ConnectionManager.setZone c zone).display.pending = c.display.pending ∧
        (ConnectionManager.setZone c zone).display.currentContent = c.display.currentContent ∧
        (ConnectionManager.setZone c zone).display.currentIndex = c.display.currentIndex ∧
        (ConnectionManager.setZone c zone).display.isPlaying = c.display.isPlaying) ∧
      ((DisplayManager.setZone c zone).display.pending = c.display.pending ∧
        (DisplayManager.setZone c zone).display.currentContent = c.display.currentContent ∧
        (DisplayManager.setZone c zone).display.currentIndex = c.display.currentIndex ∧
        (DisplayManager.setZone c zone).display.isPlaying = c.display.isPlaying) ∧
      ((∀ t ∈ c.display.pending, c.display.contentTimer = some t.id) →
        (∀ t ∈ c.display.pending, t.id < c.display.nextTimerId) →
        ∀ t ∈ c.display.pending,
          ∀ t' ∈ (DisplayManager.updateContent parseDate c.display l).pending, t'.id ≠ t.id) := by
  refine ⟨?_, ?_, ?_, ?_⟩
  · rcases changeZone_display c zone with h | h <;> rw [h] <;> exact ⟨rfl, rfl, rfl, rfl⟩
  · rcases connectionSetZone_playback c zone with h | h <;> rw [h] <;> exact ⟨rfl, rfl, rfl, rfl⟩
  · rw [displaySetZone_playback]; exact ⟨rfl, rfl, rfl, rfl⟩
  · intro hheld hold t ht t' ht' heq
    unfold DisplayManager.updateContent at ht'
    have hnew := loadContent_pending parseDate c.display.stop l
      (stop_clears_pending c.display hheld) t' ht'
    rw [stop_nextTimerId] at hnew
    have := hold t ht
    omega

/-- C20, as the code has it, for the session that plays two items of
reception: after the switch to shop its timer is still pending, and the next
update for shop removes it. -/
theorem zone_switch_keeps_timer_witness :
    (SnowWorldClientApp.changeZone playingClient "shop").display.pending =
        [{ id := 1, delay := 10000 }] ∧
      ∀ t' ∈ (DisplayManager.updateContent isoDate playingClient.display
          [sampleItem "contentC" "shop" 1 20]).pending, t'.id ≠ 1 :=
  ⟨(zone_switch_keeps_timer isoDate playingClient "shop" []).1.1.trans (by decide),
   (zone_switch_keeps_timer isoDate playingClient "shop" [sampleItem "contentC" "shop" 1 20]).2.2.2
      (by decide) (by decide) { id := 1, delay := 10000 } (by decide)⟩

/-- C20 as stated fails: the session that plays the two items of zone
reception, with a dwell timer of 10 s pending for the first of them, is
switched to zone shop; the timer is still pending and the current set is still
the one of reception, and when the timer fires `nextContent` advances to the
second item of reception and arms the next timer for it. -/
theorem zone_switch_leaves_old_timer :
    playingClient.display.pending = [{ id := 1, delay := 10000 }] ∧
      (SnowWorldClientApp.changeZone playingClient "shop").display.zone = "shop" ∧
      (SnowWorldClientApp.changeZone playingClient "shop").display.pending =
        [{ id := 1, delay := 10000 }] ∧
      (SnowWorldClientApp.changeZone playingClient "shop").display.currentContent =
        [sampleItem "contentB" "reception" 5 10, sampleItem "contentA" "reception" 1 30] ∧
      DisplayManager.timerFires (SnowWorldClientApp.changeZone playingClient "shop").display 1 =
        .ok { currentContent :=
                [sampleItem "contentB" "reception" 5 10, sampleItem "contentA" "reception" 1 30],
              currentIndex := 1, contentTimer := some 2, isPlaying := true, zone := "shop",
              pending := [{ id := 2, delay := 30000 }], nextTimerId := 3,
              shown := .item (sampleItem "contentA" "reception" 1 30) } :=
  ⟨by decide, by decide, by decide, by decide, rfl⟩

/-! ## The playback loop -/

theorem clearTimer_frame (d : DisplayManager) :
    d.clearTimer.currentContent = d.currentContent ∧ d.clearTimer.currentIndex = d.currentIndex ∧
      d.clearTimer.contentTimer = d.contentTimer ∧ d.clearTimer.isPlaying = d.isPlaying ∧
      d.clearTimer.zone = d.zone ∧ d.clearTimer.nextTimerId = d.nextTimerId ∧
      d.clearTimer.shown = d.shown := by
  unfold DisplayManager.clearTimer
  cases hct : d.contentTimer <;> simp [hct]

theorem clearTimer_held (d : DisplayManager)
    (h : ∀ t ∈ d.pending, d.contentTimer = some t.id) : d.clearTimer.pending = [] := by
  unfold DisplayManager.clearTimer
  cases hct : d.contentTimer with
  | none =>
    cases hp : d.pending with
    | nil => rfl
    | cons t ts =>
      have := h t (by rw [hp]; exact List.mem_cons_self _ _)
      rw [hct] at this
      cases this
  | some id =>
    simp only
    rw [List.filter_eq_nil_iff]
    intro t ht
    have := h t ht
    rw [hct] at this
    simp [Option.some.inj this]

/-- The delay `scheduleNextContent` computes for an item. -/
theorem scheduleNextContent_playing (d : DisplayManager) (item : DisplayItem)
    (hplay : d.isPlaying = true) (hitem : d.currentContent[d.currentIndex]? = some item) :
    d.scheduleNextContent =
      .ok { d.clearTimer with
        contentTimer := some d.nextTimerId,
        pending := d.clearTimer.pending ++
          [{ id := d.nextTimerId,
             delay := (if item.duration = 0 then 10 else item.duration) * 1000 }],
        nextTimerId := d.nextTimerId + 1 } := by
  unfold DisplayManager.scheduleNextContent
  have hf := clearTimer_frame d
  simp only [hplay, Bool.not_true, Bool.false_eq_true, if_false, hf.1, hf.2.1, hitem, hf.2.2.2.2.2.1]

theorem nextContent_playing (d : DisplayManager) (hplay : d.isPlaying = true)
    (hne : 0 < d.currentContent.length) :
    ∃ d' item, d.nextContent = .ok d' ∧
      d.currentContent[(d.currentIndex + 1) % d.currentContent.length]? = some item ∧
      d'.currentIndex = (d.currentIndex + 1) % d.currentContent.length ∧
      d'.currentContent = d.currentContent ∧ d'.isPlaying = true ∧ d'.zone = d.zone ∧
      d'.shown = .item item ∧ d'.contentTimer = some d.nextTimerId ∧
      d'.nextTimerId = d.nextTimerId + 1 ∧
      d'.pending = d.clearTimer.pending ++
        [{ id := d.nextTimerId,
           delay := (if item.duration = 0 then 10 else item.duration) * 1000 }] := by
  have hlt : (d.currentIndex + 1) % d.currentContent.length < d.currentContent.length :=
    Nat.mod_lt _ hne
  obtain ⟨item, hitem⟩ : ∃ item,
      d.currentContent[(d.currentIndex + 1) % d.currentContent.length]? = some item :=
    ⟨_, List.getElem?_eq_getElem hlt⟩
  have hlen : ¬ d.currentContent.length = 0 := by omega
  have hstep : d.nextContent =
      DisplayManager.scheduleNextContent
        { d with currentIndex := (d.currentIndex + 1) % d.currentContent.length,
                 shown := .item item } := by
    unfold DisplayManager.nextContent
    simp only [hplay, Bool.not_true, hlen, decide_False, Bool.or_self, Bool.false_eq_true,
      if_false, hitem, DisplayManager.showContentItem]
  have hsched := scheduleNextContent_playing
    { d with currentIndex := (d.currentIndex + 1) % d.currentContent.length,
             shown := .item item } item hplay hitem
  have hf := clearTimer_frame
    { d with currentIndex := (d.currentIndex + 1) % d.currentContent.length,
             shown := .item item }
  refine ⟨_, item, hstep.trans hsched, hitem, hf.2.1, hf.1, hf.2.2.2.1.trans hplay,
    hf.2.2.2.2.1, hf.2.2.2.2.2.2, rfl, rfl, ?_⟩
  simp only [DisplayManager.clearTimer]
  cases d.contentTimer <;> rfl

/-! ## Well-formed playback states -/

theorem wellFormed_new (zone : String) : (DisplayManager.new zone).WellFormed := by
  refine ⟨Or.inl rfl, ?_, ?_, ?_⟩
  · intro t ht; cases ht
  · exact Nat.zero_le _
  · intro id h; cases h

theorem scheduleNextContent_armed (d : DisplayManager) (item : DisplayItem)
    (hplay : d.isPlaying = true) (hitem : d.currentContent[d.currentIndex]? = some item)
    (hheld : ∀ t ∈ d.pending, d.contentTimer = some t.id) :
    ∃ d', d.scheduleNextContent = .ok d' ∧ d'.currentContent = d.currentContent ∧
      d'.currentIndex = d.currentIndex ∧ d'.isPlaying = true ∧ d'.zone = d.zone ∧
      d'.shown = d.shown ∧ d'.contentTimer = some d.nextTimerId ∧
      d'.nextTimerId = d.nextTimerId + 1 ∧
      d'.pending = [{ id := d.nextTimerId,
                      delay := (if item.duration = 0 then 10 else item.duration) * 1000 }] := by
  have hf := clearTimer_frame d
  refine ⟨_, scheduleNextContent_playing d item hplay hitem, hf.1, hf.2.1,
    hf.2.2.2.1.trans hplay, hf.2.2.2.2.1, hf.2.2.2.2.2.2, rfl, rfl, ?_⟩
  simp only [clearTimer_held d hheld, List.nil_append]

theorem wellFormed_of_armed (d d' : DisplayManager) (t : Timer)
    (hcontent : d'.currentContent = d.currentContent) (hidx : d'.currentIndex < d.currentContent.length)
    (htimer : d'.contentTimer = some t.id) (hnext : t.id < d'.nextTimerId)
    (hpending : d'.pending = [t]) : d'.WellFormed := by
  refine ⟨Or.inr (by rw [hcontent]; exact hidx), ?_, ?_, ?_⟩
  · intro t' ht'
    rw [hpending, List.mem_singleton] at ht'
    rw [ht', htimer]
  · rw [hpending]; exact Nat.le_refl _
  · intro id hid
    rw [htimer] at hid
    rw [← Option.some.inj hid]; exact hnext

theorem startPlayback_wellFormed (d : DisplayManager)
    (hheld : ∀ t ∈ d.pending, d.contentTimer = some t.id) (hone : d.pending.length ≤ 1)
    (hnext : ∀ id, d.contentTimer = some id → id < d.nextTimerId) :
    ∃ d', d.startPlayback = .ok d' ∧ d'.WellFormed ∧ d'.currentContent = d.currentContent ∧
      d'.zone = d.zone ∧ d'.nextTimerId ≥ d.nextTimerId ∧
      (d.currentContent = [] → d'.shown = .placeholder ∧ d'.pending = d.pending) ∧
      (d.currentContent ≠ [] → d'.currentIndex = 0 ∧ d'.isPlaying = true ∧
        ∃ item, d.currentContent[0]? = some item ∧ d'.shown = .item item ∧
          d'.pending = [{ id := d.nextTimerId,
                          delay := (if item.duration = 0 then 10 else item.duration) * 1000 }]) := by
  unfold DisplayManager.startPlayback
  by_cases hlen : d.currentContent.length = 0
  · have hnil : d.currentContent = [] := List.length_eq_zero.mp hlen
    simp only [hlen, if_true]
    refine ⟨_, rfl, ⟨Or.inl hnil, hheld, hone, hnext⟩, rfl, rfl, Nat.le_refl _, ?_, ?_⟩
    · intro _; exact ⟨rfl, rfl⟩
    · intro h; exact absurd hnil h
  · have hpos : 0 < d.currentContent.length := Nat.pos_of_ne_zero hlen
    obtain ⟨item, hitem⟩ : ∃ item, d.currentContent[0]? = some item :=
      ⟨_, List.getElem?_eq_getElem hpos⟩
    simp only [hlen, if_false, hitem, DisplayManager.showContentItem]
    obtain ⟨d', hok, hcontent, hidx, hplay, hzone, hshown, htimer, hnid, hpend⟩ :=
      scheduleNextContent_armed
        { d with isPlaying := true, currentIndex := 0, shown := .item item } item rfl hitem hheld
    refine ⟨d', hok, ?_, hcontent, hzone, ?_, ?_, ?_⟩
    · exact wellFormed_of_armed d d' _ hcontent (by rw [hidx]; exact hpos) htimer
        (by rw [hnid]; exact Nat.lt_succ_self _) hpend
    · rw [hnid]; exact Nat.le_succ _
    · intro h; rw [h] at hpos; cases hpos
    · intro _; exact ⟨hidx, hplay, item, rfl, hshown, hpend⟩

theorem moveTo_wellFormed (d : DisplayManager) (j : Nat) (hplay : d.isPlaying = true)
    (hj : j < d.currentContent.length) (hheld : ∀ t ∈ d.pending, d.contentTimer = some t.id) :
    ∃ d', (match DisplayManager.showContentItem { d with currentIndex := j }
              d.currentContent[j]? with
            | .ok d2 => d2.scheduleNextContent
            | .error d2 => .error d2) = .ok d' ∧
      d'.WellFormed ∧ d'.timerHasContent ∧ d'.currentContent = d.currentContent ∧
      d'.currentIndex = j ∧ d'.isPlaying = true := by
  obtain ⟨item, hitem⟩ : ∃ item, d.currentContent[j]? = some item :=
    ⟨_, List.getElem?_eq_getElem hj⟩
  simp only [hitem, DisplayManager.showContentItem]
  obtain ⟨d', hok, hcontent, hidx, hplay', -, -, htimer, hnid, hpend⟩ :=
    scheduleNextContent_armed { d with currentIndex := j, shown := .item item } item hplay hitem
      hheld
  refine ⟨d', hok, ?_, ?_, hcontent, hidx, hplay'⟩
  · exact wellFormed_of_armed d d' _ hcontent (by rw [hidx]; exact hj) htimer
      (by rw [hnid]; exact Nat.lt_succ_self _) hpend
  · intro _ hnil
    rw [hcontent] at hnil
    rw [hnil] at hj
    cases hj

theorem nextContent_wellFormed (d : DisplayManager) (h : d.WellFormed) :
    ∃ d', d.nextContent = .ok d' ∧ d'.WellFormed ∧ (d.timerHasContent → d'.timerHasContent) := by
  unfold DisplayManager.nextContent
  by_cases hstay : (!d.isPlaying || decide (d.currentContent.length = 0)) = true
  · simp only [hstay, if_true]
    exact ⟨d, rfl, h, id⟩
  · simp only [hstay, Bool.false_eq_true, if_false]
    simp only [Bool.or_eq_true, Bool.not_eq_true', decide_eq_true_eq, not_or,
      Bool.not_eq_false] at hstay
    have hpos : 0 < d.currentContent.length := Nat.pos_of_ne_zero hstay.2
    obtain ⟨d', hok, hwf, hb, -⟩ := moveTo_wellFormed d
      ((d.currentIndex + 1) % d.currentContent.length) hstay.1 (Nat.mod_lt _ hpos) h.2.1
    exact ⟨d', hok, hwf, fun _ => hb⟩

theorem previousContent_wellFormed (d : DisplayManager) (h : d.WellFormed) :
    ∃ d', d.previousContent = .ok d' ∧ d'.WellFormed ∧
      (d.timerHasContent → d'.timerHasContent) := by
  unfold DisplayManager.previousContent
  by_cases hstay : (!d.isPlaying || decide (d.currentContent.length = 0)) = true
  · simp only [hstay, if_true]
    exact ⟨d, rfl, h, id⟩
  · simp only [hstay, Bool.false_eq_true, if_false]
    simp only [Bool.or_eq_true, Bool.not_eq_true', decide_eq_true_eq, not_or,
      Bool.not_eq_false] at hstay
    have hpos : 0 < d.currentContent.length := Nat.pos_of_ne_zero hstay.2
    obtain ⟨d', hok, hwf, hb, -⟩ := moveTo_wellFormed d
      ((d.currentIndex + d.currentContent.length - 1) % d.currentContent.length) hstay.1
      (Nat.mod_lt _ hpos) h.2.1
    exact ⟨d', hok, hwf, fun _ => hb⟩

theorem pause_wellFormed (d : DisplayManager) (h : d.WellFormed) :
    d.pause.WellFormed ∧ d.pause.pending = [] ∧ d.pause.currentContent = d.currentContent ∧
      d.pause.currentIndex = d.currentIndex ∧ d.pause.isPlaying = false := by
  have hf := clearTimer_frame { d with isPlaying := false }
  have hp : d.pause.pending = [] := clearTimer_held { d with isPlaying := false } h.2.1
  refine ⟨⟨?_, ?_, ?_, ?_⟩, hp, hf.1, hf.2.1, hf.2.2.2.1⟩
  · unfold DisplayManager.pause; rw [hf.1, hf.2.1]; exact h.1
  · intro t ht; rw [hp] at ht; cases ht
  · rw [hp]; exact Nat.zero_le _
  · unfold DisplayManager.pause; rw [hf.2.2.1, hf.2.2.2.2.2.1]; exact h.2.2.2

theorem stop_wellFormed (d : DisplayManager) (h : d.WellFormed) :
    d.stop.WellFormed ∧ d.stop.pending = [] ∧ d.stop.currentContent = d.currentContent ∧
      d.stop.currentIndex = d.currentIndex ∧ d.stop.zone = d.zone ∧
      d.stop.nextTimerId = d.nextTimerId := by
  have hf := clearTimer_frame { d with isPlaying := false }
  have hp : d.stop.pending = [] := clearTimer_held { d with isPlaying := false } h.2.1
  refine ⟨⟨?_, ?_, ?_, ?_⟩, hp, hf.1, hf.2.1, hf.2.2.2.2.1, hf.2.2.2.2.2.1⟩
  · show d.stop.currentContent = [] ∨ d.stop.currentIndex < d.stop.currentContent.length
    have h1 : d.stop.currentContent = d.currentContent := hf.1
    have h2 : d.stop.currentIndex = d.currentIndex := hf.2.1
    rw [h1, h2]; exact h.1
  · intro t ht; rw [hp] at ht; cases ht
  · rw [hp]; exact Nat.zero_le _
  · have h1 : d.stop.contentTimer = d.contentTimer := hf.2.2.1
    have h2 : d.stop.nextTimerId = d.nextTimerId := hf.2.2.2.2.2.1
    rw [h1, h2]; exact h.2.2.2

theorem resume_wellFormed (d : DisplayManager) (h : d.WellFormed) :
    ∃ d', d.resume = .ok d' ∧ d'.WellFormed ∧ (d.timerHasContent → d'.timerHasContent) := by
  unfold DisplayManager.resume
  by_cases hgo : (!d.isPlaying && decide (0 < d.currentContent.length)) = true
  · simp only [hgo, if_true]
    simp only [Bool.and_eq_true, Bool.not_eq_true', decide_eq_true_eq] at hgo
    have hidx : d.currentIndex < d.currentContent.length := by
      rcases h.1 with hnil | hlt
      · rw [hnil] at hgo; exact absurd hgo.2 (Nat.lt_irrefl _)
      · exact hlt
    obtain ⟨item, hitem⟩ : ∃ item, d.currentContent[d.currentIndex]? = some item :=
      ⟨_, List.getElem?_eq_getElem hidx⟩
    obtain ⟨d', hok, hcontent, hidx', -, -, -, htimer, hnid, hpend⟩ :=
      scheduleNextContent_armed { d with isPlaying := true } item rfl hitem h.2.1
    refine ⟨d', hok, ?_, ?_⟩
    · exact wellFormed_of_armed d d' _ hcontent (by rw [hidx']; exact hidx) htimer
        (by rw [hnid]; exact Nat.lt_succ_self _) hpend
    · intro _ _ hnil
      rw [hcontent] at hnil
      rw [hnil] at hgo
      exact absurd hgo.2 (Nat.lt_irrefl _)
  · simp only [hgo, Bool.false_eq_true, if_false]
    exact ⟨d, rfl, h, id⟩

theorem startPlayback_nonempty (d : DisplayManager) (hne : d.currentContent ≠ []) :
    ∃ d' item, d.startPlayback = .ok d' ∧ d.currentContent[0]? = some item ∧
      d'.currentContent = d.currentContent ∧ d'.currentIndex = 0 ∧ d'.isPlaying = true ∧
      d'.zone = d.zone ∧ d'.shown = .item item := by
  have hpos : 0 < d.currentContent.length := List.length_pos.mpr hne
  have hlen : ¬ d.currentContent.length = 0 := by omega
  obtain ⟨item, hitem⟩ : ∃ item, d.currentContent[0]? = some item :=
    ⟨_, List.getElem?_eq_getElem hpos⟩
  have hf := clearTimer_frame { d with isPlaying := true, currentIndex := 0, shown := .item item }
  have hstep : d.startPlayback = DisplayManager.scheduleNextContent
      { d with isPlaying := true, currentIndex := 0, shown := .item item } := by
    unfold DisplayManager.startPlayback
    simp only [hlen, if_false, hitem, DisplayManager.showContentItem]
  have hsched := scheduleNextContent_playing
    { d with isPlaying := true, currentIndex := 0, shown := .item item } item rfl hitem
  exact ⟨_, item, hstep.trans hsched, hitem, hf.1, hf.2.1, hf.2.2.2.1, hf.2.2.2.2.1,
    hf.2.2.2.2.2.2⟩

theorem loadContent_empty (parseDate : String → Option Int) (d : DisplayManager)
    (l : List DisplayItem)
    (hkept : (l.filter fun item => decide (item.zone = d.zone) || decide (item.zone = "all")) = []) :
    DisplayManager.loadContent parseDate d l =
      { d with currentContent := [], shown := .placeholder } := by
  unfold DisplayManager.loadContent
  simp only [hkept, List.length_nil, if_true, DisplayManager.showPlaceholder]

theorem loadContent_nonempty (parseDate : String → Option Int) (d : DisplayManager)
    (l : List DisplayItem)
    (hkept : (l.filter fun item => decide (item.zone = d.zone) || decide (item.zone = "all")) ≠ []) :
    DisplayManager.loadContent parseDate d l =
      outcome (DisplayManager.startPlayback { d with currentContent :=
        (List.insertionSort (sortsBefore parseDate)
          (l.filter fun item => decide (item.zone = d.zone) || decide (item.zone = "all"))) }) ∧
      ∃ d', DisplayManager.startPlayback { d with currentContent :=
        (List.insertionSort (sortsBefore parseDate)
          (l.filter fun item => decide (item.zone = d.zone) || decide (item.zone = "all"))) } =
        .ok d' := by
  have hsorted : List.insertionSort (sortsBefore parseDate)
      (l.filter fun item => decide (item.zone = d.zone) || decide (item.zone = "all")) ≠ [] := by
    intro h
    have := congrArg List.length h
    rw [List.length_insertionSort] at this
    exact hkept (List.length_eq_zero.mp this)
  obtain ⟨d', item, hok, -⟩ := startPlayback_nonempty
    { d with currentContent := (List.insertionSort (sortsBefore parseDate)
        (l.filter fun item => decide (item.zone = d.zone) || decide (item.zone = "all"))) } hsorted
  refine ⟨?_, d', hok⟩
  unfold DisplayManager.loadContent
  have hlen : ¬ (l.filter fun item =>
      decide (item.zone = d.zone) || decide (item.zone = "all")).length = 0 := by
    intro h; exact hkept (List.length_eq_zero.mp h)
  simp only [hlen, if_false, hok, outcome]

theorem loadContent_wellFormed (parseDate : String → Option Int) (d : DisplayManager)
    (l : List DisplayItem) (h : d.WellFormed) :
    (DisplayManager.loadContent parseDate d l).WellFormed ∧
      (d.pending = [] → (DisplayManager.loadContent parseDate d l).timerHasContent) := by
  by_cases hkept :
      (l.filter fun item => decide (item.zone = d.zone) || decide (item.zone = "all")) = []
  · rw [loadContent_empty parseDate d l hkept]
    refine ⟨⟨Or.inl rfl, h.2.1, h.2.2.1, h.2.2.2⟩, ?_⟩
    intro hp hne
    exact absurd hp hne
  · obtain ⟨hload, -⟩ := loadContent_nonempty parseDate d l hkept
    obtain ⟨d', hok, hwf, hcontent, -, -, -, hfull⟩ := startPlayback_wellFormed
      { d with currentContent := (List.insertionSort (sortsBefore parseDate)
          (l.filter fun item => decide (item.zone = d.zone) || decide (item.zone = "all"))) }
      h.2.1 h.2.2.1 h.2.2.2
    rw [hload, hok]
    refine ⟨hwf, ?_⟩
    intro _ _ hnil
    simp only [outcome] at hnil
    rw [hcontent] at hnil
    have := congrArg List.length hnil
    simp only [List.length_insertionSort, List.length_nil] at this
    exact hkept (List.length_eq_zero.mp this)

theorem updateContent_wellFormed (parseDate : String → Option Int) (d : DisplayManager)
    (l : List DisplayItem) (h : d.WellFormed) :
    (DisplayManager.updateContent parseDate d l).WellFormed ∧
      (DisplayManager.updateContent parseDate d l).timerHasContent := by
  unfold DisplayManager.updateContent
  have hs := stop_wellFormed d h
  exact ⟨(loadContent_wellFormed parseDate d.stop l hs.1).1,
    (loadContent_wellFormed parseDate d.stop l hs.1).2 hs.2.1⟩

theorem timerFires_wellFormed (d : DisplayManager) (id : Nat) (h : d.WellFormed) :
    ∃ d', d.timerFires id = .ok d' ∧ d'.WellFormed ∧
      (d.timerHasContent → d'.timerHasContent) := by
  unfold DisplayManager.timerFires
  by_cases hpend : (d.pending.any fun t => decide (t.id = id)) = true
  · simp only [hpend, if_true]
    have hwf : DisplayManager.WellFormed
        { d with pending := d.pending.filter fun t => !decide (t.id = id) } := by
      refine ⟨h.1, ?_, ?_, h.2.2.2⟩
      · intro t ht
        exact h.2.1 t (List.mem_of_mem_filter ht)
      · exact Nat.le_trans (List.length_filter_le _ _) h.2.2.1
    obtain ⟨d', hok, hwf', hb⟩ := nextContent_wellFormed _ hwf
    refine ⟨d', hok, hwf', ?_⟩
    intro hB
    apply hb
    intro hp
    apply hB
    intro hnil
    rw [hnil] at hp
    exact hp rfl
  · simp only [hpend, Bool.false_eq_true, if_false]
    exact ⟨d, rfl, h, fun hB => hB⟩

theorem apply_wellFormed (parseDate : String → Option Int) (d : DisplayManager) (op : DisplayOp)
    (h : d.WellFormed) :
    ∃ d', DisplayManager.apply parseDate d op = .ok d' ∧ d'.WellFormed ∧
      ((∀ l, op ≠ .loadContent l) → d.timerHasContent → d'.timerHasContent) := by
  cases op with
  | loadContent l =>
    exact ⟨_, rfl, (loadContent_wellFormed parseDate d l h).1, fun hno => absurd rfl (hno l)⟩
  | updateContent l =>
    exact ⟨_, rfl, (updateContent_wellFormed parseDate d l h).1,
      fun _ _ => (updateContent_wellFormed parseDate d l h).2⟩
  | startPlayback =>
    obtain ⟨d', hok, hwf, hcontent, -, -, hempty, -⟩ :=
      startPlayback_wellFormed d h.2.1 h.2.2.1 h.2.2.2
    refine ⟨d', hok, hwf, ?_⟩
    intro _ hB hp hnil
    rw [hcontent] at hnil
    rw [(hempty hnil).2] at hp
    exact hB hp hnil
  | nextContent =>
    obtain ⟨d', hok, hwf, hb⟩ := nextContent_wellFormed d h
    exact ⟨d', hok, hwf, fun _ => hb⟩
  | previousContent =>
    obtain ⟨d', hok, hwf, hb⟩ := previousContent_wellFormed d h
    exact ⟨d', hok, hwf, fun _ => hb⟩
  | pause =>
    refine ⟨_, rfl, (pause_wellFormed d h).1, ?_⟩
    intro _ _ hp
    exact absurd (pause_wellFormed d h).2.1 hp
  | resume =>
    obtain ⟨d', hok, hwf, hb⟩ := resume_wellFormed d h
    exact ⟨d', hok, hwf, fun _ => hb⟩
  | stop =>
    refine ⟨_, rfl, (stop_wellFormed d h).1, ?_⟩
    intro _ _ hp
    exact absurd (stop_wellFormed d h).2.1 hp
  | timerFires id =>
    obtain ⟨d', hok, hwf, hb⟩ := timerFires_wellFormed d id h
    exact ⟨d', hok, hwf, fun _ => hb⟩
  | setZone zone => exact ⟨_, rfl, h, fun _ hB => hB⟩
  | showPlaceholder => exact ⟨_, rfl, h, fun _ hB => hB⟩
  | showError => exact ⟨_, rfl, h, fun _ hB => hB⟩

theorem run_wellFormed (parseDate : String → Option Int) (ops : List DisplayOp) :
    ∀ d : DisplayManager, d.WellFormed →
      (DisplayManager.run parseDate d ops).WellFormed ∧
        (viaUpdateContent ops → d.timerHasContent →
          (DisplayManager.run parseDate d ops).timerHasContent) := by
  induction ops with
  | nil => intro d h; exact ⟨h, fun _ hB => hB⟩
  | cons op ops ih =>
    intro d h
    obtain ⟨d', hok, hwf, hb⟩ := apply_wellFormed parseDate d op h
    have hrun : DisplayManager.run parseDate d (op :: ops) = DisplayManager.run parseDate d' ops := by
      simp only [DisplayManager.run, hok, outcome]
    rw [hrun]
    refine ⟨(ih d' hwf).1, ?_⟩
    intro hvia hB
    have hop : ∀ l, op ≠ .loadContent l := by
      intro l hl
      have := hvia op (List.mem_cons_self _ _)
      rw [hl] at this
      cases this
    exact (ih d' hwf).2 (fun o ho => hvia o (List.mem_cons_of_mem _ ho)) (hb hop hB)

/-! ## Loading the empty set -/

/-- C21, as the code has it: in every playback state `updateContent([])`
yields the placeholder display and an empty current set, and in every state
reached from the initial display it leaves no dwell timer pending;
`loadContent([])` called directly also yields the placeholder display and an
empty current set, never the error display, but it cancels no timer: the
timers pending before it are pending after it. -/
theorem load_empty_set (parseDate : String → Option Int) (d : DisplayManager) (zone : String)
    (ops : List DisplayOp) :
    ((DisplayManager.updateContent parseDate d []).shown = .placeholder ∧
        (DisplayManager.updateContent parseDate d []).currentContent = [] ∧
        (d.WellFormed → (DisplayManager.updateContent parseDate d []).pending = [])) ∧
      (DisplayManager.updateContent parseDate
        (DisplayManager.run parseDate (DisplayManager.new zone) ops) []).pending = [] ∧
      ((DisplayManager.loadContent parseDate d []).shown = .placeholder ∧
        (DisplayManager.loadContent parseDate d []).currentContent = [] ∧
        (DisplayManager.loadContent parseDate d []).pending = d.pending) := by
  have hload : ∀ e : DisplayManager, DisplayManager.loadContent parseDate e [] =
      { e with currentContent := [], shown := .placeholder } :=
    fun e => loadContent_empty parseDate e [] rfl
  have hupd : ∀ e : DisplayManager, e.WellFormed →
      (DisplayManager.updateContent parseDate e []).pending = [] := by
    intro e he
    unfold DisplayManager.updateContent
    rw [hload]
    exact (stop_wellFormed e he).2.1
  refine ⟨⟨?_, ?_, hupd d⟩, ?_, ?_⟩
  · unfold DisplayManager.updateContent; rw [hload]
  · unfold DisplayManager.updateContent; rw [hload]
  · exact hupd _ (run_wellFormed parseDate ops _ (wellFormed_new zone)).1
  · rw [hload]; exact ⟨rfl, rfl, rfl⟩

/-- C21, as the code has it, for the display that plays two items: after
`updateContent([])` it shows the placeholder with no timer pending. -/
theorem load_empty_set_witness :
    (DisplayManager.updateContent isoDate playingClient.display []).shown = .placeholder ∧
      (DisplayManager.updateContent isoDate
        (DisplayManager.run isoDate (DisplayManager.new "reception")
          [.loadContent [sampleItem "contentB" "reception" 5 10]]) []).pending = [] :=
  ⟨(load_empty_set isoDate playingClient.display "reception" []).1.1,
   (load_empty_set isoDate playingClient.display "reception"
      [.loadContent [sampleItem "contentB" "reception" 5 10]]).2.1⟩

/-- C21 as stated fails: the display that plays two items has a dwell timer
of 10 s pending; after `loadContent([])` the placeholder is shown over an empty
set while that timer is still pending. -/
theorem loadContent_empty_keeps_timer :
    playingClient.display =
        DisplayManager.run isoDate (DisplayManager.new "reception")
          [.loadContent [sampleItem "contentB" "reception" 5 10,
            sampleItem "contentA" "reception" 1 30]] ∧
      (DisplayManager.loadContent isoDate playingClient.display []).shown = .placeholder ∧
      (DisplayManager.loadContent isoDate playingClient.display []).currentContent = [] ∧
      (DisplayManager.loadContent isoDate playingClient.display []).pending =
        [{ id := 1, delay := 10000 }] := by
  decide

/-! ## Pause and resume -/

/-- C24: in every state reached from the initial display, `pause` leaves the
current set and the index unchanged and leaves no dwell timer pending; and
when such a state is paused with a non-empty current set, `resume` returns,
leaves the index and the set unchanged and arms exactly one dwell timer, for
`duration * 1000` ms of the current item (10 000 ms when its duration is
missing or zero). -/
theorem pause_and_resume (parseDate : String → Option Int) (zone : String)
    (ops : List DisplayOp) (d : DisplayManager)
    (hd : d = DisplayManager.run parseDate (DisplayManager.new zone) ops) :
    (d.pause.currentContent = d.currentContent ∧ d.pause.currentIndex = d.currentIndex ∧
        d.pause.pending = []) ∧
      (d.isPlaying = false → d.currentContent ≠ [] →
        ∃ d' item, d.resume = .ok d' ∧ d.currentContent[d.currentIndex]? = some item ∧
          d'.currentIndex = d.currentIndex ∧ d'.currentContent = d.currentContent ∧
          d'.isPlaying = true ∧
          d'.pending = [{ id := d.nextTimerId,
                          delay := (if item.duration = 0 then 10 else item.duration) * 1000 }]) := by
  have hwf : d.WellFormed := by
    rw [hd]; exact (run_wellFormed parseDate ops _ (wellFormed_new zone)).1
  refine ⟨⟨(pause_wellFormed d hwf).2.2.1, (pause_wellFormed d hwf).2.2.2.1,
    (pause_wellFormed d hwf).2.1⟩, ?_⟩
  intro hpaused hne
  have hidx : d.currentIndex < d.currentContent.length := by
    rcases hwf.1 with hnil | hlt
    · exact absurd hnil hne
    · exact hlt
  obtain ⟨item, hitem⟩ : ∃ item, d.currentContent[d.currentIndex]? = some item :=
    ⟨_, List.getElem?_eq_getElem hidx⟩
  obtain ⟨d', hok, hcontent, hidx', hplay, -, -, -, -, hpend⟩ :=
    scheduleNextContent_armed { d with isPlaying := true } item rfl hitem hwf.2.1
  refine ⟨d', item, ?_, hitem, hidx', hcontent, hplay, hpend⟩
  unfold DisplayManager.resume
  have hpos : 0 < d.currentContent.length := List.length_pos.mpr hne
  simp only [hpaused, Bool.not_false, hpos, decide_True, Bool.and_self, if_true]
  exact hok

/-- C24, for the display that plays two items and is paused after its first
timer has fired: the pause leaves index 1 and no timer, and the resume arms
one timer of 30 000 ms for the second item. -/
theorem pause_and_resume_witness :
    (DisplayManager.run isoDate (DisplayManager.new "reception")
        [.loadContent [sampleItem "contentB" "reception" 5 10,
          sampleItem "contentA" "reception" 1 30], .timerFires 1, .pause]).pending = [] ∧
      (DisplayManager.run isoDate (DisplayManager.new "reception")
        [.loadContent [sampleItem "contentB" "reception" 5 10,
          sampleItem "contentA" "reception" 1 30], .timerFires 1, .pause, .resume]).pending =
        [{ id := 3, delay := 30000 }] ∧
      (DisplayManager.run isoDate (DisplayManager.new "reception")
        [.loadContent [sampleItem "contentB" "reception" 5 10,
          sampleItem "contentA" "reception" 1 30], .timerFires 1]).pause.currentIndex = 1 :=
  ⟨by decide, by decide,
    ((pause_and_resume isoDate "reception"
      [.loadContent [sampleItem "contentB" "reception" 5 10,
        sampleItem "contentA" "reception" 1 30], .timerFires 1] _ rfl).1.2.1).trans
      (by decide)⟩

theorem run_nextContent (parseDate : String → Option Int) (k : Nat) :
    ∀ d : DisplayManager, d.isPlaying = true → 0 < d.currentContent.length →
      d.currentIndex < d.currentContent.length →
      (DisplayManager.run parseDate d (List.replicate k .nextContent)).currentIndex =
          (d.currentIndex + k) % d.currentContent.length ∧
        (DisplayManager.run parseDate d (List.replicate k .nextContent)).currentContent =
          d.currentContent ∧
        (DisplayManager.run parseDate d (List.replicate k .nextContent)).isPlaying = true := by
  induction k with
  | zero =>
    intro d hplay _ hlt
    exact ⟨(Nat.mod_eq_of_lt hlt).symm, rfl, hplay⟩
  | succ k ih =>
    intro d hplay hne hlt
    obtain ⟨d', item, hok, -, hidx, hcontent, hplay', -⟩ := nextContent_playing d hplay hne
    have hrun : DisplayManager.run parseDate d (List.replicate (k + 1) .nextContent) =
        DisplayManager.run parseDate d' (List.replicate k .nextContent) := by
      simp only [List.replicate_succ, DisplayManager.run, DisplayManager.apply, hok, outcome]
    have hlt' : d'.currentIndex < d'.currentContent.length := by
      rw [hidx, hcontent]; exact Nat.mod_lt _ hne
    obtain ⟨h1, h2, h3⟩ := ih d' hplay' (by rw [hcontent]; exact hne) hlt'
    rw [hrun, h1, h2, hidx, hcontent]
    refine ⟨?_, rfl, h3⟩
    rw [Nat.mod_add_mod, Nat.add_assoc, Nat.add_comm 1 k]

/-- C23: in every playing state with a non-empty current set of length n
and index i, `nextContent` returns, sets the index to `(i + 1) mod n`, shows
the item at that index and leaves the current set unchanged; so from an index
in range, k calls lead to index `(i + k) mod n`: from index 0 it is `k mod n`
after k calls and 0 again after n calls. -/
theorem nextContent_cycles (parseDate : String → Option Int) (d : DisplayManager) (k : Nat)
    (hplay : d.isPlaying = true) (hne : 0 < d.currentContent.length) :
    (∃ d' item, d.nextContent = .ok d' ∧
        d'.currentIndex = (d.currentIndex + 1) % d.currentContent.length ∧
        d'.currentContent = d.currentContent ∧
        d.currentContent[(d.currentIndex + 1) % d.currentContent.length]? = some item ∧
        d'.shown = .item item) ∧
      (d.currentIndex < d.currentContent.length →
        (DisplayManager.run parseDate d (List.replicate k .nextContent)).currentIndex =
            (d.currentIndex + k) % d.currentContent.length ∧
          (DisplayManager.run parseDate d (List.replicate k .nextContent)).currentContent =
            d.currentContent) ∧
      (d.currentIndex = 0 →
        (DisplayManager.run parseDate d (List.replicate k .nextContent)).currentIndex =
            k % d.currentContent.length ∧
          (DisplayManager.run parseDate d
            (List.replicate d.currentContent.length .nextContent)).currentIndex = 0) := by
  refine ⟨?_, ?_, ?_⟩
  · obtain ⟨d', item, hok, hitem, hidx, hcontent, -, -, hshown, -⟩ :=
      nextContent_playing d hplay hne
    exact ⟨d', item, hok, hidx, hcontent, hitem, hshown⟩
  · intro hlt
    exact ⟨(run_nextContent parseDate k d hplay hne hlt).1,
      (run_nextContent parseDate k d hplay hne hlt).2.1⟩
  · intro h0
    have hlt : d.currentIndex < d.currentContent.length := by omega
    refine ⟨?_, ?_⟩
    · rw [(run_nextContent parseDate k d hplay hne hlt).1, h0, Nat.zero_add]
    · rw [(run_nextContent parseDate _ d hplay hne hlt).1, h0, Nat.zero_add, Nat.mod_self]

/-- C23, after loading the two items B and A: the first timer fire shows A
at index 1, the second shows B at index 0 again. -/
theorem nextContent_cycles_witness :
    (DisplayManager.run isoDate playingClient.display [.nextContent]).currentIndex = 1 ∧
      (DisplayManager.run isoDate playingClient.display [.nextContent, .nextContent]).currentIndex
        = 0 ∧
      (DisplayManager.run isoDate playingClient.display [.timerFires 1]).shown =
        .item (sampleItem "contentA" "reception" 1 30) ∧
      (DisplayManager.run isoDate playingClient.display [.timerFires 1, .timerFires 2]).shown =
        .item (sampleItem "contentB" "reception" 5 10) :=
  ⟨((nextContent_cycles isoDate playingClient.display 1 (by decide) (by decide)).2.2
      (by decide)).1,
   ((nextContent_cycles isoDate playingClient.display 2 (by decide) (by decide)).2.2
      (by decide)).2,
   by decide, by decide⟩

/-! ## The index stays within the current set -/

/-- C29, as the code has it: in every state reached from the initial display
by `loadContent`, `updateContent`, `startPlayback`, `nextContent`,
`previousContent`, `pause`, `resume`, `stop` (and timer fires), the current
set is empty or the index is within it, and every one of these operations
returns: `scheduleNextContent` never reads the duration of an undefined item.
When the set is only replaced through `updateContent`, a pending dwell timer
implies a non-empty current set with the index within it. -/
theorem index_within_set (parseDate : String → Option Int) (zone : String)
    (ops : List DisplayOp) (op : DisplayOp) :
    ((DisplayManager.run parseDate (DisplayManager.new zone) ops).currentContent = [] ∨
        (DisplayManager.run parseDate (DisplayManager.new zone) ops).currentIndex <
          (DisplayManager.run parseDate (DisplayManager.new zone) ops).currentContent.length) ∧
      (∃ d', DisplayManager.apply parseDate
        (DisplayManager.run parseDate (DisplayManager.new zone) ops) op = .ok d') ∧
      (viaUpdateContent ops →
        (DisplayManager.run parseDate (DisplayManager.new zone) ops).pending ≠ [] →
        (DisplayManager.run parseDate (DisplayManager.new zone) ops).currentContent ≠ [] ∧
          (DisplayManager.run parseDate (DisplayManager.new zone) ops).currentIndex <
            (DisplayManager.run parseDate (DisplayManager.new zone) ops).currentContent.length) := by
  have hrun := run_wellFormed parseDate ops _ (wellFormed_new zone)
  refine ⟨hrun.1.1, ?_, ?_⟩
  · obtain ⟨d', hok, -⟩ := apply_wellFormed parseDate _ op hrun.1
    exact ⟨d', hok⟩
  · intro hvia hpend
    have hne := hrun.2 hvia (fun h => absurd rfl h) hpend
    refine ⟨hne, ?_⟩
    rcases hrun.1.1 with hnil | hlt
    · exact absurd hnil hne
    · exact hlt

/-- C29, as the code has it, after two items are loaded through
`updateContent` and the first timer fires: the timer then pending stands over
a set of two items at index 1. -/
theorem index_within_set_witness :
    (DisplayManager.run isoDate (DisplayManager.new "reception")
        [.updateContent [sampleItem "contentB" "reception" 5 10,
          sampleItem "contentA" "reception" 1 30], .timerFires 1]).currentIndex <
      (DisplayManager.run isoDate (DisplayManager.new "reception")
        [.updateContent [sampleItem "contentB" "reception" 5 10,
          sampleItem "contentA" "reception" 1 30], .timerFires 1]).currentContent.length :=
  ((index_within_set isoDate "reception"
    [.updateContent [sampleItem "contentB" "reception" 5 10,
      sampleItem "contentA" "reception" 1 30], .timerFires 1] .pause).2.2
    (by unfold viaUpdateContent; decide) (by decide)).2

/-- C29 as stated fails: after `loadContent` of two items and then
`loadContent([])`, the dwell timer armed for the first item is still pending
while the current set is empty. -/
theorem timer_pending_over_empty_set :
    (DisplayManager.run isoDate (DisplayManager.new "reception")
        [.loadContent [sampleItem "contentB" "reception" 5 10,
          sampleItem "contentA" "reception" 1 30], .loadContent []]).pending =
        [{ id := 1, delay := 10000 }] ∧
      (DisplayManager.run isoDate (DisplayManager.new "reception")
        [.loadContent [sampleItem "contentB" "reception" 5 10,
          sampleItem "contentA" "reception" 1 30], .loadContent []]).currentContent = [] := by
  decide

/-! ## A failed content pull -/

/-- C26, as the code has it: after every failure of the content pull (a
rejected fetch, a response with an error status, or a body that is not JSON)
the display shows the error display, not the placeholder, and the error
overlay is activated with `Kan geen content laden. Controleer de verbinding.`;
the current set, the index, the pending timer and the playing flag are left as
they were, and the connection state is unchanged. -/
theorem pull_failure_shows_error (parseDate : String → Option Int) (c : Client)
    (now zone : String) (r : FetchResult)
    (hfail : r = .failed ∨ (∃ json, r = .response false json) ∨ r = .response true none) :
    (ConnectionManager.fetchContentResponse parseDate c now zone r).display.shown = .error ∧
      (ConnectionManager.fetchContentResponse parseDate c now zone r).display =
        { c.display with shown := .error } ∧
      (ConnectionManager.fetchContentResponse parseDate c now zone r).effects =
        c.effects ++ [.showErrorOverlay "Kan geen content laden. Controleer de verbinding."] ∧
      (ConnectionManager.fetchContentResponse parseDate c now zone r).conn = c.conn := by
  have key : ConnectionManager.fetchContentResponse parseDate c now zone r =
      ConnectionManager.handleContentError c := by
    rcases hfail with h | ⟨json, h⟩ | h <;> subst h
    · rfl
    · cases json <;> rfl
    · rfl
  rw [key]
  exact ⟨rfl, rfl, rfl, rfl⟩

/-- C26, as the code has it, for the playing session whose pull is answered
with status 500: the error display is shown and the timer of the current item
is still pending. -/
theorem pull_failure_shows_error_witness :
    (ConnectionManager.fetchContentResponse isoDate playingClient noon.now "reception"
        (.response false none)).display.shown = .error ∧
      (ConnectionManager.fetchContentResponse isoDate playingClient noon.now "reception"
        (.response false none)).display.pending = [{ id := 1, delay := 10000 }] :=
  ⟨(pull_failure_shows_error isoDate playingClient noon.now "reception" (.response false none)
      (Or.inr (Or.inl ⟨none, rfl⟩))).1,
   (congrArg DisplayManager.pending
      (pull_failure_shows_error isoDate playingClient noon.now "reception"
        (.response false none) (Or.inr (Or.inl ⟨none, rfl⟩))).2.1).trans (by decide)⟩

/-- C26 as stated fails: a session that is not connected pulls the list of
its zone; when the fetch is rejected, and when it is answered with an error
status, the display shows the error display and not the placeholder. -/
theorem pull_failure_not_placeholder :
    (ConnectionManager.fetchContentResponse isoDate
        (ConnectionManager.requestContentForZone offlineClient "reception") noon.now
        "reception" .failed).display.shown = .error ∧
      (ConnectionManager.fetchContentResponse isoDate
        (ConnectionManager.requestContentForZone offlineClient "reception") noon.now
        "reception" (.response false none)).display.shown = .error ∧
      Shown.error ≠ Shown.placeholder := by
  decide

/-! ## The resolver has no effect on the tables -/

/-- C27: the result of `DatabaseManager.getActiveSchedule` is determined by
the content table, the schedule table, the zone and the instant; a second call
of `ScheduleManager.getActiveSchedule` for the same zone at the same instant
returns the list the first call returned; and neither call changes the
database. -/
theorem resolver_is_pure (st st' : Store) (m : ManagerState) (clk : Clock) (now zone : String) :
    (st.content = st'.content → st.schedule = st'.schedule →
        DatabaseManager.getActiveSchedule st now zone =
          DatabaseManager.getActiveSchedule st' now zone) ∧
      (ScheduleManager.getActiveSchedule (ScheduleManager.getActiveSchedule m clk zone).2 clk
          zone).1 = (ScheduleManager.getActiveSchedule m clk zone).1 ∧
      (ScheduleManager.getActiveSchedule m clk zone).2.db = m.db ∧
      (ScheduleManager.getActiveSchedule (ScheduleManager.getActiveSchedule m clk zone).2 clk
          zone).2.db = m.db := by
  refine ⟨?_, ?_, (getActiveSchedule_db m clk zone).1, ?_⟩
  · intro hc hs
    unfold DatabaseManager.getActiveSchedule joinScheduleContent
    rw [hc, hs]
  · by_cases hmiss : ∀ e, cacheGet m.activeSchedules zone = some e →
        textLt clk.now e.timestamp = false
    · rw [getActiveSchedule_miss m clk zone hmiss]
      simp only
      by_cases hfresh : textLt clk.now clk.nowPlusMinute = true
      · rw [getActiveSchedule_hit _ clk zone _ (cacheGet_cacheSet _ _ _) hfresh]
      · rw [getActiveSchedule_miss _ clk zone]
        intro e he
        rw [cacheGet_cacheSet] at he
        cases he
        simpa using hfresh
    · push_neg at hmiss
      obtain ⟨e, hget, hfresh⟩ := hmiss
      have hfresh' : textLt clk.now e.timestamp = true := by simpa using hfresh
      rw [getActiveSchedule_hit m clk zone e hget hfresh']
      simp only
      rw [getActiveSchedule_hit m clk zone e hget hfresh']
  · rw [(getActiveSchedule_db _ clk zone).1, (getActiveSchedule_db m clk zone).1]

/-! ## A start time in the past -/

/-- C28: when the content exists and both times parse with start before
end, a start earlier than the instant of the call makes `addSchedule` fail
with `Start time cannot be in the past` and leaves the state, hence the
schedule table, unchanged; so whenever `addSchedule` returns an entry whose
start time parses, that start is not before the instant of the call. -/
theorem addSchedule_rejects_past_start (parseDate : String → Option Int) (st : ManagerState)
    (clk : Clock) (sd : ScheduleData) (c : ContentRow) (hc : c ∈ st.db.content)
    (hid : c.id = sd.contentId) (a b : Int) (ha : parseDate sd.startTime = some a)
    (hb : parseDate sd.endTime = some b) (hab : a < b) (hpast : a < clk.ms) :
    (ScheduleManager.addSchedule parseDate st clk sd).1 =
        .error "Start time cannot be in the past" ∧
      (ScheduleManager.addSchedule parseDate st clk sd).2.db.schedule = st.db.schedule ∧
      (ScheduleManager.addSchedule parseDate st clk sd).2 = st ∧
      (∀ (sd' : ScheduleData) (x : Int) (r : ScheduleData),
        parseDate sd'.startTime = some x →
        (ScheduleManager.addSchedule parseDate st clk sd').1 = .ok r → clk.ms ≤ x) := by
  obtain ⟨c0, hget⟩ := getContentById_some st.db sd.contentId c hc hid
  have hge : dateGe (some a) (some b) = false := decide_eq_false (by omega)
  have hlt : dateLt (some a) (some clk.ms) = true := decide_eq_true hpast
  refine ⟨?_, ?_, ?_, ?_⟩
  · unfold ScheduleManager.addSchedule
    simp only [hget, ha, hb, hge, hlt, Bool.false_eq_true, if_false, if_true]
  · unfold ScheduleManager.addSchedule
    simp only [hget, ha, hb, hge, hlt, Bool.false_eq_true, if_false, if_true]
  · unfold ScheduleManager.addSchedule
    simp only [hget, ha, hb, hge, hlt, Bool.false_eq_true, if_false, if_true]
  · intro sd' x r hx hok
    by_contra hnot
    have hlt' : dateLt (some x) (some clk.ms) = true := decide_eq_true (by omega)
    unfold ScheduleManager.addSchedule at hok
    cases hget' : DatabaseManager.getContentById st.db sd'.contentId with
    | none => simp only [hget'] at hok; cases hok
    | some c1 =>
      simp only [hget', hx, hlt', if_true] at hok
      split at hok <;> cases hok

/-- C28, at the reception store at noon: a request that starts at 11:00 of
the same day is refused, and the schedule table keeps its two rows. -/
theorem addSchedule_rejects_past_start_witness :
    (ScheduleManager.addSchedule isoDate (freshManager receptionStore) noon
        (sampleRequest "entryC" "contentA" "reception" "2030-01-01T11:00:00.000Z"
          "2030-01-01T13:00:00.000Z")).1 = .error "Start time cannot be in the past" ∧
      (ScheduleManager.addSchedule isoDate (freshManager receptionStore) noon
        (sampleRequest "entryC" "contentA" "reception" "2030-01-01T11:00:00.000Z"
          "2030-01-01T13:00:00.000Z")).2.db.schedule = [entryA, entryB] :=
  ⟨(addSchedule_rejects_past_start isoDate (freshManager receptionStore) noon
      (sampleRequest "entryC" "contentA" "reception" "2030-01-01T11:00:00.000Z"
        "2030-01-01T13:00:00.000Z") (sampleContent "contentA" 1) (by decide) (by decide)
      1893495600000 1893502800000 (by decide) (by decide) (by decide) (by decide)).1,
   (addSchedule_rejects_past_start isoDate (freshManager receptionStore) noon
      (sampleRequest "entryC" "contentA" "reception" "2030-01-01T11:00:00.000Z"
        "2030-01-01T13:00:00.000Z") (sampleContent "contentA" 1) (by decide) (by decide)
      1893495600000 1893502800000 (by decide) (by decide) (by decide) (by decide)).2.1⟩

/-! ## Updates for another zone -/

/-- C30: a `zone_content` update whose zone is not the zone assigned to the
session leaves the session exactly as it was: the display is not updated,
`lastContentUpdate` is not changed, and nothing is sent or fetched. -/
theorem other_zone_update_ignored (parseDate : String → Option Int) (c : Client) (now : String)
    (data : JsVal) (htype : (data.get "type").isStr "zone_content" = true)
    (hzone : (data.get "zone").isStr c.conn.zone = false) :
    ConnectionManager.handleContentUpdate parseDate c now data = c ∧
      (ConnectionManager.handleContentUpdate parseDate c now data).display = c.display ∧
      (ConnectionManager.handleContentUpdate parseDate c now data).conn.lastContentUpdate =
        c.conn.lastContentUpdate ∧
      (ConnectionManager.handleContentUpdate parseDate c now data).effects = c.effects := by
  have hadded : (data.get "type").isStr "content_added" = false := by
    unfold JsVal.isStr at htype ⊢
    cases hv : data.get "type" <;> simp only [hv] at htype ⊢
    have : ‹String› = "zone_content" := by simpa using htype
    subst this
    decide
  have hdeleted : (data.get "type").isStr "content_deleted" = false := by
    unfold JsVal.isStr at htype ⊢
    cases hv : data.get "type" <;> simp only [hv] at htype ⊢
    have : ‹String› = "zone_content" := by simpa using htype
    subst this
    decide
  have key : ConnectionManager.handleContentUpdate parseDate c now data = c := by
    unfold ConnectionManager.handleContentUpdate
    simp only [htype, hzone, hadded, hdeleted, Bool.and_false, Bool.or_self, Bool.false_eq_true,
      if_false]
  rw [key]
  exact ⟨rfl, rfl, rfl, rfl⟩

/-- C30, for a session switched from reception to shop before the answer
to its pull for reception arrives: the late answer changes nothing. -/
theorem other_zone_update_ignored_witness :
    (ConnectionManager.handleContentUpdate isoDate
        (SnowWorldClientApp.changeZone playingClient "shop") noon.now
        (.obj [("type", .str "zone_content"), ("zone", .str "reception"),
          ("content", .items [sampleItem "contentA" "reception" 1 30])])).display =
      (SnowWorldClientApp.changeZone playingClient "shop").display :=
  (other_zone_update_ignored isoDate (SnowWorldClientApp.changeZone playingClient "shop")
    noon.now
    (.obj [("type", .str "zone_content"), ("zone", .str "reception"),
      ("content", .items [sampleItem "contentA" "reception" 1 30])]) rfl rfl).2.1

/-! ## The order in which a display plays a list -/

/-- The display order in terms of the fields: `a` may stand before `b` when
its priority is higher, or equal with a creation time not before the one of
`b`. -/
theorem sortsBefore_iff (parseDate : String → Option Int) (a b : DisplayItem) (x y : Int)
    (ha : parseDate a.createdAt = some x) (hb : parseDate b.createdAt = some y) :
    sortsBefore parseDate a b ↔
      b.priority < a.priority ∨ (a.priority = b.priority ∧ y ≤ x) := by
  have hor : ∀ p : Int, (if p = 0 then 0 else p) = p := by
    intro p
    by_cases h : p = 0
    · rw [if_pos h, h]
    · rw [if_neg h]
  unfold sortsBefore compareItems
  simp only [hor]
  by_cases hp : a.priority = b.priority
  · simp only [hp, ne_eq, not_true_eq_false, if_false, ha, hb]
    constructor
    · intro h; right; exact ⟨trivial, by omega⟩
    · rintro (h | ⟨-, h⟩) <;> omega
  · simp only [ne_eq, hp, not_false_eq_true, if_true]
    constructor
    · intro h; left; omega
    · rintro (h | ⟨h, -⟩)
      · omega
      · exact h.elim

theorem orderedInsert_congr {α : Type} (r s : α → α → Prop) [DecidableRel r] [DecidableRel s]
    (a : α) : ∀ l : List α, (∀ b ∈ l, r a b ↔ s a b) →
      List.orderedInsert r a l = List.orderedInsert s a l
  | [], _ => rfl
  | b :: l, h => by
    have hb := h b (List.mem_cons_self _ _)
    have ih := orderedInsert_congr r s a l (fun c hc => h c (List.mem_cons_of_mem _ hc))
    by_cases hr : r a b
    · simp only [List.orderedInsert, hr, hb.mp hr, if_true]
    · have hs : ¬ s a b := fun h' => hr (hb.mpr h')
      simp only [List.orderedInsert, hr, hs, if_false, ih]

theorem insertionSort_congr {α : Type} (r s : α → α → Prop) [DecidableRel r] [DecidableRel s] :
    ∀ l : List α, (∀ a ∈ l, ∀ b ∈ l, r a b ↔ s a b) →
      List.insertionSort r l = List.insertionSort s l
  | [], _ => rfl
  | a :: l, h => by
    have ih := insertionSort_congr r s l
      (fun x hx y hy => h x (List.mem_cons_of_mem _ hx) y (List.mem_cons_of_mem _ hy))
    simp only [List.insertionSort, ih]
    apply orderedInsert_congr
    intro b hb
    exact h a (List.mem_cons_self _ _) b
      (List.mem_cons_of_mem _ ((List.mem_insertionSort s).mp hb))

theorem insertionSort_displayOrder (parseDate : String → Option Int) (l : List DisplayItem)
    (hdates : ∀ item ∈ l, ∃ x, parseDate item.createdAt = some x) :
    List.Pairwise
      (fun a b => b.priority < a.priority ∨
        (a.priority = b.priority ∧
          (parseDate b.createdAt).getD 0 ≤ (parseDate a.createdAt).getD 0))
      (List.insertionSort (sortsBefore parseDate) l) := by
  have hiff : ∀ a ∈ l, ∀ b ∈ l, sortsBefore parseDate a b ↔
      (b.priority < a.priority ∨ (a.priority = b.priority ∧
        (parseDate b.createdAt).getD 0 ≤ (parseDate a.createdAt).getD 0)) := by
    intro a ha b hb
    obtain ⟨x, hx⟩ := hdates a ha
    obtain ⟨y, hy⟩ := hdates b hb
    rw [sortsBefore_iff parseDate a b x y hx hy, hx, hy]
    rfl
  rw [insertionSort_congr (sortsBefore parseDate)
    (fun a b => b.priority < a.priority ∨ (a.priority = b.priority ∧
      (parseDate b.createdAt).getD 0 ≤ (parseDate a.createdAt).getD 0)) l hiff]
  exact @List.sorted_insertionSort _ _ _
    ⟨fun a b => by
      rcases lt_trichotomy a.priority b.priority with h | h | h
      · right; left; exact h
      · rcases le_total ((parseDate b.createdAt).getD 0) ((parseDate a.createdAt).getD 0)
          with h' | h'
        · left; right; exact ⟨h, h'⟩
        · right; right; exact ⟨h.symm, h'⟩
      · left; left; exact h⟩
    ⟨fun a b c => by
      rintro (h1 | ⟨h1, t1⟩) (h2 | ⟨h2, t2⟩)
      · left; omega
      · left; omega
      · left; omega
      · right; exact ⟨by omega, by omega⟩⟩ l

theorem loadContent_currentContent (parseDate : String → Option Int) (d : DisplayManager)
    (l : List DisplayItem) :
    (DisplayManager.loadContent parseDate d l).currentContent =
        List.insertionSort (sortsBefore parseDate)
          (l.filter fun item => decide (item.zone = d.zone) || decide (item.zone = "all")) ∧
      ((l.filter fun item => decide (item.zone = d.zone) || decide (item.zone = "all")) ≠ [] →
        (DisplayManager.loadContent parseDate d l).currentIndex = 0 ∧
          (DisplayManager.loadContent parseDate d l).isPlaying = true) := by
  by_cases hkept :
      (l.filter fun item => decide (item.zone = d.zone) || decide (item.zone = "all")) = []
  · rw [loadContent_empty parseDate d l hkept, hkept]
    exact ⟨rfl, fun h => absurd rfl h⟩
  · obtain ⟨hload, d', hok⟩ := loadContent_nonempty parseDate d l hkept
    have hsorted : List.insertionSort (sortsBefore parseDate)
        (l.filter fun item => decide (item.zone = d.zone) || decide (item.zone = "all")) ≠ [] := by
      intro h
      have := congrArg List.length h
      rw [List.length_insertionSort] at this
      exact hkept (List.length_eq_zero.mp this)
    obtain ⟨d2, item, hok2, -, hcontent, hidx, hplay, -⟩ := startPlayback_nonempty
      { d with currentContent := (List.insertionSort (sortsBefore parseDate)
          (l.filter fun item => decide (item.zone = d.zone) || decide (item.zone = "all"))) }
      hsorted
    rw [hload, hok2]
    exact ⟨hcontent, fun _ => ⟨hidx, hplay⟩⟩

/-- C22, as the code has it: `loadContent(L)` keeps the items of L whose
zone field is the zone of the display or `all` and drops the others; the
current set is a rearrangement of the kept items, the index is reset to 0 and
playback runs when any item is kept.  When every creation time parses, the
current set is ordered by priority descending and, among equal priorities, by
`createdAt` descending (newest first).  When no item is dropped and the
priorities of L are strictly descending, the current set is exactly L in the
same order. -/
theorem loadContent_filters_and_sorts (parseDate : String → Option Int) (d : DisplayManager)
    (l : List DisplayItem) :
    List.Perm (DisplayManager.loadContent parseDate d l).currentContent
        (l.filter fun item => decide (item.zone = d.zone) || decide (item.zone = "all")) ∧
      ((l.filter fun item => decide (item.zone = d.zone) || decide (item.zone = "all")) ≠ [] →
        (DisplayManager.loadContent parseDate d l).currentIndex = 0 ∧
          (DisplayManager.loadContent parseDate d l).isPlaying = true) ∧
      ((∀ item ∈ l, ∃ x, parseDate item.createdAt = some x) →
        List.Pairwise
          (fun a b => b.priority < a.priority ∨
            (a.priority = b.priority ∧
              (parseDate b.createdAt).getD 0 ≤ (parseDate a.createdAt).getD 0))
          (DisplayManager.loadContent parseDate d l).currentContent) ∧
      ((∀ item ∈ l, item.zone = d.zone ∨ item.zone = "all") →
        List.Pairwise (fun a b : DisplayItem => b.priority < a.priority) l →
        (DisplayManager.loadContent parseDate d l).currentContent = l) := by
  have hcur := loadContent_currentContent parseDate d l
  refine ⟨?_, hcur.2, ?_, ?_⟩
  · rw [hcur.1]; exact List.perm_insertionSort _ _
  · intro hdates
    rw [hcur.1]
    apply insertionSort_displayOrder
    intro item hitem
    exact hdates item (List.mem_of_mem_filter hitem)
  · intro hzones hprio
    rw [hcur.1]
    have hkeep : (l.filter fun item =>
        decide (item.zone = d.zone) || decide (item.zone = "all")) = l := by
      rw [List.filter_eq_self]
      intro item hitem
      rcases hzones item hitem with h | h <;> simp [h]
    rw [hkeep]
    apply List.Sorted.insertionSort_eq
    refine hprio.imp ?_
    intro a b hlt
    have hor : ∀ p : Int, (if p = 0 then 0 else p) = p := by
      intro p
      by_cases h : p = 0
      · rw [if_pos h, h]
      · rw [if_neg h]
    have hne : a.priority ≠ b.priority := by omega
    unfold sortsBefore compareItems
    simp only [hor, ne_eq, hne, not_false_eq_true, if_true]
    omega

/-- C22, as the code has it, for the list `[B, A]` of priorities 5 and 1
in zone reception: it is loaded as it is, with the index at 0. -/
theorem loadContent_filters_and_sorts_witness :
    (DisplayManager.loadContent isoDate (DisplayManager.new "reception")
        [sampleItem "contentB" "reception" 5 10,
          sampleItem "contentA" "reception" 1 30]).currentContent =
      [sampleItem "contentB" "reception" 5 10, sampleItem "contentA" "reception" 1 30] :=
  (loadContent_filters_and_sorts isoDate (DisplayManager.new "reception")
    [sampleItem "contentB" "reception" 5 10, sampleItem "contentA" "reception" 1 30]).2.2.2
    (by decide) (by decide)

/-- C22 as stated fails: the resolver returns for zone reception the three
rows shop content (priority 9), old content and new content (both priority 1,
the old one scheduled first); loaded into a display of zone reception, the row
whose content carries zone shop is dropped and the two others are played
newest first, the reverse of the order of the resolver. -/
theorem loadContent_drops_and_reorders :
    ((DatabaseManager.getActiveSchedule fifoStore noon.now "reception").map rowObject).map
        (fun item => item.id) = ["contentShop", "contentOld", "contentNew"] ∧
      (DisplayManager.loadContent isoDate (DisplayManager.new "reception")
        ((DatabaseManager.getActiveSchedule fifoStore noon.now "reception").map
          rowObject)).currentContent.map (fun item => item.id) =
        ["contentNew", "contentOld"] := by
  decide

/-! ## The duration of an uploaded content item -/

theorem uploadDuration_ne_zero (parseInt : Option String → Option Int)
    (duration : Option String) :
    uploadDuration parseInt duration ≠ 0 ∧
      (uploadDuration parseInt duration = 10 ∨
        parseInt duration = some (uploadDuration parseInt duration)) := by
  unfold uploadDuration
  cases hp : parseInt duration with
  | none => exact ⟨by decide, Or.inl rfl⟩
  | some n =>
    by_cases h0 : n = 0
    · simp only [h0, if_true]
      exact ⟨by decide, Or.inl trivial⟩
    · simp only [h0, if_false]
      exact ⟨h0, Or.inr trivial⟩

theorem addContent_content (st st1 : Store) (now : String) (cd : ContentRow)
    (h : ContentManager.addContent st now cd = .ok st1) :
    st1.content = st.content ++ [{ cd with isActive := 1, updatedAt := none }] := by
  unfold ContentManager.addContent DatabaseManager.addContent at h
  by_cases hdup : (st.content.any fun c => decide (c.id = cd.id)) = true
  · simp only [hdup, if_true] at h; cases h
  · simp only [hdup, Bool.false_eq_true, if_false] at h
    injection h with h
    rw [← h]
    rfl

/-- C25, as the code has it: for every upload that `POST /api/content/upload`
accepts, the record stored has the duration `parseInt(body.duration) || 10`:
the integer read from the field when that is a non-zero integer, of either
sign, and 10 otherwise; it is never zero, and the dwell timer armed for an
item of duration `n` other than zero has the delay `n * 1000` ms. -/
theorem upload_duration (parseInt : Option String → Option Int) (st : Store)
    (now uuid : String) (file : Option UploadFile) (body : UploadBody)
    (hok : (Server.uploadContent parseInt st now uuid file body).1 = 200) :
    (∃ row, (Server.uploadContent parseInt st now uuid file body).2.1.content =
        st.content ++ [row] ∧ row.id = uuid ∧
        row.duration = uploadDuration parseInt body.duration ∧ row.duration ≠ 0 ∧
        (row.duration = 10 ∨ parseInt body.duration = some row.duration)) ∧
      (∀ (d : DisplayManager) (item : DisplayItem), d.isPlaying = true →
        d.currentContent[d.currentIndex]? = some item → item.duration ≠ 0 →
        ∃ d', d.scheduleNextContent = .ok d' ∧
          { id := d.nextTimerId, delay := item.duration * 1000 } ∈ d'.pending) := by
  refine ⟨?_, ?_⟩
  · unfold Server.uploadContent at hok ⊢
    cases file with
    | none => simp only at hok; cases hok
    | some f =>
      simp only at hok ⊢
      by_cases hmime : (!("image/".toList.isPrefixOf f.mimetype.toList ||
          "video/".toList.isPrefixOf f.mimetype.toList)) = true
      · simp only [hmime, if_true] at hok; cases hok
      · simp only [hmime, Bool.false_eq_true, if_false] at hok ⊢
        cases htype : body.type with
        | none => simp only [htype] at hok; cases hok
        | some type =>
          simp only [htype] at hok ⊢
          split at hok
          · rename_i st1 hadd
            have hcontent := addContent_content st st1 now _ hadd
            exact ⟨_, hcontent, rfl, rfl, (uploadDuration_ne_zero parseInt body.duration).1,
              (uploadDuration_ne_zero parseInt body.duration).2⟩
          · cases hok
  · intro d item hplay hitem hne
    refine ⟨_, scheduleNextContent_playing d item hplay hitem, ?_⟩
    simp only [hne, if_false, List.mem_append, List.mem_singleton, or_true]

/-- C25, as the code has it, for an upload with the duration field `20`:
the record is stored with duration 20. -/
theorem upload_duration_witness :
    ∃ row, (Server.uploadContent decimalInt receptionStore noon.now "u1" (some sampleUpload)
        { type := some "image", title := some "Promo", zone := some "reception",
          duration := some "20" }).2.1.content = receptionStore.content ++ [row] ∧
      row.duration = 20 :=
  (upload_duration decimalInt receptionStore noon.now "u1" (some sampleUpload)
    { type := some "image", title := some "Promo", zone := some "reception",
      duration := some "20" } (by decide)).1.elim
    fun row h => ⟨row, h.1, h.2.2.1.trans (by decide)⟩

/-- C25 as stated fails: an upload with the duration field `-5` is accepted
with status 200 and stored with duration -5; an item of that duration is
played with a dwell timer of -5000 ms. -/
theorem upload_stores_negative_duration :
    (Server.uploadContent decimalInt receptionStore noon.now "u1" (some sampleUpload)
        { type := some "image", title := some "Promo", zone := some "reception",
          duration := some "-5" }).1 = 200 ∧
      ((Server.uploadContent decimalInt receptionStore noon.now "u1" (some sampleUpload)
        { type := some "image", title := some "Promo", zone := some "reception",
          duration := some "-5" }).2.1.content.map fun c => (c.id, c.duration)) =
        [("contentA", 10), ("contentB", 10), ("u1", -5)] ∧
      (DisplayManager.loadContent isoDate (DisplayManager.new "reception")
        [sampleItem "u1" "reception" 1 (-5)]).pending = [{ id := 1, delay := -5000 }] := by
  decide

end NarrowCasting
